import Mathlib

/-!
# Texture sets of wlroots (render/wlr_texture.c, types/buffer/client.c)

A shallow embedding of the texture-set code: the per-buffer cache that pairs
every renderer of a multi-GPU registry with a texture, imports the buffer
lazily and falls back to a CPU readback for renderers that cannot import it;
and of the client buffer that wraps a texture set.

Pointers are modelled as follows.  A renderer is a handle (`Nat`); a NULL
renderer pointer is `none`.  The heap objects the code shares with its
collaborators (the buffer the set is built for, the destroy-signal listener
lists of the renderers) live in `World`, which also carries the log of the
calls the code makes on its collaborators.  The collaborators themselves (the
renderer implementations, the allocator) are an `Env` of functions that may
depend on the whole log so far, so their answers can change over time.
A C function that may stop on a failed assertion or on a NULL dereference
returns `Except Fault`.
-/

namespace WlrTexture

/-- Ways in which the C code stops instead of returning. -/
inductive Fault where
  | assertion
  | null_deref
  | out_of_bounds
deriving DecidableEq, Repr

/-- Conversion of a C `int` to `uint32_t`. -/
def u32 (x : Int) : Nat := (x % 4294967296).toNat

/-- The fourcc code of DRM_FORMAT_ARGB8888 (drm_fourcc.h: 'A' 'R' '2' '4'). -/
def DRM_FORMAT_ARGB8888 : Nat := 0x34325241

/-- The fourcc code of DRM_FORMAT_XRGB8888 (drm_fourcc.h: 'X' 'R' '2' '4'). -/
def DRM_FORMAT_XRGB8888 : Nat := 0x34325258

/-- Host-memory pixels (the bytes behind a `void *`). -/
abbrev PixelData := List Nat

/-- The fields of `struct wlr_buffer` the code reads or writes. -/
structure wlr_buffer where
  width : Int
  height : Int
  n_locks : Int
  dropped : Bool
deriving DecidableEq, Repr

/-- Modelled from the spec: wlr_buffer_lock (types/wlr_buffer.c is not under
src/): "lock() increments lock count and returns the same handle". -/
def wlr_buffer_lock (b : wlr_buffer) : wlr_buffer :=
  { b with n_locks := b.n_locks + 1 }

/-- Modelled from the spec: wlr_buffer_unlock (types/wlr_buffer.c is not
under src/): "unlock() decrements it". -/
def wlr_buffer_unlock (b : wlr_buffer) : wlr_buffer :=
  { b with n_locks := b.n_locks - 1 }

/-- The fields of `struct wlr_texture` set by wlr_texture_init, and the
identity of the allocation (`id`). -/
structure wlr_texture where
  id : Nat
  renderer : Nat
  width : Nat
  height : Nat
deriving DecidableEq, Repr

/-- What a renderer is asked to import by `texture_from_buffer`: the producer
buffer of the set, or the temporary read-only buffer wlr_texture_from_pixels
wraps around host pixels. -/
inductive Source where
  | buffer (width height : Int)
  | pixels (format stride width height : Nat) (data : PixelData)
deriving DecidableEq, Repr

/-- A pixman box. -/
structure pixman_box32 where
  x1 : Int
  y1 : Int
  x2 : Int
  y2 : Int
deriving DecidableEq, Repr

/-- A pixman region: its bounding box and its rectangles. -/
structure pixman_region32 where
  extents : pixman_box32
  rects : List pixman_box32
deriving DecidableEq, Repr

/-- The calls the code makes on its collaborators, and the entry into
the import walk. -/
inductive Event where
  | egl_save_context
  | egl_restore_context
  | alloc
  | import_buffer
  | texture_from_buffer (renderer : Nat) (src : Source)
  | begin_with_buffer (renderer : Nat)
  | preferred_read_format (renderer : Nat)
  | read_pixels (renderer format stride width height : Nat)
  | renderer_end (renderer : Nat)
  | texture_update (texture : wlr_texture) (next : wlr_buffer) (damage : pixman_region32)
  | texture_destroy (texture : wlr_texture)
deriving DecidableEq, Repr

/-- The collaborators: allocator and renderer implementations.  Every answer
may depend on the log of all earlier calls. -/
structure Env where
  alloc : List Event → Bool
  has_texture_from_buffer : Nat → Bool
  texture_from_buffer : List Event → Nat → Source → Option (Nat × Nat)
  begin_with_buffer : List Event → Nat → Bool
  preferred_read_format : List Event → Nat → Nat
  read_pixels : List Event → Nat → Nat → Nat → Nat → Nat → Option PixelData
  has_update_from_buffer : Nat → Bool
  update_from_buffer : List Event → wlr_texture → wlr_buffer → pixman_region32 → Bool

/-- The heap shared with the collaborators: the buffer the set is built for,
the listeners of the set linked into renderer destroy signals (renderer,
pairing index), the number of textures allocated so far, and the call log. -/
structure World where
  buffer : wlr_buffer
  listeners : List (Nat × Nat)
  textures_created : Nat
  trace : List Event
deriving DecidableEq, Repr

/-- Append one event to the call log. -/
def World.log (w : World) (e : Event) : World :=
  { w with trace := w.trace ++ [e] }

/-- The registry `struct wlr_multi_gpu` (include/backend/multi.h): the primary
renderer and the member list in wl_list order. -/
structure wlr_multi_gpu where
  primary : Option Nat
  renderers : List Nat
deriving DecidableEq, Repr

/-- A renderer as the code sees it: its handle and its `multi_gpu` pointer
(the registry it points to, if any). -/
structure wlr_renderer where
  handle : Nat
  multi_gpu : Option wlr_multi_gpu
deriving DecidableEq, Repr

/-- One slot of a texture set, `struct wlr_texture_renderer_pair`; whether its
listener is linked is recorded in `World.listeners`. -/
structure wlr_texture_renderer_pair where
  renderer : Option Nat
  texture : Option wlr_texture
deriving DecidableEq, Repr

/-- The texture set, `struct wlr_texture_set`.  Its `buffer` pointer is
`World.buffer`; the calloc-ed array `pairings` of `pairing_count` slots is a
list. -/
structure wlr_texture_set where
  multi_gpu : Option wlr_multi_gpu
  pairings : List wlr_texture_renderer_pair
  native_pair : Int
  width : Nat
  height : Nat
  format : Nat
  pixel_data : Option PixelData
deriving DecidableEq, Repr

/-- The field `pairing_count`: the length of the pairing array. -/
def wlr_texture_set.pairing_count (set : wlr_texture_set) : Nat :=
  set.pairings.length

/-- Read `set->pairings[i]` for a C `int` index. -/
def pair_at (set : wlr_texture_set) (i : Int) : Except Fault wlr_texture_renderer_pair :=
  if i < 0 then .error .out_of_bounds
  else match set.pairings[i.toNat]? with
    | some p => .ok p
    | none => .error .out_of_bounds

/-- Write `set->pairings[i].texture = texture`. -/
def set_texture (set : wlr_texture_set) (i : Nat) (texture : Option wlr_texture) :
    wlr_texture_set :=
  { set with pairings := set.pairings.modify (fun p => { p with texture := texture }) i }

/-- Write `set->pairings[i].renderer = renderer`. -/
def set_renderer (set : wlr_texture_set) (i : Nat) (renderer : Option Nat) :
    wlr_texture_set :=
  { set with pairings := set.pairings.modify (fun p => { p with renderer := renderer }) i }

/-- wlr_texture_destroy on a non-NULL texture: the texture is released, through
the implementation's destroy hook or by free. -/
def wlr_texture_destroy (w : World) (texture : wlr_texture) : World :=
  w.log (.texture_destroy texture)

/-- wlr_texture_from_buffer (lines 76-82): NULL when the renderer has no
`texture_from_buffer` hook, else the hook's answer; a new texture gets a fresh
identity.  The call itself is logged, whether or not the hook exists; a NULL
renderer is dereferenced. -/
def wlr_texture_from_buffer (env : Env) (w : World) (renderer : Option Nat) (src : Source) :
    Except Fault (World × Option wlr_texture) :=
  match renderer with
  | none => .error .null_deref
  | some r =>
    let w1 := w.log (.texture_from_buffer r src)
    if env.has_texture_from_buffer r then
      match env.texture_from_buffer w.trace r src with
      | some (width, height) =>
        .ok ({ w1 with textures_created := w.textures_created + 1 },
          some { id := w.textures_created, renderer := r, width := width, height := height })
      | none => .ok (w1, none)
    else .ok (w1, none)

/-- wlr_texture_from_pixels (lines 35-57): four assertions, then a temporary
read-only buffer (whose creation may fail) is imported into the renderer. -/
def wlr_texture_from_pixels (env : Env) (w : World) (renderer : Option Nat)
    (fmt stride width height : Nat) (data : Option PixelData) :
    Except Fault (World × Option wlr_texture) :=
  if width = 0 then .error .assertion
  else if height = 0 then .error .assertion
  else if stride = 0 then .error .assertion
  else match data with
    | none => .error .assertion
    | some d =>
      let w1 := w.log .alloc
      if env.alloc w.trace then
        wlr_texture_from_buffer env w1 renderer (.pixels fmt stride width height d)
      else .ok (w1, none)

/-- wlr_texture_update_from_buffer (lines 84-99). -/
def wlr_texture_update_from_buffer (env : Env) (w : World) (texture : wlr_texture)
    (buffer : wlr_buffer) (damage : pixman_region32) : World × Bool :=
  if !env.has_update_from_buffer texture.renderer then (w, false)
  else if texture.width ≠ u32 buffer.width ∨ texture.height ≠ u32 buffer.height then (w, false)
  else
    let extents := damage.extents
    if extents.x1 < 0 ∨ extents.y1 < 0 ∨ extents.x2 > buffer.width ∨
        extents.y2 > buffer.height then (w, false)
    else
      ((w.log (.texture_update texture buffer damage)),
        env.update_from_buffer w.trace texture buffer damage)

/-- The handler handle_renderer_destroy (lines 118-128) of pairing `pair`. -/
def handle_renderer_destroy (w : World) (set : wlr_texture_set) (pair : Nat) :
    Except Fault (World × wlr_texture_set) :=
  match set.pairings[pair]? with
  | none => .error .out_of_bounds
  | some p =>
    let w1 := match p.texture with
      | some t => wlr_texture_destroy w t
      | none => w
    let set1 := set_texture (set_renderer set pair none) pair none
    if w1.listeners.any (fun l => l.2 == pair) then
      .ok ({ w1 with listeners := w1.listeners.filter (fun l => l.2 != pair) }, set1)
    else .error .null_deref

/-- wlr_texture_set_init_pair (lines 130-137). -/
def wlr_texture_set_init_pair (w : World) (set : wlr_texture_set) (pair : Nat)
    (renderer : Nat) : Except Fault (World × wlr_texture_set) :=
  if pair < set.pairing_count then
    .ok ({ w with listeners := w.listeners ++ [(renderer, pair)] },
      set_renderer set pair (some renderer))
  else .error .assertion

/-- The loop of lines 161-166: one pairing per registry member, in list
order. -/
def init_pairs (w : World) (set : wlr_texture_set) : List Nat → Nat →
    Except Fault (World × wlr_texture_set)
  | [], _ => .ok (w, set)
  | r :: rs, i =>
    match wlr_texture_set_init_pair w set i r with
    | .error f => .error f
    | .ok (w1, set1) => init_pairs w1 set1 rs (i + 1)

/-- The state calloc leaves a new set in, after lines 145-146 and with a
zeroed pairing array of `n` slots. -/
def empty_set (multi_gpu : Option wlr_multi_gpu) (n : Nat) : wlr_texture_set :=
  { multi_gpu := multi_gpu
    pairings := List.replicate n { renderer := none, texture := none }
    native_pair := -1
    width := 0
    height := 0
    format := 0
    pixel_data := none }

/-- wlr_texture_set_from_renderer (lines 139-184); `none` is the NULL
result. -/
def wlr_texture_set_from_renderer (env : Env) (w : World) (renderer : wlr_renderer) :
    Except Fault (World × Option wlr_texture_set) :=
  let w1 := w.log .alloc
  if !env.alloc w.trace then .ok (w1, none)
  else
    let w2 := w1.log .alloc
    match renderer.multi_gpu with
    | some mg =>
      if !env.alloc w1.trace then .ok (w2, none)
      else
        match init_pairs w2 (empty_set (some mg) mg.renderers.length) mg.renderers 0 with
        | .error f => .error f
        | .ok (w3, set) => .ok ({ w3 with buffer := wlr_buffer_lock w3.buffer }, some set)
    | none =>
      if !env.alloc w1.trace then .ok (w2, none)
      else
        match wlr_texture_set_init_pair w2 (empty_set none 1) 0 renderer.handle with
        | .error f => .error f
        | .ok (w3, set) => .ok ({ w3 with buffer := wlr_buffer_lock w3.buffer }, some set)

/-- The loop of wlr_texture_set_import_buffer (lines 198-209), with `n` slots
still to visit from index `i`. -/
def walk_loop (env : Env) : Nat → Nat → World → wlr_texture_set →
    Except Fault (World × wlr_texture_set × Bool)
  | 0, _, w, set => .ok (w, set, false)
  | n + 1, i, w, set =>
    match set.pairings[i]? with
    | none => .error .out_of_bounds
    | some p =>
      if p.texture.isSome then .error .assertion
      else
        match wlr_texture_from_buffer env w p.renderer
            (.buffer w.buffer.width w.buffer.height) with
        | .error f => .error f
        | .ok (w1, some t) =>
          .ok (w1, { set_texture set i (some t) with
            width := t.width, height := t.height, native_pair := i }, true)
        | .ok (w1, none) => walk_loop env n (i + 1) w1 (set_texture set i none)

/-- wlr_texture_set_import_buffer (lines 190-212), called with the buffer of
the set. -/
def wlr_texture_set_import_buffer (env : Env) (w : World) (set : wlr_texture_set) :
    Except Fault (World × wlr_texture_set × Bool) :=
  walk_loop env set.pairing_count 0 (w.log .import_buffer) set

/-- The loop of wlr_texture_set_destroy (lines 396-401) from index `i`:
wl_list_remove of each listener (a NULL dereference when it is not linked) and
destruction of each texture. -/
def destroy_loop : List wlr_texture_renderer_pair → Nat → World → Except Fault World
  | [], _, w => .ok w
  | p :: ps, i, w =>
    if w.listeners.any (fun l => l.2 == i) then
      let w1 := { w with listeners := w.listeners.filter (fun l => l.2 != i) }
      match p.texture with
      | some t => destroy_loop ps (i + 1) (wlr_texture_destroy w1 t)
      | none => destroy_loop ps (i + 1) w1
    else .error .null_deref

/-- wlr_texture_set_destroy (lines 392-407). -/
def wlr_texture_set_destroy (w : World) (set : wlr_texture_set) : Except Fault World :=
  destroy_loop set.pairings 0 { w with buffer := wlr_buffer_unlock w.buffer }

/-- wlr_texture_set_from_buffer (lines 214-232). -/
def wlr_texture_set_from_buffer (env : Env) (w : World) (renderer : wlr_renderer) :
    Except Fault (World × Option wlr_texture_set) :=
  match wlr_texture_set_from_renderer env w renderer with
  | .error f => .error f
  | .ok (w1, none) => .ok (w1, none)
  | .ok (w1, some set) =>
    match wlr_texture_set_import_buffer env w1 set with
    | .error f => .error f
    | .ok (w2, set2, true) => .ok (w2, some set2)
    | .ok (w2, set2, false) =>
      match wlr_texture_set_destroy w2 set2 with
      | .error f => .error f
      | .ok w3 => .ok (w3, none)

/-- The function read_pixels (lines 234-262); its `format` argument is never
used by the body. -/
def read_pixels (env : Env) (w : World) (renderer : Option Nat) (_format : Nat) :
    Except Fault (World × Option PixelData) :=
  let stride : Int := w.buffer.width * 4
  let w1 := w.log .alloc
  if !env.alloc w.trace then .ok (w1, none)
  else
    match renderer with
    | none => .error .null_deref
    | some r =>
      let w2 := { w1 with buffer := wlr_buffer_lock w1.buffer }
      let w3 := w2.log (.begin_with_buffer r)
      if !env.begin_with_buffer w2.trace r then
        .ok ({ w3 with buffer := wlr_buffer_unlock w3.buffer }, none)
      else
        let w4 := w3.log (.read_pixels r DRM_FORMAT_ARGB8888 (u32 stride)
          (u32 w.buffer.width) (u32 w.buffer.height))
        let result := env.read_pixels w3.trace r DRM_FORMAT_ARGB8888 (u32 stride)
          (u32 w.buffer.width) (u32 w.buffer.height)
        let w5 := w4.log (.renderer_end r)
        .ok ({ w5 with buffer := wlr_buffer_unlock w5.buffer }, result)

/-- The function get_drm_format (lines 264-275). -/
def get_drm_format (env : Env) (w : World) (renderer : Option Nat) :
    Except Fault (World × Option Nat) :=
  match renderer with
  | none => .error .null_deref
  | some r =>
    let w1 := w.log (.begin_with_buffer r)
    if !env.begin_with_buffer w.trace r then .ok (w1, none)
    else
      let w2 := w1.log (.preferred_read_format r)
      .ok (w2.log (.renderer_end r), some (env.preferred_read_format w1.trace r))

/-- wlr_texture_set_get_linear_data (lines 277-297). -/
def wlr_texture_set_get_linear_data (env : Env) (w : World) (set : wlr_texture_set) :
    Except Fault (World × wlr_texture_set × Bool) :=
  match pair_at set set.native_pair with
  | .error f => .error f
  | .ok native =>
    if native.texture.isNone then .error .assertion
    else if set.pixel_data.isSome then .ok (w, set, true)
    else
      match get_drm_format env w native.renderer with
      | .error f => .error f
      | .ok (w1, none) => .ok (w1, set, false)
      | .ok (w1, some format) =>
        let set1 := { set with format := format }
        match read_pixels env w1 native.renderer set1.format with
        | .error f => .error f
        | .ok (w2, data) =>
          .ok (w2, { set1 with pixel_data := data }, data.isSome)

/-- The search of lines 320-325: the loop does not stop at a match, so the
last pairing bound to `renderer` wins. -/
def find_pair (renderer : Option Nat) : List wlr_texture_renderer_pair → Nat →
    Option Nat → Option Nat
  | [], _, found => found
  | p :: ps, i, found =>
    find_pair renderer ps (i + 1) (if p.renderer = renderer then some i else found)

/-- Lines 342-350 of wlr_texture_set_get_tex_for_renderer: the linear-readback
fallback for pairing `j`. -/
def linear_fallback (env : Env) (w : World) (set : wlr_texture_set) (j : Nat)
    (renderer : Option Nat) : Except Fault (World × wlr_texture_set × Option wlr_texture) :=
  match wlr_texture_set_get_linear_data env w set with
  | .error f => .error f
  | .ok (w1, set1, false) => .ok (w1.log .egl_restore_context, set1, none)
  | .ok (w1, set1, true) =>
    let stride := (set1.width * 4) % 4294967296
    match wlr_texture_from_pixels env w1 renderer DRM_FORMAT_ARGB8888 stride set1.width
        set1.height set1.pixel_data with
    | .error f => .error f
    | .ok (w2, texture) =>
      .ok (w2.log .egl_restore_context, set_texture set1 j texture, texture)

/-- Lines 319-359 of wlr_texture_set_get_tex_for_renderer: everything after
the import. -/
def lookup_or_import (env : Env) (w : World) (set : wlr_texture_set)
    (renderer : Option Nat) : Except Fault (World × wlr_texture_set × Option wlr_texture) :=
  match find_pair renderer set.pairings 0 none with
  | none => .ok (w.log .egl_restore_context, set, none)
  | some j =>
    match set.pairings[j]? with
    | none => .error .out_of_bounds
    | some p =>
      match p.texture with
      | some t => .ok (w.log .egl_restore_context, set, some t)
      | none =>
        match wlr_texture_from_buffer env w renderer
            (.buffer w.buffer.width w.buffer.height) with
        | .error f => .error f
        | .ok (w1, some t) =>
          .ok (w1.log .egl_restore_context, set_texture set j (some t), some t)
        | .ok (w1, none) => linear_fallback env w1 (set_texture set j none) j renderer

/-- wlr_texture_set_get_tex_for_renderer (lines 299-359). -/
def wlr_texture_set_get_tex_for_renderer (env : Env) (w : World) (set : wlr_texture_set)
    (renderer : Option Nat) : Except Fault (World × wlr_texture_set × Option wlr_texture) :=
  let w0 := w.log .egl_save_context
  if set.native_pair < 0 then
    match wlr_texture_set_import_buffer env w0 set with
    | .error f => .error f
    | .ok (w1, set1, false) => .ok (w1.log .egl_restore_context, set1, none)
    | .ok (w1, set1, true) => lookup_or_import env w1 set1 renderer
  else lookup_or_import env w0 set renderer

/-- wlr_texture_set_update_from_buffer (lines 377-390): the loop over the
pairings, stopping at the first texture whose update fails. -/
def wlr_texture_set_update_from_buffer.loop (env : Env) (next : wlr_buffer)
    (damage : pixman_region32) : List wlr_texture_renderer_pair → World → World × Bool
  | [], w => (w, true)
  | p :: ps, w =>
    match p.texture with
    | some t =>
      match wlr_texture_update_from_buffer env w t next damage with
      | (w1, true) => wlr_texture_set_update_from_buffer.loop env next damage ps w1
      | (w1, false) => (w1, false)
    | none => wlr_texture_set_update_from_buffer.loop env next damage ps w

/-- wlr_texture_set_update_from_buffer (lines 377-390). -/
def wlr_texture_set_update_from_buffer (env : Env) (w : World) (set : wlr_texture_set)
    (next : wlr_buffer) (damage : pixman_region32) : World × Bool :=
  wlr_texture_set_update_from_buffer.loop env next damage set.pairings w

/-- wl_signal_emit on the destroy signal of a renderer, for the listeners of
the set found there: the handler of each listed pairing runs, in list order. -/
def renderer_destroy_loop : List (Nat × Nat) → World → wlr_texture_set →
    Except Fault (World × wlr_texture_set)
  | [], w, set => .ok (w, set)
  | l :: ls, w, set =>
    match handle_renderer_destroy w set l.2 with
    | .error f => .error f
    | .ok (w1, set1) => renderer_destroy_loop ls w1 set1

/-- The destroy notification of renderer `r` fires: every listener of the set
linked into the destroy signal of `r` is notified. -/
def renderer_destroy (w : World) (set : wlr_texture_set) (r : Nat) :
    Except Fault (World × wlr_texture_set) :=
  renderer_destroy_loop (w.listeners.filter (fun l => l.1 == r)) w set

/-- wlr_texture_set_get_native_texture (lines 373-375): the read of
`set->pairings[set->native_pair]`, whatever the index. -/
def wlr_texture_set_get_native_texture (set : wlr_texture_set) :
    Except Fault (Option wlr_texture) :=
  match pair_at set set.native_pair with
  | .error f => .error f
  | .ok p => .ok p.texture

/-- wlr_texture_set_get_primary_texture (lines 361-371).  The registry the set
points to is the value held in `set.multi_gpu`. -/
def wlr_texture_set_get_primary_texture (env : Env) (w : World) (set : wlr_texture_set) :
    Except Fault (World × wlr_texture_set × Option wlr_texture) :=
  match set.multi_gpu with
  | some mg => wlr_texture_set_get_tex_for_renderer env w set mg.primary
  | none =>
    match wlr_texture_set_get_native_texture set with
    | .error f => .error f
    | .ok texture => .ok (w, set, texture)

/-- Modelled from the spec: wlr_buffer_init (types/wlr_buffer.c is not under
src/): a new Buffer has its width and height, lock count 0, and no drop has
been requested. -/
def wlr_buffer_init (width height : Int) : wlr_buffer :=
  { width := width, height := height, n_locks := 0, dropped := false }

/-- Modelled from the spec: wlr_buffer_drop (types/wlr_buffer.c is not under
src/): "drop() marks the buffer eligible for destruction once all locks are
released".  The destruction of a buffer dropped without a lock is not
represented. -/
def wlr_buffer_drop (b : wlr_buffer) : wlr_buffer :=
  { b with dropped := true }

/-- Subtraction of two `size_t` values (taken as 64 bits wide): it wraps. -/
def size_sub (a b : Int) : Int := (a - b) % 18446744073709551616

/-- The client buffer, `struct wlr_client_buffer`: its own buffer `base`,
whether `source` still points to the producer buffer, whether its
source-destroy listener is linked, the texture set it owns, and
`n_ignore_locks`. -/
structure wlr_client_buffer where
  base : wlr_buffer
  source : Bool
  source_destroy : Bool
  texture_set : wlr_texture_set
  n_ignore_locks : Int
deriving DecidableEq, Repr

/-- wlr_client_buffer_create (client.c, lines 56-83); `none` is the NULL
result. -/
def wlr_client_buffer_create (env : Env) (w : World) (renderer : wlr_renderer) :
    Except Fault (World × Option wlr_client_buffer) :=
  match wlr_texture_set_from_buffer env w renderer with
  | .error f => .error f
  | .ok (w1, none) => .ok (w1, none)
  | .ok (w1, some texture_set) =>
    let w2 := w1.log .alloc
    if !env.alloc w1.trace then
      match wlr_texture_set_destroy w2 texture_set with
      | .error f => .error f
      | .ok w3 => .ok (w3, none)
    else
      let base := wlr_buffer_init w2.buffer.width w2.buffer.height
      .ok (w2, some
        { base := wlr_buffer_drop (wlr_buffer_lock base)
          source := true
          source_destroy := true
          texture_set := texture_set
          n_ignore_locks := 0 })

/-- wlr_client_buffer_apply_damage (client.c, lines 85-93). -/
def wlr_client_buffer_apply_damage (env : Env) (w : World) (client_buffer : wlr_client_buffer)
    (next : wlr_buffer) (damage : pixman_region32) : World × Bool :=
  if size_sub client_buffer.base.n_locks client_buffer.n_ignore_locks > 1 then (w, false)
  else wlr_texture_set_update_from_buffer env w client_buffer.texture_set next damage

/-- Modelled from the spec: WLR_DMABUF_MAX_PLANES, the number of planes of a
dmabuf (wlr/render/dmabuf.h is not under src/); the gap check of
params_create_common reads `fd[3]` as the last plane. -/
def WLR_DMABUF_MAX_PLANES : Nat := 4

/-- The fields of struct wlr_dmabuf_attributes that params_add writes.  The
arrays of WLR_DMABUF_MAX_PLANES entries are functions of the index; the code
reads and writes them below that bound only. -/
structure wlr_dmabuf_attributes where
  n_planes : Int
  modifier : Nat
  offset : Nat → Nat
  stride : Nat → Nat
  fd : Nat → Int

/-- The fields of struct wlr_linux_buffer_params_v1 that params_add and
params_create_common use: the attributes and the `has_modifier` flag. -/
structure wlr_linux_buffer_params_v1 where
  attributes : wlr_dmabuf_attributes
  has_modifier : Bool

/-- The protocol errors that params_add and the first checks of
params_create_common post. -/
inductive params_error where
  | already_used
  | plane_idx
  | plane_set
  | invalid_format
  | incomplete
deriving DecidableEq, Repr

/-- The params object that linux_dmabuf_create_params (lines 394-420) builds
when its allocation succeeds: zeroed memory, then every fd set to -1. -/
def linux_dmabuf_create_params : wlr_linux_buffer_params_v1 :=
  { attributes :=
      { n_planes := 0
        modifier := 0
        offset := fun _ => 0
        stride := fun _ => 0
        fd := fun i => if i < WLR_DMABUF_MAX_PLANES then -1 else 0 }
    has_modifier := false }

/-- The request handler params_add (lines 108-157).  `params` is the user data
of the resource, NULL once the params have been used.  A posted protocol error
leaves the params as they were. -/
def params_add (params : Option wlr_linux_buffer_params_v1) (fd : Int)
    (plane_idx offset stride modifier_hi modifier_lo : Nat) :
    Except params_error wlr_linux_buffer_params_v1 :=
  match params with
  | none => .error .already_used
  | some params =>
    if plane_idx ≥ WLR_DMABUF_MAX_PLANES then .error .plane_idx
    else if params.attributes.fd plane_idx ≠ -1 then .error .plane_set
    else
      let modifier := ((modifier_hi <<< 32) ||| modifier_lo) % 2 ^ 64
      if params.has_modifier ∧ modifier ≠ params.attributes.modifier then
        .error .invalid_format
      else
        .ok { attributes :=
                { n_planes := params.attributes.n_planes + 1
                  modifier := modifier
                  offset := Function.update params.attributes.offset plane_idx offset
                  stride := Function.update params.attributes.stride plane_idx stride
                  fd := Function.update params.attributes.fd plane_idx fd }
              has_modifier := true }

/-- Lines 199-219 of params_create_common: the three checks that post the
`incomplete` error. -/
def incomplete_checks (attribs : wlr_dmabuf_attributes) : Except params_error Unit :=
  if attribs.n_planes = 0 then .error .incomplete
  else if attribs.fd 0 = -1 then .error .incomplete
  else if (attribs.fd 3 ≥ 0 ∨ attribs.fd 2 ≥ 0) ∧ (attribs.fd 2 = -1 ∨ attribs.fd 1 = -1) then
    .error .incomplete
  else .ok ()

/-- A format of a struct wlr_drm_format_set: its code and its modifiers
(`len` is the number of modifiers). -/
structure wlr_drm_format where
  format : Nat
  modifiers : List Nat
deriving DecidableEq, Repr

/-- One entry of the shared format table. -/
structure wlr_dmabuf_format_table_entry where
  format : Nat
  modifier : Nat
deriving DecidableEq, Repr

/-- The format table of struct wlr_linux_dmabuf_v1: `len`, the mapped entries
`data` and the `indices` array; `size` is the byte size of the shared-memory
file behind `fd` and `ro_fd`. -/
structure format_table where
  len : Nat
  data : List wlr_dmabuf_format_table_entry
  indices : List Nat
  size : Nat
deriving DecidableEq, Repr

/-- The function dmabuf_format_table_init (lines 744-811).  `formats` is what
the renderer reports (NULL when it has none); `shm_ok`, `mmap_ok` and
`array_ok` say whether allocate_shm_file_pair, mmap and wl_array_add succeed;
`entry_size` is sizeof(struct wlr_dmabuf_format_table_entry).  The result is
`none` when the function returns false.  The indices are stored as uint16_t. -/
def dmabuf_format_table_init (formats : Option (List wlr_drm_format))
    (shm_ok mmap_ok array_ok : Bool) (entry_size : Nat) :
    Except Fault (Option format_table) :=
  match formats with
  | none => .ok none
  | some formats =>
    let len := (formats.map (fun fmt => fmt.modifiers.length)).sum
    let size := (len * entry_size) % 2 ^ 64
    if !shm_ok then .ok none
    else if !mmap_ok then .ok none
    else if !array_ok then .ok none
    else
      let data := formats.flatMap (fun fmt =>
        fmt.modifiers.map (fun m => { format := fmt.format, modifier := m }))
      if data.length ≠ len then .error .assertion
      else
        .ok (some { len := formats.length
                    data := data
                    indices := (List.range ((len * 2) % 2 ^ 64 / 2)).map (fun idx => idx % 2 ^ 16)
                    size := size })

/-- The size that feedback_send (lines 527-545) passes to the format_table
event: `format_table.len * sizeof(struct wlr_dmabuf_format_table_entry)`, a
size_t product converted to the 32-bit `size` argument of the event. -/
def feedback_send_table_size (table : format_table) (entry_size : Nat) : Nat :=
  (table.len * entry_size) % 2 ^ 64 % 2 ^ 32

/-! ## Vocabulary of the statements -/

/-- What renderer `r` answers to `texture_from_buffer` when the call log is
`tr`: the size of the new texture, or `none` when it cannot import `src` (or
has no such hook). -/
def renderer_answer (env : Env) (tr : List Event) (r : Nat) (src : Source) :
    Option (Nat × Nat) :=
  if env.has_texture_from_buffer r then env.texture_from_buffer tr r src else none

/-- The call log once the import walk, entered in world `w`, has made its
attempts on the first `k` renderers of `rs`, in order. -/
def walk_log (w : World) (rs : List Nat) (k : Nat) : List Event :=
  w.trace ++ Event.import_buffer ::
    (rs.take k).map (fun r => Event.texture_from_buffer r
      (.buffer w.buffer.width w.buffer.height))

/-- A pairing bound to renderer `r` that holds no texture. -/
def fresh_pair (r : Nat) : wlr_texture_renderer_pair :=
  { renderer := some r, texture := none }

/-- The renderers a set created for `renderer` is built over: the members of
its registry in list order, or the renderer alone. -/
def set_renderers (renderer : wlr_renderer) : List Nat :=
  match renderer.multi_gpu with
  | some mg => mg.renderers
  | none => [renderer.handle]

/-- The listener entries of pairings `i`, `i + 1`, ... bound to the renderers
`rs`. -/
def listeners_of : List Nat → Nat → List (Nat × Nat)
  | [], _ => []
  | r :: rs, i => (r, i) :: listeners_of rs (i + 1)

/-- The textures held by the pairings of a set, in pairing order. -/
def held (set : wlr_texture_set) : List wlr_texture :=
  set.pairings.filterMap (fun p => p.texture)

/-- What a request on `set` may add to the call log: the import walk is
entered only while the native index is negative, the native renderer is bound
and read back only while no linear copy is cached, host pixels uploaded are the
cached copy, and no texture is destroyed. -/
def allowed (set : wlr_texture_set) : Event → Prop
  | .egl_save_context => True
  | .egl_restore_context => True
  | .alloc => True
  | .import_buffer => set.native_pair < 0
  | .texture_from_buffer _ (.buffer _ _) => True
  | .texture_from_buffer _ (.pixels _ _ _ _ d) =>
    set.pixel_data = none ∨ set.pixel_data = some d
  | .begin_with_buffer _ => set.pixel_data = none
  | .preferred_read_format _ => set.pixel_data = none
  | .read_pixels _ _ _ _ _ => set.pixel_data = none
  | .renderer_end _ => set.pixel_data = none
  | .texture_update _ _ _ => True
  | .texture_destroy _ => False

/-- The textures of a set are live allocations, each held by one pairing. -/
def textures_ok (w : World) (set : wlr_texture_set) : Prop :=
  (∀ t ∈ held set, t.id < w.textures_created) ∧ (held set).Nodup

/-- What the requests on a set leave alone, from `(w, set)` to `(w1, set1)`. -/
structure Effect (w : World) (set : wlr_texture_set) (w1 : World)
    (set1 : wlr_texture_set) : Prop where
  buffer : w1.buffer = w.buffer
  listeners : w1.listeners = w.listeners
  created : w.textures_created ≤ w1.textures_created
  renderers : set1.pairings.map (fun p => p.renderer) = set.pairings.map (fun p => p.renderer)
  multi_gpu : set1.multi_gpu = set.multi_gpu
  native : 0 ≤ set.native_pair → set1.native_pair = set.native_pair
  cached : ∀ d, set.pixel_data = some d → set1.pixel_data = some d ∧ set1.format = set.format
  trace : ∃ added, w1.trace = w.trace ++ added ∧ ∀ e ∈ added, allowed set e
  textures : textures_ok w set → textures_ok w1 set1

/-- The operations a holder of a texture set performs on it between creation
and destruction. -/
inductive Op where
  | get_tex (renderer : Option Nat)
  | update (next : wlr_buffer) (damage : pixman_region32)
deriving DecidableEq, Repr

/-- One operation on the set. -/
def step (env : Env) (w : World) (set : wlr_texture_set) :
    Op → Except Fault (World × wlr_texture_set)
  | .get_tex renderer =>
    match wlr_texture_set_get_tex_for_renderer env w set renderer with
    | .error f => .error f
    | .ok (w1, set1, _) => .ok (w1, set1)
  | .update next damage =>
    .ok ((wlr_texture_set_update_from_buffer env w set next damage).1, set)

/-- A sequence of operations on the set, first to last. -/
def run (env : Env) : List Op → World → wlr_texture_set →
    Except Fault (World × wlr_texture_set)
  | [], w, set => .ok (w, set)
  | op :: ops, w, set =>
    match step env w set op with
    | .error f => .error f
    | .ok (w1, set1) => run env ops w1 set1

/-- The events of a readback from the native renderer: binding it to the
buffer, asking its preferred format, reading the pixels, releasing it. -/
def Event.is_readback : Event → Bool
  | .begin_with_buffer _ => true
  | .preferred_read_format _ => true
  | .read_pixels _ _ _ _ _ => true
  | .renderer_end _ => true
  | _ => false

/-- The operations on a texture set between its creation and its destruction:
the three texture requests, the update, and the destroy notification of a
renderer. -/
inductive Request where
  | get_tex (renderer : Option Nat)
  | get_primary
  | get_native
  | update (next : wlr_buffer) (damage : pixman_region32)
  | renderer_destroy (r : Nat)
deriving DecidableEq, Repr

/-- One operation on the set. -/
def perform (env : Env) (w : World) (set : wlr_texture_set) :
    Request → Except Fault (World × wlr_texture_set)
  | .get_tex renderer =>
    match wlr_texture_set_get_tex_for_renderer env w set renderer with
    | .error f => .error f
    | .ok (w1, set1, _) => .ok (w1, set1)
  | .get_primary =>
    match wlr_texture_set_get_primary_texture env w set with
    | .error f => .error f
    | .ok (w1, set1, _) => .ok (w1, set1)
  | .get_native =>
    match wlr_texture_set_get_native_texture set with
    | .error f => .error f
    | .ok _ => .ok (w, set)
  | .update next damage =>
    .ok ((wlr_texture_set_update_from_buffer env w set next damage).1, set)
  | .renderer_destroy r => renderer_destroy w set r

/-- A sequence of operations on the set, first to last. -/
def perform_all (env : Env) : List Request → World → wlr_texture_set →
    Except Fault (World × wlr_texture_set)
  | [], w, set => .ok (w, set)
  | q :: qs, w, set =>
    match perform env w set q with
    | .error f => .error f
    | .ok (w1, set1) => perform_all env qs w1 set1

/-- The precondition of the import walk: while no native pairing is recorded,
no pairing holds a texture. -/
def walk_precondition (set : wlr_texture_set) : Prop :=
  set.native_pair < 0 → ∀ p ∈ set.pairings, p.texture = none

/-- One add request of a client: the arguments of params_add. -/
structure add_request where
  fd : Int
  plane_idx : Nat
  offset : Nat
  stride : Nat
  modifier_hi : Nat
  modifier_lo : Nat
deriving DecidableEq, Repr

/-- A sequence of add requests on one params object, each accepted: the first
posted error ends the sequence. -/
def params_add_all (params : wlr_linux_buffer_params_v1) :
    List add_request → Except params_error wlr_linux_buffer_params_v1
  | [] => .ok params
  | a :: rest =>
    match params_add (some params) a.fd a.plane_idx a.offset a.stride a.modifier_hi
        a.modifier_lo with
    | .error e => .error e
    | .ok params1 => params_add_all params1 rest

/-- The number of format/modifier pairs of a format set. -/
def pair_count (formats : List wlr_drm_format) : Nat :=
  (formats.map (fun fmt => fmt.modifiers.length)).sum

/-- What holds of a params object after the accepted requests `done`: every
plane is unset or carries the non-negative fd, offset and stride of one of the
requests, and `n_planes` counts the planes that are set. -/
def planes_inv (params : wlr_linux_buffer_params_v1) (done : List add_request) : Prop :=
  (∀ i, i < WLR_DMABUF_MAX_PLANES → params.attributes.fd i = -1 ∨
    (0 ≤ params.attributes.fd i ∧ ∃ a ∈ done, a.plane_idx = i ∧
      params.attributes.fd i = a.fd ∧ params.attributes.offset i = a.offset ∧
      params.attributes.stride i = a.stride)) ∧
  params.attributes.n_planes =
    (if params.attributes.fd 0 = -1 then 0 else 1) +
    (if params.attributes.fd 1 = -1 then 0 else 1) +
    (if params.attributes.fd 2 = -1 then 0 else 1) +
    (if params.attributes.fd 3 = -1 then 0 else 1)

/-- Two renderers: renderer 1 imports producer buffers directly, every other
renderer refuses them; host pixels can be uploaded everywhere.  The preferred
read format is XRGB8888. -/
def envAB : Env :=
  { alloc := fun _ => true
    has_texture_from_buffer := fun _ => true
    texture_from_buffer := fun _ r src =>
      match src with
      | .buffer width height => if r = 1 then some (u32 width, u32 height) else none
      | .pixels _ _ width height _ => some (width, height)
    begin_with_buffer := fun _ _ => true
    preferred_read_format := fun _ _ => DRM_FORMAT_XRGB8888
    read_pixels := fun _ _ _ _ _ _ => some [7, 7, 7, 7]
    has_update_from_buffer := fun _ => true
    update_from_buffer := fun _ _ _ _ => true }

/-- The world after a set for the 100x50 buffer has been created for renderer
1 of `registryAB`: the buffer locked once, two listeners, one texture, and the
calls of the creation in the log. -/
def worldAB : World :=
  { buffer := { width := 100, height := 50, n_locks := 1, dropped := false }
    listeners := [(1, 0), (2, 1)]
    textures_created := 1
    trace := [.alloc, .alloc, .import_buffer, .texture_from_buffer 1 (.buffer 100 50)] }

/-- The registry with members 1 and 2, in that order. -/
def registryAB : wlr_multi_gpu := { primary := some 1, renderers := [1, 2] }

/-- The set of the 100x50 buffer after its native import into renderer 1. -/
def setAB : wlr_texture_set :=
  { multi_gpu := some registryAB
    pairings := [{ renderer := some 1,
                   texture := some { id := 0, renderer := 1, width := 100, height := 50 } },
                 { renderer := some 2, texture := none }]
    native_pair := 0
    width := 100
    height := 50
    format := 0
    pixel_data := none }

/-- A 100x50 buffer nobody has locked yet, before any call. -/
def world0 : World :=
  { buffer := { width := 100, height := 50, n_locks := 0, dropped := false }
    listeners := []
    textures_created := 0
    trace := [] }

/-- Renderer 1 as a member of `registryAB`. -/
def rendererA : wlr_renderer := { handle := 1, multi_gpu := some registryAB }

/-- Renderer 2 as a member of `registryAB`. -/
def rendererB : wlr_renderer := { handle := 2, multi_gpu := some registryAB }

/-- A set for the registry members 2 and 1, in that order, before its import. -/
def setBA : wlr_texture_set :=
  { multi_gpu := some { primary := some 1, renderers := [2, 1] }
    pairings := [fresh_pair 2, fresh_pair 1]
    native_pair := -1
    width := 0
    height := 0
    format := 0
    pixel_data := none }

/-- Renderers that all refuse to import anything. -/
def envRefuse : Env :=
  { alloc := fun _ => true
    has_texture_from_buffer := fun _ => true
    texture_from_buffer := fun _ _ _ => none
    begin_with_buffer := fun _ _ => true
    preferred_read_format := fun _ _ => DRM_FORMAT_ARGB8888
    read_pixels := fun _ _ _ _ _ _ => none
    has_update_from_buffer := fun _ => true
    update_from_buffer := fun _ _ _ _ => true }

/-- Renderer 1 outside any registry. -/
def rendererAlone : wlr_renderer := { handle := 1, multi_gpu := none }

/-- The registry with members 1, 2 and 3, in that order. -/
def registryABC : wlr_multi_gpu := { primary := some 1, renderers := [1, 2, 3] }

/-- Renderer 1 as a member of `registryABC`. -/
def rendererA3 : wlr_renderer := { handle := 1, multi_gpu := some registryABC }

/-- A set over renderers 1, 2 and 3 after the native import into renderer 1
and the linear-readback fallback for renderer 2. -/
def setABC : wlr_texture_set :=
  { multi_gpu := some registryABC
    pairings := [{ renderer := some 1,
                   texture := some { id := 0, renderer := 1, width := 100, height := 50 } },
                 { renderer := some 2,
                   texture := some { id := 1, renderer := 2, width := 100, height := 50 } },
                 fresh_pair 3]
    native_pair := 0
    width := 100
    height := 50
    format := DRM_FORMAT_XRGB8888
    pixel_data := some [7, 7, 7, 7] }

/-- The world of `setABC`: the log holds the creation, the native import and
the fallback for renderer 2 with its one readback. -/
def worldABC : World :=
  { buffer := { width := 100, height := 50, n_locks := 1, dropped := false }
    listeners := [(1, 0), (2, 1), (3, 2)]
    textures_created := 2
    trace := [.alloc, .alloc, .import_buffer, .texture_from_buffer 1 (.buffer 100 50),
      .egl_save_context, .texture_from_buffer 2 (.buffer 100 50),
      .begin_with_buffer 1, .preferred_read_format 1, .renderer_end 1, .alloc,
      .begin_with_buffer 1, .read_pixels 1 DRM_FORMAT_ARGB8888 400 100 50,
      .renderer_end 1, .alloc,
      .texture_from_buffer 2 (.pixels DRM_FORMAT_ARGB8888 400 100 50 [7, 7, 7, 7]),
      .egl_restore_context] }

/-- A damage region covering the 100x50 buffer. -/
def damageAll : pixman_region32 :=
  { extents := { x1 := 0, y1 := 0, x2 := 100, y2 := 50 }
    rects := [{ x1 := 0, y1 := 0, x2 := 100, y2 := 50 }] }

/-- The registry with members 1 and 2 and no primary renderer yet. -/
def registryNoPrimary : wlr_multi_gpu := { primary := none, renderers := [1, 2] }

/-- Renderer 1 as a member of `registryNoPrimary`. -/
def rendererNoPrimary : wlr_renderer := { handle := 1, multi_gpu := some registryNoPrimary }

/-- A damage region whose bounding box is one pixel wider than the 100x50
buffer. -/
def damageTooWide : pixman_region32 :=
  { extents := { x1 := 0, y1 := 0, x2 := 101, y2 := 50 }
    rects := [{ x1 := 0, y1 := 0, x2 := 101, y2 := 50 }] }

/-- A client buffer of `setAB` that two holders besides the wrapper have
locked: three locks, one of them ignored. -/
def clientTwoVisible : wlr_client_buffer :=
  { base := { width := 100, height := 50, n_locks := 3, dropped := true }
    source := true
    source_destroy := true
    texture_set := setAB
    n_ignore_locks := 1 }

/-- The renderers of `envAB`, except that the texture update of renderer 2
fails. -/
def envUpdateFailsB : Env :=
  { envAB with update_from_buffer := fun _ t _ _ => t.renderer != 2 }

/-- The set `setABC` once renderer 3 has its texture too, uploaded from the
cached linear copy. -/
def setFull : wlr_texture_set :=
  { setABC with
    pairings := [{ renderer := some 1,
                   texture := some { id := 0, renderer := 1, width := 100, height := 50 } },
                 { renderer := some 2,
                   texture := some { id := 1, renderer := 2, width := 100, height := 50 } },
                 { renderer := some 3,
                   texture := some { id := 2, renderer := 3, width := 100, height := 50 } }] }

/-- The world of `setFull`: the log of `worldABC` followed by the fallback for
renderer 3, which reuses the cached copy. -/
def worldFull : World :=
  { worldABC with
    textures_created := 3
    trace := worldABC.trace ++ [.egl_save_context, .texture_from_buffer 3 (.buffer 100 50),
      .alloc, .texture_from_buffer 3 (.pixels DRM_FORMAT_ARGB8888 400 100 50 [7, 7, 7, 7]),
      .egl_restore_context] }

/-- Two planes added in order: fd 5 for plane 0 and fd 6 for plane 1, with the
same modifier. -/
def addsTwoPlanes : List add_request :=
  [{ fd := 5, plane_idx := 0, offset := 0, stride := 400, modifier_hi := 0, modifier_lo := 0 },
   { fd := 6, plane_idx := 1, offset := 0, stride := 200, modifier_hi := 0, modifier_lo := 0 }]

/-- A renderer format set with one format that has two modifiers. -/
def formatsOneFormatTwoModifiers : List wlr_drm_format :=
  [{ format := DRM_FORMAT_ARGB8888, modifiers := [0, 72057594037927937] }]

/-! ## Theorems -/

/-- The two-renderer scenario is what the code produces: creating a set for
renderer 1 and the 100x50 buffer gives `setAB` in `worldAB`. -/
theorem scenarioAB_created :
    wlr_texture_set_from_buffer envAB world0 rendererA = .ok (worldAB, some setAB) :=
  rfl

/-- The three-renderer scenario is what the code produces: creating a set for
renderer 1 and asking for the texture of renderer 2 gives `setABC` in
`worldABC`. -/
theorem scenarioABC_created :
    ∃ w set, wlr_texture_set_from_buffer envAB world0 rendererA3 = .ok (w, some set) ∧
      run envAB [.get_tex (some 2)] w set = .ok (worldABC, setABC) :=
  ⟨_, _, rfl, rfl⟩

theorem set_texture_same (set : wlr_texture_set) (j : Nat) (p : wlr_texture_renderer_pair)
    (hp : set.pairings[j]? = some p) : set_texture set j p.texture = set := by
  have hl : set.pairings.modify (fun q => { q with texture := p.texture }) j = set.pairings := by
    apply List.ext_getElem?
    intro n
    rw [List.getElem?_modify]
    by_cases h : j = n
    · subst h
      simp [hp]
    · simp [h]
  unfold set_texture
  rw [hl]

theorem get_drm_format_ne_error (env : Env) (w : World) (r : Nat) (f : Fault) :
    get_drm_format env w (some r) ≠ .error f := by
  unfold get_drm_format
  by_cases h : env.begin_with_buffer w.trace r <;> simp [h]

theorem read_pixels_ne_error (env : Env) (w : World) (r fmt : Nat) (f : Fault) :
    read_pixels env w (some r) fmt ≠ .error f := by
  unfold read_pixels
  by_cases h1 : env.alloc w.trace <;> simp [h1]
  split <;> simp

theorem get_linear_data_ne_error (env : Env) (w : World) (set : wlr_texture_set) (i : Nat)
    (A : Nat) (native : wlr_texture)
    (hnative : set.native_pair = (i : Int))
    (hpair : set.pairings[i]? = some { renderer := some A, texture := some native })
    (f : Fault) :
    wlr_texture_set_get_linear_data env w set ≠ .error f := by
  have hi : ¬ ((i : Int) < 0) := by omega
  unfold wlr_texture_set_get_linear_data pair_at
  simp only [hnative, hi, if_false, Int.toNat_ofNat, hpair]
  by_cases hd : set.pixel_data.isSome
  · simp [hd]
  · simp only [Option.isNone_some, Bool.false_eq_true, if_false, hd]
    cases h1 : get_drm_format env w (some A) with
    | error e => exact absurd h1 (get_drm_format_ne_error env w A e)
    | ok r1 =>
      obtain ⟨w1, fmt⟩ := r1
      cases fmt with
      | none => simp
      | some v =>
        simp only
        cases h2 : read_pixels env w1 (some A) v with
        | error e => exact absurd h2 (read_pixels_ne_error env w1 A v e)
        | ok r2 => simp

theorem get_linear_data_spec (env : Env) (w : World) (set : wlr_texture_set)
    (w1 : World) (set1 : wlr_texture_set) (ok : Bool)
    (h : wlr_texture_set_get_linear_data env w set = .ok (w1, set1, ok)) :
    set1.width = set.width ∧ set1.height = set.height ∧ set1.pairings = set.pairings ∧
      set1.native_pair = set.native_pair ∧ set1.multi_gpu = set.multi_gpu ∧
      ok = set1.pixel_data.isSome := by
  unfold wlr_texture_set_get_linear_data at h
  split at h
  · simp at h
  · split at h
    · simp at h
    · split at h
      · rename_i hd
        simp only [Except.ok.injEq, Prod.mk.injEq] at h
        obtain ⟨-, rfl, rfl⟩ := h
        simp [hd]
      · rename_i hd
        split at h
        · simp at h
        · simp only [Except.ok.injEq, Prod.mk.injEq] at h
          obtain ⟨-, rfl, rfl⟩ := h
          simpa using hd
        · dsimp only at h
          split at h
          · simp at h
          · simp only [Except.ok.injEq, Prod.mk.injEq] at h
            obtain ⟨-, rfl, rfl⟩ := h
            simp

theorem set_texture_getElem (set : wlr_texture_set) (j : Nat) (p : wlr_texture_renderer_pair)
    (t : Option wlr_texture) (hp : set.pairings[j]? = some p) :
    (set_texture set j t).pairings[j]? = some { renderer := p.renderer, texture := t } := by
  simp [set_texture, hp]

/-- The result of the linear-readback fallback while the native pairing still
holds its texture.  The set has its native texture on
renderer `A` (pairing `i`, whose width and height are cached on the set), the
request is for member renderer `B` (pairing `j`, holding no texture) and the
direct import into `B` fails.  Then the readback step returns without a fault;
when it fails the call returns NULL; when it succeeds the call returns exactly
what `wlr_texture_from_pixels (B, ARGB8888, stride = width * 4 as uint32_t,
width, height, cached linear copy)` returns, with the native width and height;
the returned texture is stored in pairing `j`, and it is NULL exactly when the
readback or that upload fails. -/
theorem linear_fallback_result (env : Env) (w w1 : World) (set : wlr_texture_set)
    (A B i j : Nat) (native : wlr_texture)
    (hnative : set.native_pair = (i : Int))
    (hpair : set.pairings[i]? = some { renderer := some A, texture := some native })
    (hwidth : set.width = native.width) (hheight : set.height = native.height)
    (hfind : find_pair (some B) set.pairings 0 none = some j)
    (hB : set.pairings[j]? = some { renderer := some B, texture := none })
    (hdirect : wlr_texture_from_buffer env (w.log .egl_save_context) (some B)
      (.buffer w.buffer.width w.buffer.height) = .ok (w1, none)) :
    ∃ wL setL okL,
      wlr_texture_set_get_linear_data env w1 set = .ok (wL, setL, okL) ∧
      (okL = false →
        wlr_texture_set_get_tex_for_renderer env w set (some B) =
          .ok (wL.log .egl_restore_context, setL, none)) ∧
      (okL = true →
        wlr_texture_set_get_tex_for_renderer env w set (some B) =
          match wlr_texture_from_pixels env wL (some B) DRM_FORMAT_ARGB8888
              ((native.width * 4) % 4294967296) native.width native.height
              setL.pixel_data with
          | .error f => .error f
          | .ok (w2, texture) =>
            .ok (w2.log .egl_restore_context, set_texture setL j texture, texture)) ∧
      (∀ w2 set2 r,
        wlr_texture_set_get_tex_for_renderer env w set (some B) = .ok (w2, set2, r) →
          set2.pairings[j]? = some { renderer := some B, texture := r } ∧
          (r = none ↔ (okL = false ∨
            ∃ w3, wlr_texture_from_pixels env wL (some B) DRM_FORMAT_ARGB8888
              ((native.width * 4) % 4294967296) native.width native.height
              setL.pixel_data = .ok (w3, none)))) := by
  have hi : ¬ ((i : Int) < 0) := by omega
  have hsame : set_texture set j none = set := set_texture_same set j _ hB
  have hget : wlr_texture_set_get_tex_for_renderer env w set (some B) =
      linear_fallback env w1 set j (some B) := by
    unfold wlr_texture_set_get_tex_for_renderer lookup_or_import
    simp only [hnative, hi, if_false, hfind, hB]
    have hb : (w.log .egl_save_context).buffer = w.buffer := rfl
    rw [hb, hdirect]
    simp only [hsame]
  cases hL : wlr_texture_set_get_linear_data env w1 set with
  | error e => exact absurd hL (get_linear_data_ne_error env w1 set i A native hnative hpair e)
  | ok res =>
    obtain ⟨wL, setL, okL⟩ := res
    obtain ⟨hw, hh, hp, -, -, -⟩ := get_linear_data_spec env w1 set wL setL okL hL
    have hBL : setL.pairings[j]? = some { renderer := some B, texture := none } := by
      rw [hp]; exact hB
    refine ⟨wL, setL, okL, rfl, ?_, ?_, ?_⟩
    · intro hok
      subst hok
      rw [hget]
      unfold linear_fallback
      rw [hL]
    · intro hok
      subst hok
      rw [hget]
      unfold linear_fallback
      rw [hL]
      simp only [hw, hh, hwidth, hheight]
    · intro w2 set2 r hr
      rw [hget] at hr
      unfold linear_fallback at hr
      rw [hL] at hr
      cases okL with
      | false =>
        simp only [Except.ok.injEq, Prod.mk.injEq] at hr
        obtain ⟨-, rfl, rfl⟩ := hr
        exact ⟨hBL, by simp⟩
      | true =>
        simp only [hw, hh, hwidth, hheight] at hr
        cases hU : wlr_texture_from_pixels env wL (some B) DRM_FORMAT_ARGB8888
              ((native.width * 4) % 4294967296) native.width native.height
              setL.pixel_data with
        | error e => rw [hU] at hr; simp at hr
        | ok up =>
          obtain ⟨w3, tex⟩ := up
          rw [hU] at hr
          simp only [Except.ok.injEq, Prod.mk.injEq] at hr
          obtain ⟨-, rfl, rfl⟩ := hr
          refine ⟨set_texture_getElem setL j _ tex hBL, ?_⟩
          constructor
          · intro ht
            right
            exact ⟨w3, by rw [ht]⟩
          · rintro (h | ⟨w4, h4⟩)
            · simp at h
            · simp only [Except.ok.injEq, Prod.mk.injEq] at h4
              exact h4.2

/-- The fallback on a 100x50 buffer imported natively at 100x50 by renderer 1;
renderer 2 gets a 100x50 texture uploaded with stride 400 in ARGB8888. -/
theorem linear_fallback_result_witness :
    ∃ w2 set2,
      wlr_texture_set_get_tex_for_renderer envAB worldAB setAB (some 2) =
        .ok (w2, set2, some { id := 1, renderer := 2, width := 100, height := 50 }) ∧
      Event.texture_from_buffer 2 (.pixels DRM_FORMAT_ARGB8888 400 100 50 [7, 7, 7, 7])
        ∈ w2.trace := by
  obtain ⟨wL, setL, okL, hL, -, htrue, -⟩ :=
    linear_fallback_result envAB worldAB _ setAB 1 2 0 1
      { id := 0, renderer := 1, width := 100, height := 50 } rfl rfl rfl rfl rfl rfl rfl
  have hc : wlr_texture_set_get_linear_data envAB
      ((worldAB.log .egl_save_context).log (.texture_from_buffer 2 (.buffer 100 50))) setAB =
      .ok ({ worldAB with trace := worldAB.trace ++ [.egl_save_context,
              .texture_from_buffer 2 (.buffer 100 50), .begin_with_buffer 1, .preferred_read_format 1, .renderer_end 1, .alloc,
              .begin_with_buffer 1, .read_pixels 1 DRM_FORMAT_ARGB8888 400 100 50,
              .renderer_end 1] },
           { setAB with format := DRM_FORMAT_XRGB8888, pixel_data := some [7, 7, 7, 7] },
           true) := by
    rfl
  have hL := hL.symm.trans hc
  simp only [Except.ok.injEq, Prod.mk.injEq] at hL
  obtain ⟨rfl, rfl, rfl⟩ := hL
  refine ⟨_, _, (htrue rfl).trans rfl, ?_⟩
  decide

theorem texture_from_buffer_eq (env : Env) (w : World) (r : Nat) (src : Source) :
    wlr_texture_from_buffer env w (some r) src =
      match renderer_answer env w.trace r src with
      | some (width, height) =>
        .ok ({ w.log (.texture_from_buffer r src) with textures_created := w.textures_created + 1 },
          some { id := w.textures_created, renderer := r, width := width, height := height })
      | none => .ok (w.log (.texture_from_buffer r src), none) := by
  unfold wlr_texture_from_buffer renderer_answer
  by_cases h : env.has_texture_from_buffer r
  · simp only [h, if_true]
  · simp only [h, Bool.false_eq_true, if_false]

theorem walk_loop_fresh (env : Env) :
    ∀ (rest : List Nat) (done : List wlr_texture_renderer_pair) (w : World)
      (set : wlr_texture_set),
      set.pairings = done ++ rest.map fresh_pair →
      ∃ w1 set1 b, walk_loop env rest.length done.length w set = .ok (w1, set1, b) ∧
        w1.buffer = w.buffer ∧ w1.listeners = w.listeners ∧
        (b = false → set1 = set ∧ w1.textures_created = w.textures_created ∧
          w1.trace = w.trace ++ rest.map (fun r => Event.texture_from_buffer r
            (.buffer w.buffer.width w.buffer.height)) ∧
          ∀ k r, rest[k]? = some r →
            renderer_answer env (w.trace ++ (rest.take k).map (fun r =>
              Event.texture_from_buffer r (.buffer w.buffer.width w.buffer.height))) r
              (.buffer w.buffer.width w.buffer.height) = none) ∧
        (b = true → ∃ k r width height, rest[k]? = some r ∧
          renderer_answer env (w.trace ++ (rest.take k).map (fun r =>
              Event.texture_from_buffer r (.buffer w.buffer.width w.buffer.height))) r
              (.buffer w.buffer.width w.buffer.height) = some (width, height) ∧
          (∀ m r1, m < k → rest[m]? = some r1 →
            renderer_answer env (w.trace ++ (rest.take m).map (fun r =>
              Event.texture_from_buffer r (.buffer w.buffer.width w.buffer.height))) r1
              (.buffer w.buffer.width w.buffer.height) = none) ∧
          set1 = { set_texture set (done.length + k)
              (some { id := w.textures_created, renderer := r, width := width,
                      height := height }) with
            width := width, height := height, native_pair := ((done.length + k : Nat) : Int) } ∧
          w1.textures_created = w.textures_created + 1 ∧
          w1.trace = w.trace ++ (rest.take (k + 1)).map (fun r => Event.texture_from_buffer r
            (.buffer w.buffer.width w.buffer.height))) := by
  intro rest
  induction rest with
  | nil =>
    intro done w set _
    refine ⟨w, set, false, rfl, rfl, rfl, ?_, ?_⟩
    · intro _
      simp
    · intro h
      simp at h
  | cons r rest ih =>
    intro done w set hp
    have hget : set.pairings[done.length]? = some (fresh_pair r) := by
      rw [hp, List.getElem?_append_right (le_refl _)]
      simp
    simp only [List.length_cons, walk_loop, hget]
    have hnone : (fresh_pair r).texture.isSome = false := rfl
    have hrend : (fresh_pair r).renderer = some r := rfl
    simp only [hnone, Bool.false_eq_true, if_false, hrend]
    rw [texture_from_buffer_eq]
    cases hans : renderer_answer env w.trace r (.buffer w.buffer.width w.buffer.height) with
    | some wh =>
      obtain ⟨width, height⟩ := wh
      refine ⟨_, _, true, rfl, rfl, rfl, ?_, ?_⟩
      · intro h
        simp at h
      · intro _
        refine ⟨0, r, width, height, by simp, ?_, ?_, ?_, rfl, ?_⟩
        · simpa using hans
        · intro m r1 hm
          omega
        · simp
        · simp [World.log]
    | none =>
      have hsame : set_texture set done.length none = set :=
        set_texture_same set done.length (fresh_pair r) hget
      simp only [hsame]
      have hp2 : set.pairings = (done ++ [fresh_pair r]) ++ rest.map fresh_pair := by
        rw [hp]
        simp
      obtain ⟨w1, set1, b, hrun, hbuf, hlis, hfalse, htrue⟩ :=
        ih (done ++ [fresh_pair r]) (w.log (.texture_from_buffer r
          (.buffer w.buffer.width w.buffer.height))) set hp2
      have hlen : (done ++ [fresh_pair r]).length = done.length + 1 := by simp
      rw [hlen] at hrun htrue
      refine ⟨w1, set1, b, hrun, hbuf, hlis, ?_, ?_⟩
      · intro hb
        obtain ⟨h1, h2, h3, h4⟩ := hfalse hb
        refine ⟨h1, h2, ?_, ?_⟩
        · rw [h3]
          simp [World.log]
        · intro k r1 hk
          cases k with
          | zero =>
            simp at hk
            subst hk
            simpa using hans
          | succ k =>
            have := h4 k r1 (by simpa using hk)
            simpa [World.log] using this
      · intro hb
        obtain ⟨k, r1, width, height, h1, h2, h3, h4, h5, h6⟩ := htrue hb
        refine ⟨k + 1, r1, width, height, by simpa using h1, ?_, ?_, ?_, h5, ?_⟩
        · simpa [World.log] using h2
        · intro m r2 hm hr2
          cases m with
          | zero =>
            simp at hr2
            subst hr2
            simpa using hans
          | succ m =>
            have := h3 m r2 (by omega) (by simpa using hr2)
            simpa [World.log] using this
        · have e : done.length + 1 + k = done.length + (k + 1) := by omega
          rw [h4, e]
          rfl
        · rw [h6]
          simp [World.log]

theorem drop_of_getElem? {α : Type} (l : List α) (i : Nat) (a : α) (h : l[i]? = some a) :
    l.drop i = a :: l.drop (i + 1) := by
  obtain ⟨hlt, heq⟩ := List.getElem?_eq_some_iff.mp h
  rw [List.drop_eq_getElem_cons hlt, heq]

theorem walk_loop_spec (env : Env) :
    ∀ (n i : Nat) (w : World) (set : wlr_texture_set) (w1 : World) (set1 : wlr_texture_set)
      (b : Bool),
      walk_loop env n i w set = .ok (w1, set1, b) →
      ∃ rs : List Nat,
        ((set.pairings.drop i).take rs.length).map (fun p => p.renderer) = rs.map some ∧
        w1.trace = w.trace ++ rs.map (fun r => Event.texture_from_buffer r
          (.buffer w.buffer.width w.buffer.height)) ∧
        (∀ k r, k + 1 < rs.length → rs[k]? = some r →
          renderer_answer env (w.trace ++ (rs.take k).map (fun r =>
            Event.texture_from_buffer r (.buffer w.buffer.width w.buffer.height))) r
            (.buffer w.buffer.width w.buffer.height) = none) ∧
        (∀ k p, i ≤ k → k < i + rs.length → set.pairings[k]? = some p → p.texture = none) ∧
        (b = true → ∃ m r width height, rs.length = m + 1 ∧ rs[m]? = some r ∧
          renderer_answer env (w.trace ++ (rs.take m).map (fun r =>
            Event.texture_from_buffer r (.buffer w.buffer.width w.buffer.height))) r
            (.buffer w.buffer.width w.buffer.height) = some (width, height) ∧
          set1 = { set_texture set (i + m)
              (some { id := w.textures_created, renderer := r, width := width,
                      height := height }) with
            width := width, height := height, native_pair := ((i + m : Nat) : Int) }) ∧
        (b = false → rs.length = n ∧ set1 = set ∧
          ∀ k r, rs[k]? = some r →
            renderer_answer env (w.trace ++ (rs.take k).map (fun r =>
              Event.texture_from_buffer r (.buffer w.buffer.width w.buffer.height))) r
              (.buffer w.buffer.width w.buffer.height) = none) := by
  intro n
  induction n with
  | zero =>
    intro i w set w1 set1 b h
    simp only [walk_loop, Except.ok.injEq, Prod.mk.injEq] at h
    obtain ⟨rfl, rfl, rfl⟩ := h
    refine ⟨[], by simp, by simp, ?_, ?_, by simp, ?_⟩
    · intro k r hk
      simp at hk
    · intro k p h1 h2
      simp at h2
      omega
    · intro _
      exact ⟨rfl, rfl, by simp⟩
  | succ n ih =>
    intro i w set w1 set1 b h
    simp only [walk_loop] at h
    split at h
    · simp at h
    · rename_i p hp
      split at h
      · simp at h
      · rename_i hnone
        have hnone : p.texture = none := by simpa using hnone
        have hdrop := drop_of_getElem? set.pairings i p hp
        cases hr : p.renderer with
        | none =>
          rw [hr] at h
          simp [wlr_texture_from_buffer] at h
        | some r =>
          rw [hr, texture_from_buffer_eq] at h
          cases hans : renderer_answer env w.trace r (.buffer w.buffer.width w.buffer.height) with
          | some wh =>
            obtain ⟨width, height⟩ := wh
            rw [hans] at h
            simp only [Except.ok.injEq, Prod.mk.injEq] at h
            obtain ⟨rfl, rfl, rfl⟩ := h
            refine ⟨[r], ?_, ?_, ?_, ?_, ?_, ?_⟩
            · simp [hdrop, hr]
            · simp [World.log]
            · intro k r1 hk
              simp at hk
            · intro k q h1 h2 hq
              have : k = i := by simp at h2; omega
              subst this
              rw [hp] at hq
              simp only [Option.some.injEq] at hq
              rw [← hq]
              exact hnone
            · intro _
              exact ⟨0, r, width, height, rfl, by simp, by simpa using hans, rfl⟩
            · intro hb
              simp at hb
          | none =>
            rw [hans] at h
            have hsame : set_texture set i none = set := by
              have := set_texture_same set i p hp
              rwa [hnone] at this
            simp only [hsame] at h
            obtain ⟨rs, h1, h2, h3, h4, h5, h6⟩ := ih (i + 1) _ set w1 set1 b h
            refine ⟨r :: rs, ?_, ?_, ?_, ?_, ?_, ?_⟩
            · simp only [List.length_cons, hdrop, List.take_succ_cons, List.map_cons, hr,
                List.cons.injEq, true_and]
              exact h1
            · rw [h2]
              simp [World.log]
            · intro k r1 hk hr1
              cases k with
              | zero =>
                simp only [List.getElem?_cons_zero, Option.some.injEq] at hr1
                subst hr1
                simpa using hans
              | succ k =>
                have := h3 k r1 (by simp at hk; omega) (by simpa using hr1)
                simpa [World.log] using this
            · intro k q hk1 hk2 hq
              by_cases hki : k = i
              · subst hki
                rw [hp] at hq
                simp only [Option.some.injEq] at hq
                rw [← hq]
                exact hnone
              · exact h4 k q (by omega) (by simp at hk2; omega) hq
            · intro hb
              obtain ⟨m, r1, width, height, e1, e2, e3, e4⟩ := h5 hb
              refine ⟨m + 1, r1, width, height, by simp [e1], by simpa using e2, ?_, ?_⟩
              · simpa [World.log] using e3
              · have e : i + 1 + m = i + (m + 1) := by omega
                rw [e4, e]
                rfl
            · intro hb
              obtain ⟨e1, e2, e3⟩ := h6 hb
              refine ⟨by simp [e1], e2, ?_⟩
              intro k r1 hr1
              cases k with
              | zero =>
                simp only [List.getElem?_cons_zero, Option.some.injEq] at hr1
                subst hr1
                simpa using hans
              | succ k =>
                have := e3 k r1 (by simpa using hr1)
                simpa [World.log] using this

/-- C4 (import picks the first success).  For a set with native index -1, a
walk that returns has asked the renderers `rs` of the first pairings, in index
order, and nothing else; every renderer asked but the last refused.  When it
returns true, with `i + 1` renderers asked, renderer `rs[i]` imported the
buffer when asked, the native index is `i`, the cached size is that of the new
texture, which is stored in pairing `i`, the pairings before `i` hold no
texture and the pairings after `i` are untouched.  When it returns false every
pairing was visited and every renderer refused, and the set is unchanged:
native index -1 and no texture in any pairing.  The walk does return when the
pairings are bound to live renderers and hold no texture. -/
theorem import_picks_first_success (env : Env) (w : World) (set : wlr_texture_set)
    (hnative : set.native_pair = -1) :
    (∀ w1 set1 b, wlr_texture_set_import_buffer env w set = .ok (w1, set1, b) →
      ∃ rs : List Nat,
        (set.pairings.take rs.length).map (fun p => p.renderer) = rs.map some ∧
        w1.trace = walk_log w rs rs.length ∧
        (∀ k r, k + 1 < rs.length → rs[k]? = some r →
          renderer_answer env (walk_log w rs k) r (.buffer w.buffer.width w.buffer.height)
            = none) ∧
        (b = true → ∃ i r width height, rs.length = i + 1 ∧ rs[i]? = some r ∧
          renderer_answer env (walk_log w rs i) r (.buffer w.buffer.width w.buffer.height)
            = some (width, height) ∧
          set1.native_pair = (i : Int) ∧ set1.width = width ∧ set1.height = height ∧
          set1.pairings = set.pairings.modify (fun p => { p with
            texture := some { id := w.textures_created, renderer := r, width := width,
                              height := height } }) i ∧
          (∀ k p, k < i → set1.pairings[k]? = some p → p.texture = none)) ∧
        (b = false → rs.length = set.pairing_count ∧ set1 = set ∧
          set1.native_pair = -1 ∧
          (∀ p ∈ set1.pairings, p.texture = none) ∧
          (∀ k r, rs[k]? = some r →
            renderer_answer env (walk_log w rs k) r
              (.buffer w.buffer.width w.buffer.height) = none))) ∧
    (∀ rs : List Nat, set.pairings = rs.map fresh_pair →
      ∃ w1 set1 b, wlr_texture_set_import_buffer env w set = .ok (w1, set1, b)) := by
  constructor
  · intro w1 set1 b h
    unfold wlr_texture_set_import_buffer at h
    obtain ⟨rs, h1, h2, h3, h4, h5, h6⟩ := walk_loop_spec env _ _ _ _ _ _ _ h
    refine ⟨rs, by simpa using h1, ?_, ?_, ?_, ?_⟩
    · rw [h2]
      simp [walk_log, World.log]
    · intro k r hk hr
      simpa [walk_log, World.log] using h3 k r hk hr
    · intro hb
      obtain ⟨i, r, width, height, e1, e2, e3, e4⟩ := h5 hb
      refine ⟨i, r, width, height, e1, e2, ?_, ?_, ?_, ?_, ?_, ?_⟩
      · simpa [walk_log, World.log] using e3
      · rw [e4]
        simp
      · rw [e4]
      · rw [e4]
      · rw [e4]
        simp only [set_texture, Nat.zero_add]
        rfl
      · intro k p hk hp
        rw [e4] at hp
        simp only [set_texture, Nat.zero_add] at hp
        rw [List.getElem?_modify_ne _ _ (by omega)] at hp
        exact h4 k p (Nat.zero_le _) (by omega) hp
    · intro hb
      obtain ⟨e1, e2, e3⟩ := h6 hb
      refine ⟨e1, e2, by rw [e2]; exact hnative, ?_, ?_⟩
      · intro p hp
        rw [e2] at hp
        obtain ⟨k, hk⟩ := List.mem_iff_getElem?.mp hp
        have hlt : k < set.pairings.length := by
          rcases List.getElem?_eq_some_iff.mp hk with ⟨hlt, -⟩
          exact hlt
        exact h4 k p (Nat.zero_le _)
          (by rw [e1]; simpa [wlr_texture_set.pairing_count] using hlt) hk
      · intro k r hr
        simpa [walk_log, World.log] using e3 k r hr
  · intro rs hpairs
    obtain ⟨w1, set1, b, hrun, -⟩ :=
      walk_loop_fresh env rs [] (w.log .import_buffer) set (by simpa using hpairs)
    have hlen : set.pairing_count = rs.length := by
      simp [wlr_texture_set.pairing_count, hpairs]
    refine ⟨w1, set1, b, ?_⟩
    unfold wlr_texture_set_import_buffer
    rw [hlen]
    exact hrun

/-- C4, witness: with members 2 and 1 in that order, renderer 2 refuses and
renderer 1 imports, so the walk returns true with native index 1 after two
attempts. -/
theorem import_picks_first_success_witness :
    setBA.native_pair = -1 ∧
    (∃ w1 set1 b, wlr_texture_set_import_buffer envAB world0 setBA = .ok (w1, set1, b)) ∧
    (∃ w1 set1, wlr_texture_set_import_buffer envAB world0 setBA = .ok (w1, set1, true) ∧
      set1.native_pair = 1 ∧
      w1.trace = [.import_buffer, .texture_from_buffer 2 (.buffer 100 50),
        .texture_from_buffer 1 (.buffer 100 50)]) :=
  ⟨rfl, (import_picks_first_success envAB world0 setBA rfl).2 [2, 1] rfl,
    _, _, rfl, rfl, rfl⟩

/-- C5 (originating renderer is tried first), evaluated on the code: the
registry lists renderer 1 before renderer 2 and the set is created for
renderer 2.  Pairing 0 is bound to renderer 1, renderer 2 sits at index 1, and
the import walk asks renderer 1 first (and, as it succeeds, never asks
renderer 2). -/
theorem originating_renderer_not_first :
    ∃ w1 set1, wlr_texture_set_from_buffer envAB world0 rendererB = .ok (w1, some set1) ∧
      set1.pairings.map (fun p => p.renderer) = [some 1, some 2] ∧
      find_pair (some rendererB.handle) set1.pairings 0 none = some 1 ∧
      w1.trace = [.alloc, .alloc, .import_buffer, .texture_from_buffer 1 (.buffer 100 50)] :=
  ⟨_, _, rfl, rfl, rfl, rfl⟩

/-- C7 (readback uses the preferred format), evaluated on the code: the
`format` argument of `read_pixels` has no influence on what it does, and in the
scenario where the native renderer prefers XRGB8888 that format is recorded on
the set while the renderer is asked to read the pixels as ARGB8888. -/
theorem readback_ignores_preferred_format :
    (∀ (env : Env) (w : World) (r : Option Nat) (f1 f2 : Nat),
      read_pixels env w r f1 = read_pixels env w r f2) ∧
    ∃ w1 set1, wlr_texture_set_get_linear_data envAB worldAB setAB = .ok (w1, set1, true) ∧
      envAB.preferred_read_format (worldAB.trace ++ [.begin_with_buffer 1]) 1 =
        DRM_FORMAT_XRGB8888 ∧
      set1.format = DRM_FORMAT_XRGB8888 ∧
      w1.trace = worldAB.trace ++ [.begin_with_buffer 1, .preferred_read_format 1,
        .renderer_end 1, .alloc, .begin_with_buffer 1,
        .read_pixels 1 DRM_FORMAT_ARGB8888 400 100 50, .renderer_end 1] ∧
      DRM_FORMAT_ARGB8888 ≠ DRM_FORMAT_XRGB8888 :=
  ⟨fun _ _ _ _ _ => rfl, _, _, rfl, rfl, rfl, rfl, by decide⟩

theorem modify_append_cons {α : Type} (f : α → α) (done : List α) (x : α) (rest : List α) :
    (done ++ x :: rest).modify f done.length = done ++ f x :: rest := by
  induction done with
  | nil => simp
  | cons a done ih => simp [ih]

theorem set_renderer_pairings (set : wlr_texture_set) (done : List wlr_texture_renderer_pair)
    (rest : List wlr_texture_renderer_pair) (r : Nat)
    (h : set.pairings = done ++ { renderer := none, texture := none } :: rest) :
    (set_renderer set done.length (some r)).pairings = (done ++ [fresh_pair r]) ++ rest := by
  simp only [set_renderer, h, modify_append_cons]
  simp [fresh_pair]

theorem init_pairs_spec :
    ∀ (rs : List Nat) (done : List wlr_texture_renderer_pair) (w : World)
      (set : wlr_texture_set),
      set.pairings = done ++ List.replicate rs.length { renderer := none, texture := none } →
      ∃ set1, init_pairs w set rs done.length =
          .ok ({ w with listeners := w.listeners ++ listeners_of rs done.length }, set1) ∧
        set1.pairings = done ++ rs.map fresh_pair ∧
        set1.native_pair = set.native_pair ∧ set1.multi_gpu = set.multi_gpu ∧
        set1.pixel_data = set.pixel_data ∧ set1.width = set.width ∧
        set1.height = set.height ∧ set1.format = set.format := by
  intro rs
  induction rs with
  | nil =>
    intro done w set h
    refine ⟨set, ?_, by simpa using h, rfl, rfl, rfl, rfl, rfl, rfl⟩
    simp [init_pairs, listeners_of]
  | cons r rs ih =>
    intro done w set h
    have hlt : done.length < set.pairing_count := by
      simp [wlr_texture_set.pairing_count, h]
    have hp := set_renderer_pairings set done _ r (by simpa [List.replicate_succ] using h)
    obtain ⟨set1, hrun, h1, h2, h3, h4, h5, h6, h7⟩ :=
      ih (done ++ [fresh_pair r]) { w with listeners := w.listeners ++ [(r, done.length)] }
        (set_renderer set done.length (some r)) hp
    refine ⟨set1, ?_, by simpa using h1, h2, h3, h4, h5, h6, h7⟩
    simp only [init_pairs, wlr_texture_set_init_pair, hlt, if_true]
    have hlen : (done ++ [fresh_pair r]).length = done.length + 1 := by simp
    rw [hlen] at hrun
    rw [hrun]
    simp [listeners_of]

theorem from_renderer_spec (env : Env) (w : World) (renderer : wlr_renderer) :
    (wlr_texture_set_from_renderer env w renderer = .ok (w.log .alloc, none) ∧
      env.alloc w.trace = false) ∨
    (wlr_texture_set_from_renderer env w renderer = .ok ((w.log .alloc).log .alloc, none) ∧
      env.alloc (w.trace ++ [.alloc]) = false) ∨
    (∃ set, wlr_texture_set_from_renderer env w renderer =
        .ok ({ buffer := wlr_buffer_lock w.buffer
               listeners := w.listeners ++ listeners_of (set_renderers renderer) 0
               textures_created := w.textures_created
               trace := w.trace ++ [.alloc, .alloc] }, some set) ∧
      set.pairings = (set_renderers renderer).map fresh_pair ∧
      set.native_pair = -1 ∧ set.pixel_data = none ∧
      set.multi_gpu = renderer.multi_gpu) := by
  unfold wlr_texture_set_from_renderer
  by_cases h1 : env.alloc w.trace
  · by_cases h2 : env.alloc (w.log .alloc).trace
    · right; right
      simp only [h1, h2, Bool.not_true, Bool.false_eq_true, if_false]
      cases hm : renderer.multi_gpu with
      | some mg =>
        obtain ⟨set1, hrun, hp, hn, hg, hd, -⟩ :=
          init_pairs_spec mg.renderers [] ((w.log .alloc).log .alloc)
            (empty_set (some mg) mg.renderers.length) (by simp [empty_set])
        simp only [List.length_nil] at hrun
        simp only [hrun]
        refine ⟨set1, ?_, ?_, ?_, ?_, ?_⟩
        · simp [World.log, set_renderers, hm]
        · simpa [set_renderers, hm] using hp
        · rw [hn]; rfl
        · rw [hd]; rfl
        · rw [hg]; rfl
      | none =>
        obtain ⟨set1, hrun, hp, hn, hg, hd, -⟩ :=
          init_pairs_spec [renderer.handle] [] ((w.log .alloc).log .alloc)
            (empty_set none 1) (by simp [empty_set])
        simp only [init_pairs, List.length_nil] at hrun
        simp only
        split at hrun
        · simp at hrun
        · rename_i w3 set3 heq
          simp only [Except.ok.injEq, Prod.mk.injEq] at hrun
          obtain ⟨rfl, rfl⟩ := hrun
          refine ⟨set3, ?_, ?_, ?_, ?_, ?_⟩
          · simp [World.log, set_renderers, hm]
          · simpa [set_renderers, hm] using hp
          · rw [hn]; rfl
          · rw [hd]; rfl
          · rw [hg]; rfl
    · right; left
      have h2f : env.alloc (w.trace ++ [.alloc]) = false := by
        simpa [World.log] using h2
      refine ⟨?_, h2f⟩
      have h2g : env.alloc (w.log .alloc).trace = false := by simpa using h2
      simp only [h1, h2g, Bool.not_true, Bool.not_false, Bool.false_eq_true, if_false, if_true]
      cases renderer.multi_gpu <;> rfl
  · left
    have h1f : env.alloc w.trace = false := by simpa using h1
    simp [h1f]

/-- C6 (initial state of a set).  When wlr_texture_set_from_renderer succeeds,
the pairing count is the number of members of the renderer's registry (1 when
it has no registry), pairing `i` is bound to the `i`-th member in list order
(to the renderer itself without a registry) and holds no texture, no linear
copy is cached, the native index is -1, the buffer has been locked once and
one destroy listener per pairing has been registered. -/
theorem initial_state_of_set (env : Env) (w w1 : World) (renderer : wlr_renderer)
    (set : wlr_texture_set)
    (h : wlr_texture_set_from_renderer env w renderer = .ok (w1, some set)) :
    set.pairing_count = (set_renderers renderer).length ∧
    (renderer.multi_gpu = none → set.pairing_count = 1 ∧
      set.pairings = [fresh_pair renderer.handle]) ∧
    (∀ mg, renderer.multi_gpu = some mg → set.pairing_count = mg.renderers.length ∧
      ∀ i : Nat, set.pairings[i]? = (mg.renderers[i]?).map fresh_pair) ∧
    (∀ p ∈ set.pairings, p.texture = none) ∧
    set.pixel_data = none ∧
    set.native_pair = -1 ∧
    w1.buffer.n_locks = w.buffer.n_locks + 1 ∧
    w1.listeners = w.listeners ++ listeners_of (set_renderers renderer) 0 := by
  rcases from_renderer_spec env w renderer with ⟨h1, -⟩ | ⟨h1, -⟩ | ⟨set1, h1, hp, hn, hd, -⟩
  · rw [h1] at h
    simp at h
  · rw [h1] at h
    simp at h
  · rw [h1] at h
    simp only [Except.ok.injEq, Prod.mk.injEq, Option.some.injEq] at h
    obtain ⟨rfl, rfl⟩ := h
    refine ⟨?_, ?_, ?_, ?_, hd, hn, rfl, rfl⟩
    · simp [wlr_texture_set.pairing_count, hp]
    · intro hm
      simp [wlr_texture_set.pairing_count, hp, set_renderers, hm]
    · intro mg hm
      simp [wlr_texture_set.pairing_count, hp, set_renderers, hm]
    · intro p hmem
      rw [hp] at hmem
      simp only [List.mem_map] at hmem
      obtain ⟨r, -, rfl⟩ := hmem
      rfl

/-- C6, witness: a set created for renderer 1 of the registry with members 1
and 2 has two pairings. -/
theorem initial_state_of_set_witness :
    ∃ w1 set, wlr_texture_set_from_renderer envAB world0 rendererA = .ok (w1, some set) ∧
      set.pairing_count = 2 ∧ set.native_pair = -1 ∧ set.pixel_data = none :=
  ⟨_, _, rfl,
    (initial_state_of_set envAB world0 _ rendererA _ rfl).1,
    (initial_state_of_set envAB world0 _ rendererA _ rfl).2.2.2.2.2.1,
    (initial_state_of_set envAB world0 _ rendererA _ rfl).2.2.2.2.1⟩

theorem Effect.refl (w : World) (set : wlr_texture_set) : Effect w set w set where
  buffer := rfl
  listeners := rfl
  created := le_refl _
  renderers := rfl
  multi_gpu := rfl
  native := fun _ => rfl
  cached := fun _ h => ⟨h, rfl⟩
  trace := ⟨[], by simp, by simp⟩
  textures := fun h => h

theorem allowed_mono (set set1 : wlr_texture_set)
    (hn : 0 ≤ set.native_pair → set1.native_pair = set.native_pair)
    (hc : ∀ d, set.pixel_data = some d → set1.pixel_data = some d ∧ set1.format = set.format)
    (e : Event) (h : allowed set1 e) : allowed set e := by
  have hnone : set1.pixel_data = none → set.pixel_data = none := by
    intro h1
    cases hd : set.pixel_data with
    | none => rfl
    | some d =>
      have := (hc d hd).1
      rw [h1] at this
      simp at this
  cases e with
  | egl_save_context => trivial
  | egl_restore_context => trivial
  | alloc => trivial
  | import_buffer =>
    simp only [allowed] at h ⊢
    by_contra hcon
    have := hn (by omega)
    omega
  | texture_from_buffer r src =>
    cases src with
    | buffer a b => trivial
    | pixels f s a b d =>
      simp only [allowed] at h ⊢
      cases hd : set.pixel_data with
      | none => left; rfl
      | some d0 =>
        right
        have h1 := (hc d0 hd).1
        rw [h1] at h
        simpa using h
  | begin_with_buffer r => exact hnone h
  | preferred_read_format r => exact hnone h
  | read_pixels r f s a b => exact hnone h
  | renderer_end r => exact hnone h
  | texture_update t n d => trivial
  | texture_destroy t => exact h

theorem Effect.trans {w w1 w2 : World} {set set1 set2 : wlr_texture_set}
    (h1 : Effect w set w1 set1) (h2 : Effect w1 set1 w2 set2) : Effect w set w2 set2 where
  buffer := h2.buffer.trans h1.buffer
  listeners := h2.listeners.trans h1.listeners
  created := le_trans h1.created h2.created
  renderers := h2.renderers.trans h1.renderers
  multi_gpu := h2.multi_gpu.trans h1.multi_gpu
  native := fun h => by
    have e1 := h1.native h
    rw [h2.native (by rw [e1]; exact h), e1]
  cached := fun d h => by
    obtain ⟨a, b⟩ := h1.cached d h
    obtain ⟨c, e⟩ := h2.cached d a
    exact ⟨c, e.trans b⟩
  trace := by
    obtain ⟨a1, e1, p1⟩ := h1.trace
    obtain ⟨a2, e2, p2⟩ := h2.trace
    refine ⟨a1 ++ a2, by rw [e2, e1, List.append_assoc], ?_⟩
    intro e he
    rcases List.mem_append.mp he with h | h
    · exact p1 e h
    · exact allowed_mono set set1 h1.native h1.cached e (p2 e h)
  textures := fun h => h2.textures (h1.textures h)

/-- A step that touches only the world. -/
theorem Effect.of_world (w w1 : World) (set : wlr_texture_set)
    (hb : w1.buffer = w.buffer) (hl : w1.listeners = w.listeners)
    (hc : w.textures_created ≤ w1.textures_created)
    (ht : ∃ added, w1.trace = w.trace ++ added ∧ ∀ e ∈ added, allowed set e) :
    Effect w set w1 set where
  buffer := hb
  listeners := hl
  created := hc
  renderers := rfl
  multi_gpu := rfl
  native := fun _ => rfl
  cached := fun _ h => ⟨h, rfl⟩
  trace := ht
  textures := fun h => ⟨fun t ht => lt_of_lt_of_le (h.1 t ht) hc, h.2⟩

theorem Effect.log (w : World) (set : wlr_texture_set) (e : Event) (he : allowed set e) :
    Effect w set (w.log e) set :=
  Effect.of_world w (w.log e) set rfl rfl (le_refl _) ⟨[e], rfl, by simpa using he⟩

theorem texture_from_buffer_effect (env : Env) (w w1 : World) (renderer : Option Nat)
    (src : Source) (tex : Option wlr_texture)
    (h : wlr_texture_from_buffer env w renderer src = .ok (w1, tex)) :
    ∃ r, renderer = some r ∧ w1.buffer = w.buffer ∧ w1.listeners = w.listeners ∧
      w1.trace = w.trace ++ [.texture_from_buffer r src] ∧
      (tex = none → w1.textures_created = w.textures_created) ∧
      (∀ t, tex = some t → t.id = w.textures_created ∧ t.renderer = r ∧
        w1.textures_created = w.textures_created + 1) := by
  cases renderer with
  | none => simp [wlr_texture_from_buffer] at h
  | some r =>
    refine ⟨r, rfl, ?_⟩
    rw [texture_from_buffer_eq] at h
    cases ha : renderer_answer env w.trace r src with
    | none =>
      rw [ha] at h
      simp only [Except.ok.injEq, Prod.mk.injEq] at h
      obtain ⟨rfl, rfl⟩ := h
      exact ⟨rfl, rfl, rfl, fun _ => rfl, fun t ht => by simp at ht⟩
    | some wh =>
      obtain ⟨a, b⟩ := wh
      rw [ha] at h
      simp only [Except.ok.injEq, Prod.mk.injEq] at h
      obtain ⟨rfl, rfl⟩ := h
      refine ⟨rfl, rfl, rfl, fun h0 => by simp at h0, ?_⟩
      intro t ht
      simp only [Option.some.injEq] at ht
      subst ht
      exact ⟨rfl, rfl, rfl⟩

theorem set_texture_renderers (set : wlr_texture_set) (j : Nat) (t : Option wlr_texture) :
    (set_texture set j t).pairings.map (fun p => p.renderer) =
      set.pairings.map (fun p => p.renderer) := by
  simp only [set_texture]
  generalize set.pairings = l
  induction l generalizing j with
  | nil => simp
  | cons a l ih =>
    cases j with
    | zero => simp
    | succ j => simp [ih]

theorem held_set_texture_fresh (set : wlr_texture_set) (j : Nat)
    (p : wlr_texture_renderer_pair) (t : wlr_texture)
    (hp : set.pairings[j]? = some p) (hnone : p.texture = none) :
    List.Perm (held (set_texture set j (some t))) (t :: held set) := by
  simp only [held, set_texture]
  generalize set.pairings = l at hp
  induction l generalizing j with
  | nil => simp at hp
  | cons a l ih =>
    cases j with
    | zero =>
      simp only [List.getElem?_cons_zero, Option.some.injEq] at hp
      subst hp
      simp [List.filterMap_cons, hnone]
    | succ j =>
      simp only [List.getElem?_cons_succ] at hp
      have := ih j hp
      simp only [List.modify_succ_cons, List.filterMap_cons]
      cases a.texture with
      | none => simpa using this
      | some u =>
        simp only
        exact (List.Perm.cons u this).trans (List.Perm.swap t u _)

/-- Storing a freshly allocated texture in an empty pairing. -/
theorem Effect.store (w w1 : World) (set : wlr_texture_set) (j : Nat)
    (p : wlr_texture_renderer_pair) (t : wlr_texture)
    (hp : set.pairings[j]? = some p) (hnone : p.texture = none)
    (hb : w1.buffer = w.buffer) (hl : w1.listeners = w.listeners)
    (hid : t.id = w.textures_created)
    (hc : w1.textures_created = w.textures_created + 1)
    (ht : ∃ added, w1.trace = w.trace ++ added ∧ ∀ e ∈ added, allowed set e) :
    Effect w set w1 (set_texture set j (some t)) where
  buffer := hb
  listeners := hl
  created := by omega
  renderers := set_texture_renderers set j _
  multi_gpu := rfl
  native := fun _ => rfl
  cached := fun _ h => ⟨h, rfl⟩
  trace := ht
  textures := by
    intro h
    have hperm := held_set_texture_fresh set j p t hp hnone
    constructor
    · intro u hu
      rcases List.mem_cons.mp (hperm.mem_iff.mp hu) with rfl | hu
      · omega
      · have := h.1 u hu
        omega
    · rw [hperm.nodup_iff, List.nodup_cons]
      refine ⟨?_, h.2⟩
      intro hmem
      have := h.1 t hmem
      omega

/-- Recording the native import on a set that had none. -/
theorem Effect.mark_native {w w1 : World} {set set1 : wlr_texture_set}
    (h : Effect w set w1 set1) (hneg : set.native_pair < 0) (width height : Nat) (i : Int) :
    Effect w set w1 { set1 with width := width, height := height, native_pair := i } where
  buffer := h.buffer
  listeners := h.listeners
  created := h.created
  renderers := h.renderers
  multi_gpu := h.multi_gpu
  native := fun h0 => by omega
  cached := h.cached
  trace := h.trace
  textures := h.textures

theorem walk_loop_effect (env : Env) :
    ∀ (n i : Nat) (w : World) (set : wlr_texture_set) (w1 : World) (set1 : wlr_texture_set)
      (b : Bool), set.native_pair < 0 →
      walk_loop env n i w set = .ok (w1, set1, b) →
      Effect w set w1 set1 ∧ (b = true → 0 ≤ set1.native_pair) ∧
        (b = false → set1.native_pair = set.native_pair) := by
  intro n
  induction n with
  | zero =>
    intro i w set w1 set1 b _ h
    simp only [walk_loop, Except.ok.injEq, Prod.mk.injEq] at h
    obtain ⟨rfl, rfl, rfl⟩ := h
    exact ⟨Effect.refl _ _, by simp, fun _ => rfl⟩
  | succ n ih =>
    intro i w set w1 set1 b hneg h
    simp only [walk_loop] at h
    split at h
    · simp at h
    · rename_i p hp
      split at h
      · simp at h
      · rename_i hnone
        have hnone : p.texture = none := by simpa using hnone
        split at h
        · simp at h
        · rename_i w2 t htex
          simp only [Except.ok.injEq, Prod.mk.injEq] at h
          obtain ⟨rfl, rfl, rfl⟩ := h
          obtain ⟨r, -, hb, hl, htr, -, hsome⟩ :=
            texture_from_buffer_effect env w w2 p.renderer _ (some t) htex
          obtain ⟨hid, -, hc⟩ := hsome t rfl
          have hstore := Effect.store w w2 set i p t hp hnone hb hl hid hc
            ⟨_, htr, by simp [allowed]⟩
          exact ⟨hstore.mark_native hneg _ _ _, fun _ => by simp, by simp⟩
        · rename_i w2 htex
          obtain ⟨r, -, hb, hl, htr, hnc, -⟩ :=
            texture_from_buffer_effect env w w2 p.renderer _ none htex
          have hsame : set_texture set i none = set := by
            have := set_texture_same set i p hp
            rwa [hnone] at this
          rw [hsame] at h
          obtain ⟨he, h1, h2⟩ := ih (i + 1) w2 set w1 set1 b hneg h
          have hw : Effect w set w2 set :=
            Effect.of_world w w2 set hb hl (by rw [hnc rfl]) ⟨_, htr, by simp [allowed]⟩
          exact ⟨hw.trans he, h1, h2⟩

theorem import_buffer_effect (env : Env) (w : World) (set : wlr_texture_set) (w1 : World)
    (set1 : wlr_texture_set) (b : Bool) (hneg : set.native_pair < 0)
    (h : wlr_texture_set_import_buffer env w set = .ok (w1, set1, b)) :
    Effect w set w1 set1 ∧ (b = true → 0 ≤ set1.native_pair) ∧
      (b = false → set1.native_pair = set.native_pair) := by
  unfold wlr_texture_set_import_buffer at h
  obtain ⟨he, h1, h2⟩ := walk_loop_effect env _ _ _ _ _ _ _ hneg h
  exact ⟨(Effect.log w set .import_buffer hneg).trans he, h1, h2⟩

theorem unlock_lock (b : wlr_buffer) : wlr_buffer_unlock (wlr_buffer_lock b) = b := by
  cases b
  simp [wlr_buffer_lock, wlr_buffer_unlock]

theorem get_drm_format_effect (env : Env) (w w1 : World) (set : wlr_texture_set)
    (renderer : Option Nat) (fmt : Option Nat) (hnone : set.pixel_data = none)
    (h : get_drm_format env w renderer = .ok (w1, fmt)) : Effect w set w1 set := by
  unfold get_drm_format at h
  split at h
  · simp at h
  · rename_i r
    split at h
    · simp only [Except.ok.injEq, Prod.mk.injEq] at h
      obtain ⟨rfl, -⟩ := h
      exact Effect.log w set (.begin_with_buffer r) hnone
    · simp only [Except.ok.injEq, Prod.mk.injEq] at h
      obtain ⟨rfl, -⟩ := h
      exact ((Effect.log w set (.begin_with_buffer r) hnone).trans
        (Effect.log _ set (.preferred_read_format r) hnone)).trans
        (Effect.log _ set (.renderer_end r) hnone)

theorem read_pixels_effect (env : Env) (w w1 : World) (set : wlr_texture_set)
    (renderer : Option Nat) (fmt : Nat) (data : Option PixelData)
    (hnone : set.pixel_data = none)
    (h : read_pixels env w renderer fmt = .ok (w1, data)) : Effect w set w1 set := by
  unfold read_pixels at h
  simp only at h
  split at h
  · simp only [Except.ok.injEq, Prod.mk.injEq] at h
    obtain ⟨rfl, -⟩ := h
    exact Effect.log w set _ trivial
  · split at h
    · simp at h
    · rename_i r
      split at h
      · simp only [Except.ok.injEq, Prod.mk.injEq] at h
        obtain ⟨rfl, -⟩ := h
        refine Effect.of_world _ _ set ?_ rfl (le_refl _) ⟨[.alloc, .begin_with_buffer r], ?_, ?_⟩
        · simp [World.log, unlock_lock]
        · simp [World.log]
        · intro e he
          simp only [List.mem_cons, List.mem_singleton, List.not_mem_nil, or_false] at he
          rcases he with rfl | rfl
          · trivial
          · exact hnone
      · simp only [Except.ok.injEq, Prod.mk.injEq] at h
        obtain ⟨rfl, -⟩ := h
        refine Effect.of_world _ _ set ?_ rfl (le_refl _)
          ⟨[.alloc, .begin_with_buffer r,
            .read_pixels r DRM_FORMAT_ARGB8888 (u32 (w.buffer.width * 4)) (u32 w.buffer.width)
              (u32 w.buffer.height), .renderer_end r], ?_, ?_⟩
        · simp [World.log, unlock_lock]
        · simp [World.log]
        · intro e he
          simp only [List.mem_cons, List.mem_singleton, List.not_mem_nil, or_false] at he
          rcases he with rfl | rfl | rfl | rfl
          · trivial
          · exact hnone
          · exact hnone
          · exact hnone

/-- Writing the format and the linear copy of a set that had no copy. -/
theorem Effect.record_copy {w w1 : World} {set : wlr_texture_set}
    (h : Effect w set w1 set) (hnone : set.pixel_data = none) (format : Nat)
    (data : Option PixelData) :
    Effect w set w1 { set with format := format, pixel_data := data } where
  buffer := h.buffer
  listeners := h.listeners
  created := h.created
  renderers := rfl
  multi_gpu := rfl
  native := fun _ => rfl
  cached := fun d hd => by rw [hnone] at hd; simp at hd
  trace := h.trace
  textures := h.textures

theorem get_linear_data_effect (env : Env) (w w1 : World) (set set1 : wlr_texture_set)
    (ok : Bool) (h : wlr_texture_set_get_linear_data env w set = .ok (w1, set1, ok)) :
    Effect w set w1 set1 := by
  unfold wlr_texture_set_get_linear_data at h
  split at h
  · simp at h
  · split at h
    · simp at h
    · split at h
      · simp only [Except.ok.injEq, Prod.mk.injEq] at h
        obtain ⟨rfl, rfl, -⟩ := h
        exact Effect.refl _ _
      · rename_i hd
        have hnone : set.pixel_data = none := by simpa using hd
        split at h
        · simp at h
        · rename_i w2 hfmt
          simp only [Except.ok.injEq, Prod.mk.injEq] at h
          obtain ⟨rfl, rfl, -⟩ := h
          exact get_drm_format_effect env w _ set _ _ hnone hfmt
        · rename_i w2 format hfmt
          dsimp only at h
          split at h
          · simp at h
          · rename_i w3 data hread
            simp only [Except.ok.injEq, Prod.mk.injEq] at h
            obtain ⟨rfl, rfl, -⟩ := h
            have e1 := get_drm_format_effect env w _ set _ _ hnone hfmt
            have e2 := read_pixels_effect env w2 _ set _ _ _ hnone hread
            have e3 := (e1.trans e2).record_copy hnone format data
            simpa [hnone] using e3

theorem from_pixels_effect (env : Env) (w w1 : World) (renderer : Option Nat)
    (fmt stride width height : Nat) (data : Option PixelData) (tex : Option wlr_texture)
    (h : wlr_texture_from_pixels env w renderer fmt stride width height data = .ok (w1, tex)) :
    ∃ d, data = some d ∧ w1.buffer = w.buffer ∧ w1.listeners = w.listeners ∧
      (∃ added, w1.trace = w.trace ++ added ∧ ∀ e ∈ added, e = Event.alloc ∨
        ∃ r, e = Event.texture_from_buffer r (.pixels fmt stride width height d)) ∧
      (tex = none → w1.textures_created = w.textures_created) ∧
      (∀ t, tex = some t → t.id = w.textures_created ∧
        w1.textures_created = w.textures_created + 1) := by
  unfold wlr_texture_from_pixels at h
  split at h
  · simp at h
  · split at h
    · simp at h
    · split at h
      · simp at h
      · split at h
        · simp at h
        · rename_i d
          refine ⟨d, rfl, ?_⟩
          dsimp only at h
          split at h
          · obtain ⟨r, -, hb, hl, htr, hn, hs⟩ :=
              texture_from_buffer_effect env _ w1 renderer _ tex h
            refine ⟨hb, hl, ⟨[.alloc, .texture_from_buffer r
              (.pixels fmt stride width height d)], ?_, ?_⟩, hn, ?_⟩
            · rw [htr]
              simp [World.log]
            · intro e he
              simp only [List.mem_cons, List.mem_singleton, List.not_mem_nil, or_false] at he
              rcases he with rfl | rfl
              · left; rfl
              · right; exact ⟨r, rfl⟩
            · intro t ht
              obtain ⟨a, -, c⟩ := hs t ht
              exact ⟨a, c⟩
          · simp only [Except.ok.injEq, Prod.mk.injEq] at h
            obtain ⟨rfl, rfl⟩ := h
            exact ⟨rfl, rfl, ⟨[.alloc], rfl, by simp⟩, fun _ => rfl, fun t ht => by simp at ht⟩

theorem find_pair_congr (renderer : Option Nat) :
    ∀ (l1 l2 : List wlr_texture_renderer_pair) (i : Nat) (found : Option Nat),
      l1.map (fun p => p.renderer) = l2.map (fun p => p.renderer) →
      find_pair renderer l1 i found = find_pair renderer l2 i found := by
  intro l1
  induction l1 with
  | nil =>
    intro l2 i found h
    cases l2 with
    | nil => rfl
    | cons b l2 => simp at h
  | cons a l1 ih =>
    intro l2 i found h
    cases l2 with
    | nil => simp at h
    | cons b l2 =>
      simp only [List.map_cons, List.cons.injEq] at h
      simp only [find_pair, h.1]
      exact ih l2 _ _ h.2

theorem linear_fallback_effect (env : Env) (w w1 : World) (set set1 : wlr_texture_set)
    (j : Nat) (p : wlr_texture_renderer_pair) (renderer : Option Nat)
    (res : Option wlr_texture)
    (hp : set.pairings[j]? = some p) (hnone : p.texture = none)
    (h : linear_fallback env w set j renderer = .ok (w1, set1, res)) :
    Effect w set w1 set1 ∧
      (∀ t, res = some t → ∃ q, set1.pairings[j]? = some q ∧ q.texture = some t) := by
  unfold linear_fallback at h
  split at h
  · simp at h
  · rename_i wL setL hL
    simp only [Except.ok.injEq, Prod.mk.injEq] at h
    obtain ⟨rfl, rfl, rfl⟩ := h
    have e1 := get_linear_data_effect env w wL set setL false hL
    exact ⟨e1.trans (Effect.log wL setL .egl_restore_context trivial),
      fun t ht => by simp at ht⟩
  · rename_i wL setL hL
    have e1 := get_linear_data_effect env w wL set setL true hL
    obtain ⟨-, -, hpair, -, -, -⟩ := get_linear_data_spec env w set wL setL true hL
    have hpL : setL.pairings[j]? = some p := by rw [hpair]; exact hp
    dsimp only at h
    split at h
    · simp at h
    · rename_i w2 tex hup
      simp only [Except.ok.injEq, Prod.mk.injEq] at h
      obtain ⟨rfl, rfl, rfl⟩ := h
      obtain ⟨d, hd, hb, hl, ⟨added, htr, hadd⟩, hn, hs⟩ :=
        from_pixels_effect env wL w2 renderer _ _ _ _ _ tex hup
      have hallow : ∀ e ∈ added, allowed setL e := by
        intro e he
        rcases hadd e he with rfl | ⟨r, rfl⟩
        · trivial
        · right; exact hd
      cases tex with
      | none =>
        have hsame : set_texture setL j none = setL := by
          have := set_texture_same setL j p hpL
          rwa [hnone] at this
        rw [hsame]
        have e2 : Effect wL setL w2 setL :=
          Effect.of_world wL w2 setL hb hl (by rw [hn rfl]) ⟨added, htr, hallow⟩
        exact ⟨(e1.trans e2).trans (Effect.log w2 setL .egl_restore_context trivial),
          fun t ht => by simp at ht⟩
      | some t =>
        obtain ⟨hid, hc⟩ := hs t rfl
        have e2 := Effect.store wL w2 setL j p t hpL hnone hb hl hid hc ⟨added, htr, hallow⟩
        refine ⟨(e1.trans e2).trans (Effect.log w2 _ .egl_restore_context trivial), ?_⟩
        intro u hu
        simp only [Option.some.injEq] at hu
        subst hu
        exact ⟨_, set_texture_getElem setL j p (some t) hpL, rfl⟩

theorem lookup_or_import_effect (env : Env) (w w1 : World) (set set1 : wlr_texture_set)
    (renderer : Option Nat) (res : Option wlr_texture)
    (h : lookup_or_import env w set renderer = .ok (w1, set1, res)) :
    Effect w set w1 set1 ∧
      (∀ t, res = some t → ∃ j q, find_pair renderer set1.pairings 0 none = some j ∧
        set1.pairings[j]? = some q ∧ q.texture = some t) := by
  unfold lookup_or_import at h
  split at h
  · simp only [Except.ok.injEq, Prod.mk.injEq] at h
    obtain ⟨rfl, rfl, rfl⟩ := h
    exact ⟨Effect.log w set .egl_restore_context trivial, fun t ht => by simp at ht⟩
  · rename_i j hfind
    split at h
    · simp at h
    · rename_i p hp
      split at h
      · rename_i t htex
        simp only [Except.ok.injEq, Prod.mk.injEq] at h
        obtain ⟨rfl, rfl, rfl⟩ := h
        refine ⟨Effect.log w set .egl_restore_context trivial, ?_⟩
        intro u hu
        simp only [Option.some.injEq] at hu
        subst hu
        exact ⟨j, p, hfind, hp, htex⟩
      · rename_i hnone
        split at h
        · simp at h
        · rename_i w2 t himp
          simp only [Except.ok.injEq, Prod.mk.injEq] at h
          obtain ⟨rfl, rfl, rfl⟩ := h
          obtain ⟨r, -, hb, hl, htr, -, hs⟩ :=
            texture_from_buffer_effect env w w2 renderer _ (some t) himp
          obtain ⟨hid, -, hc⟩ := hs t rfl
          have e1 := Effect.store w w2 set j p t hp hnone hb hl hid hc
            ⟨_, htr, by simp [allowed]⟩
          refine ⟨e1.trans (Effect.log w2 _ .egl_restore_context trivial), ?_⟩
          intro u hu
          simp only [Option.some.injEq] at hu
          subst hu
          refine ⟨j, _, ?_, set_texture_getElem set j p (some t) hp, rfl⟩
          rw [find_pair_congr renderer _ set.pairings 0 none (set_texture_renderers set j _)]
          exact hfind
        · rename_i w2 himp
          obtain ⟨r, -, hb, hl, htr, hn, -⟩ :=
            texture_from_buffer_effect env w w2 renderer _ none himp
          have hsame : set_texture set j none = set := by
            have := set_texture_same set j p hp
            rwa [hnone] at this
          rw [hsame] at h
          have e1 : Effect w set w2 set :=
            Effect.of_world w w2 set hb hl (by rw [hn rfl]) ⟨_, htr, by simp [allowed]⟩
          obtain ⟨e2, hres⟩ := linear_fallback_effect env w2 w1 set set1 j p renderer res
            hp hnone h
          refine ⟨e1.trans e2, ?_⟩
          intro t ht
          obtain ⟨q, hq, hqt⟩ := hres t ht
          refine ⟨j, q, ?_, hq, hqt⟩
          rw [find_pair_congr renderer _ set.pairings 0 none e2.renderers]
          exact hfind

theorem get_tex_effect (env : Env) (w w1 : World) (set set1 : wlr_texture_set)
    (renderer : Option Nat) (res : Option wlr_texture)
    (h : wlr_texture_set_get_tex_for_renderer env w set renderer = .ok (w1, set1, res)) :
    Effect w set w1 set1 ∧
      (∀ t, res = some t → 0 ≤ set1.native_pair ∧
        ∃ j q, find_pair renderer set1.pairings 0 none = some j ∧
          set1.pairings[j]? = some q ∧ q.texture = some t) := by
  unfold wlr_texture_set_get_tex_for_renderer at h
  have e0 := Effect.log w set .egl_save_context trivial
  dsimp only at h
  split at h
  · rename_i hneg
    split at h
    · simp at h
    · rename_i w2 set2 himp
      simp only [Except.ok.injEq, Prod.mk.injEq] at h
      obtain ⟨rfl, rfl, rfl⟩ := h
      obtain ⟨e1, -, -⟩ := import_buffer_effect env _ set w2 set2 false hneg himp
      exact ⟨(e0.trans e1).trans (Effect.log w2 set2 .egl_restore_context trivial),
        fun t ht => by simp at ht⟩
    · rename_i w2 set2 himp
      obtain ⟨e1, hnat, -⟩ := import_buffer_effect env _ set w2 set2 true hneg himp
      obtain ⟨e2, hres⟩ := lookup_or_import_effect env w2 w1 set2 set1 renderer res h
      refine ⟨(e0.trans e1).trans e2, ?_⟩
      intro t ht
      refine ⟨?_, hres t ht⟩
      rw [e2.native (hnat rfl)]
      exact hnat rfl
  · rename_i hpos
    obtain ⟨e2, hres⟩ := lookup_or_import_effect env _ w1 set set1 renderer res h
    refine ⟨e0.trans e2, ?_⟩
    intro t ht
    refine ⟨?_, hres t ht⟩
    rw [e2.native (by omega)]
    omega

/-- C3 (cache hit, idempotence).  When a request for renderer `R` returns a
texture, the request repeated at once returns the same texture, leaves the set
as it is, and adds to the call log only the save and the restore of the EGL
context: no import, no readback, no upload, on any renderer. -/
theorem cache_hit_idempotent (env : Env) (w w1 : World) (set set1 : wlr_texture_set)
    (R : Option Nat) (t : wlr_texture)
    (h : wlr_texture_set_get_tex_for_renderer env w set R = .ok (w1, set1, some t)) :
    wlr_texture_set_get_tex_for_renderer env w1 set1 R =
      .ok ({ w1 with trace := w1.trace ++ [.egl_save_context, .egl_restore_context] },
        set1, some t) := by
  obtain ⟨-, hres⟩ := get_tex_effect env w w1 set set1 R (some t) h
  obtain ⟨hnat, j, q, hfind, hq, hqt⟩ := hres t rfl
  have hnot : ¬ set1.native_pair < 0 := by omega
  unfold wlr_texture_set_get_tex_for_renderer lookup_or_import
  simp only [hnot, if_false, hfind, hq, hqt]
  simp [World.log]

/-- C3, witness: the fallback request for renderer 2 in the two-renderer
scenario returns a texture, and so does the repeated request, without any
further call on a renderer. -/
theorem cache_hit_idempotent_witness :
    ∃ w1 set1 t,
      wlr_texture_set_get_tex_for_renderer envAB worldAB setAB (some 2) =
        .ok (w1, set1, some t) ∧
      wlr_texture_set_get_tex_for_renderer envAB w1 set1 (some 2) =
        .ok ({ w1 with trace := w1.trace ++ [.egl_save_context, .egl_restore_context] },
          set1, some t) :=
  ⟨_, _, _, rfl, cache_hit_idempotent envAB worldAB _ setAB _ (some 2) _ rfl⟩

theorem update_loop_effect (env : Env) (next : wlr_buffer) (damage : pixman_region32)
    (set : wlr_texture_set) :
    ∀ (ps : List wlr_texture_renderer_pair) (w w1 : World) (b : Bool),
      wlr_texture_set_update_from_buffer.loop env next damage ps w = (w1, b) →
      Effect w set w1 set := by
  intro ps
  induction ps with
  | nil =>
    intro w w1 b h
    simp only [wlr_texture_set_update_from_buffer.loop, Prod.mk.injEq] at h
    obtain ⟨rfl, -⟩ := h
    exact Effect.refl _ _
  | cons p ps ih =>
    intro w w1 b h
    simp only [wlr_texture_set_update_from_buffer.loop] at h
    split at h
    · rename_i t ht
      have hstep : ∀ w2 r, wlr_texture_update_from_buffer env w t next damage = (w2, r) →
          Effect w set w2 set := by
        intro w2 r hu
        unfold wlr_texture_update_from_buffer at hu
        split at hu
        · simp only [Prod.mk.injEq] at hu
          obtain ⟨rfl, -⟩ := hu
          exact Effect.refl _ _
        · split at hu
          · simp only [Prod.mk.injEq] at hu
            obtain ⟨rfl, -⟩ := hu
            exact Effect.refl _ _
          · dsimp only at hu
            split at hu
            · simp only [Prod.mk.injEq] at hu
              obtain ⟨rfl, -⟩ := hu
              exact Effect.refl _ _
            · simp only [Prod.mk.injEq] at hu
              obtain ⟨rfl, -⟩ := hu
              exact Effect.log w set (.texture_update t next damage) trivial
      split at h
      · rename_i w2 hu
        exact (hstep w2 true hu).trans (ih w2 w1 b h)
      · rename_i w2 hu
        simp only [Prod.mk.injEq] at h
        obtain ⟨rfl, -⟩ := h
        exact hstep w2 false hu
    · exact ih w w1 b h

theorem step_effect (env : Env) (w w1 : World) (set set1 : wlr_texture_set) (op : Op)
    (h : step env w set op = .ok (w1, set1)) : Effect w set w1 set1 := by
  cases op with
  | get_tex renderer =>
    simp only [step] at h
    split at h
    · simp at h
    · rename_i w2 set2 res hget
      simp only [Except.ok.injEq, Prod.mk.injEq] at h
      obtain ⟨rfl, rfl⟩ := h
      exact (get_tex_effect env w w2 set set2 renderer res hget).1
  | update next damage =>
    simp only [step, Except.ok.injEq, Prod.mk.injEq] at h
    obtain ⟨rfl, rfl⟩ := h
    exact update_loop_effect env next damage set set.pairings w _
      (wlr_texture_set_update_from_buffer env w set next damage).2 rfl

theorem run_effect (env : Env) :
    ∀ (ops : List Op) (w w1 : World) (set set1 : wlr_texture_set),
      run env ops w set = .ok (w1, set1) → Effect w set w1 set1 := by
  intro ops
  induction ops with
  | nil =>
    intro w w1 set set1 h
    simp only [run, Except.ok.injEq, Prod.mk.injEq] at h
    obtain ⟨rfl, rfl⟩ := h
    exact Effect.refl _ _
  | cons op ops ih =>
    intro w w1 set set1 h
    simp only [run] at h
    split at h
    · simp at h
    · rename_i w2 set2 hstep
      exact (step_effect env w w2 set set2 op hstep).trans (ih w2 w1 set2 set1 h)

theorem listeners_of_snd_ge :
    ∀ (rs : List Nat) (i : Nat) (e : Nat × Nat), e ∈ listeners_of rs i → i ≤ e.2 := by
  intro rs
  induction rs with
  | nil =>
    intro i e h
    simp [listeners_of] at h
  | cons r rs ih =>
    intro i e h
    simp only [listeners_of, List.mem_cons] at h
    rcases h with rfl | h
    · exact le_refl _
    · have := ih (i + 1) e h
      omega

theorem destroy_loop_spec :
    ∀ (ps : List wlr_texture_renderer_pair) (rs : List Nat) (i : Nat) (w : World),
      ps.length = rs.length → w.listeners = listeners_of rs i →
      destroy_loop ps i w =
        .ok { buffer := w.buffer
              listeners := []
              textures_created := w.textures_created
              trace := w.trace ++
                (ps.filterMap (fun p => p.texture)).map Event.texture_destroy } := by
  intro ps
  induction ps with
  | nil =>
    intro rs i w hlen hl
    cases rs with
    | nil =>
      simp only [listeners_of] at hl
      simp only [destroy_loop, List.filterMap_nil, List.map_nil, List.append_nil]
      rw [← hl]
    | cons r rs => simp at hlen
  | cons p ps ih =>
    intro rs i w hlen hl
    cases rs with
    | nil => simp at hlen
    | cons r rs =>
      simp only [List.length_cons, Nat.add_right_cancel_iff] at hlen
      simp only [listeners_of] at hl
      have hany : w.listeners.any (fun l => l.2 == i) = true := by
        rw [hl]
        simp
      have hfilter : w.listeners.filter (fun l => l.2 != i) = listeners_of rs (i + 1) := by
        rw [hl, List.filter_cons]
        simp only [bne_self_eq_false, Bool.false_eq_true, if_false]
        rw [List.filter_eq_self]
        intro e he
        have := listeners_of_snd_ge rs (i + 1) e he
        simp only [bne_iff_ne, ne_eq]
        omega
      simp only [destroy_loop, hany, if_true, hfilter]
      cases ht : p.texture with
      | none =>
        simp only
        rw [ih rs (i + 1) _ hlen rfl]
        simp [List.filterMap_cons, ht]
      | some t =>
        simp only
        rw [ih rs (i + 1) _ hlen rfl]
        simp [List.filterMap_cons, ht, wlr_texture_destroy, World.log]

theorem set_destroy_spec (w : World) (set : wlr_texture_set) (rs : List Nat)
    (hlen : set.pairings.length = rs.length) (hl : w.listeners = listeners_of rs 0) :
    wlr_texture_set_destroy w set =
      .ok { buffer := wlr_buffer_unlock w.buffer
            listeners := []
            textures_created := w.textures_created
            trace := w.trace ++ (held set).map Event.texture_destroy } := by
  unfold wlr_texture_set_destroy
  rw [destroy_loop_spec set.pairings rs 0
    { w with buffer := wlr_buffer_unlock w.buffer } hlen hl]
  rfl

/-- C2 (single readback per set).  Once the linear copy `d` is cached, every
sequence of texture requests and updates leaves the cached copy and its
recorded format as they are, logs no readback event at all (no binding of the
native renderer, no format query, no read_pixels), and every upload of host
pixels it makes, for whatever renderer, takes `d` as its data. -/
theorem single_readback (env : Env) (w w1 : World) (set set1 : wlr_texture_set)
    (ops : List Op) (d : PixelData)
    (hcached : set.pixel_data = some d)
    (hrun : run env ops w set = .ok (w1, set1)) :
    set1.pixel_data = some d ∧ set1.format = set.format ∧
    ∃ added, w1.trace = w.trace ++ added ∧
      (∀ e ∈ added, e.is_readback = false) ∧
      (∀ r fmt stride width height data,
        Event.texture_from_buffer r (.pixels fmt stride width height data) ∈ added →
          data = d) := by
  have heff := run_effect env ops w w1 set set1 hrun
  obtain ⟨added, htr, hall⟩ := heff.trace
  refine ⟨(heff.cached d hcached).1, (heff.cached d hcached).2, added, htr, ?_, ?_⟩
  · intro e he
    have := hall e he
    cases e <;> simp_all [allowed, Event.is_readback]
  · intro r fmt stride width height data he
    have := hall _ he
    simp only [allowed, hcached] at this
    rcases this with h0 | h0
    · simp at h0
    · simp only [Option.some.injEq] at h0
      exact h0.symm

/-- C2, witness: after the fallback for renderer 2, the fallback for renderer
3 and an update upload the cached copy to renderer 3 without a readback. -/
theorem single_readback_witness :
    setABC.pixel_data = some [7, 7, 7, 7] ∧
    ∃ w1 set1,
      run envAB [.get_tex (some 3), .update worldABC.buffer damageAll] worldABC setABC =
        .ok (w1, set1) ∧
      set1.pixel_data = some [7, 7, 7, 7] ∧
      w1.trace = worldABC.trace ++ [.egl_save_context,
        .texture_from_buffer 3 (.buffer 100 50), .alloc,
        .texture_from_buffer 3 (.pixels DRM_FORMAT_ARGB8888 400 100 50 [7, 7, 7, 7]),
        .egl_restore_context,
        .texture_update { id := 0, renderer := 1, width := 100, height := 50 }
          worldABC.buffer damageAll,
        .texture_update { id := 1, renderer := 2, width := 100, height := 50 }
          worldABC.buffer damageAll,
        .texture_update { id := 2, renderer := 3, width := 100, height := 50 }
          worldABC.buffer damageAll] := by
  refine ⟨rfl, _, _, rfl, ?_, rfl⟩
  exact (single_readback envAB worldABC _ setABC _
    [.get_tex (some 3), .update worldABC.buffer damageAll] [7, 7, 7, 7] rfl rfl).1

/-- C8 (import is attempted at most once), counterexample: a set for a lone
renderer that refuses the buffer.  Two requests in a row each enter the import
walk and each ask the renderer to import the buffer. -/
theorem import_walk_repeated :
    ∃ w1 set1 w2 set2,
      wlr_texture_set_from_renderer envRefuse world0 rendererAlone = .ok (w1, some set1) ∧
      run envRefuse [.get_tex (some 1), .get_tex (some 1)] w1 set1 = .ok (w2, set2) ∧
      set2.native_pair = -1 ∧
      w2.trace = [.alloc, .alloc,
        .egl_save_context, .import_buffer, .texture_from_buffer 1 (.buffer 100 50),
        .egl_restore_context,
        .egl_save_context, .import_buffer, .texture_from_buffer 1 (.buffer 100 50),
        .egl_restore_context] ∧
      w2.trace.count .import_buffer = 2 :=
  ⟨_, _, _, _, rfl, rfl, rfl, rfl, by decide⟩

theorem get_tex_enters_walk (env : Env) (w w1 : World) (set set1 : wlr_texture_set)
    (renderer : Option Nat) (res : Option wlr_texture) (hneg : set.native_pair < 0)
    (h : wlr_texture_set_get_tex_for_renderer env w set renderer = .ok (w1, set1, res)) :
    ∃ added, w1.trace = w.trace ++ added ∧ Event.import_buffer ∈ added := by
  unfold wlr_texture_set_get_tex_for_renderer at h
  simp only [hneg, if_true] at h
  unfold wlr_texture_set_import_buffer at h
  split at h
  · simp at h
  · rename_i w2 set2 hwalk
    simp only [Except.ok.injEq, Prod.mk.injEq] at h
    obtain ⟨rfl, -, -⟩ := h
    obtain ⟨e, -, -⟩ := walk_loop_effect env _ _ _ _ _ _ _ hneg hwalk
    obtain ⟨added, htr, -⟩ := e.trace
    refine ⟨[.egl_save_context, .import_buffer] ++ added ++ [.egl_restore_context], ?_, ?_⟩
    · simp [World.log, htr]
    · simp
  · rename_i w2 set2 hwalk
    obtain ⟨e, -, -⟩ := walk_loop_effect env _ _ _ _ _ _ _ hneg hwalk
    obtain ⟨added, htr, -⟩ := e.trace
    obtain ⟨e2, -⟩ := lookup_or_import_effect env w2 w1 set2 set1 renderer res h
    obtain ⟨added2, htr2, -⟩ := e2.trace
    refine ⟨[.egl_save_context, .import_buffer] ++ added ++ added2, ?_, ?_⟩
    · rw [htr2, htr]
      simp [World.log]
    · simp

/-- C8, amended: once the import walk has succeeded (native index at least 0),
no sequence of texture requests and updates enters the import walk again, and
the native index keeps its value; while the native index is still negative (no
walk has succeeded yet), every texture request that returns has entered
the import walk. -/
theorem import_walk_not_repeated_after_success (env : Env) (w : World)
    (set : wlr_texture_set) :
    (∀ (ops : List Op) (w1 : World) (set1 : wlr_texture_set),
      0 ≤ set.native_pair → run env ops w set = .ok (w1, set1) →
      set1.native_pair = set.native_pair ∧
      ∃ added, w1.trace = w.trace ++ added ∧ Event.import_buffer ∉ added) ∧
    (∀ (renderer : Option Nat) (w1 : World) (set1 : wlr_texture_set)
      (res : Option wlr_texture),
      set.native_pair < 0 →
      wlr_texture_set_get_tex_for_renderer env w set renderer = .ok (w1, set1, res) →
      ∃ added, w1.trace = w.trace ++ added ∧ Event.import_buffer ∈ added) := by
  constructor
  · intro ops w1 set1 hnative hrun
    have heff := run_effect env ops w w1 set set1 hrun
    obtain ⟨added, htr, hall⟩ := heff.trace
    refine ⟨heff.native hnative, added, htr, ?_⟩
    intro hmem
    have := hall _ hmem
    simp only [allowed] at this
    omega
  · intro renderer w1 set1 res hneg h
    exact get_tex_enters_walk env w w1 set set1 renderer res hneg h

/-- C8, witness of the amended claim: after the native import into renderer 1
two requests for renderer 2 do not enter the import walk. -/
theorem import_walk_not_repeated_after_success_witness :
    (0 : Int) ≤ setAB.native_pair ∧
    ∃ w1 set1,
      run envAB [.get_tex (some 2), .get_tex (some 2)] worldAB setAB = .ok (w1, set1) ∧
      set1.native_pair = setAB.native_pair ∧
      ∃ added, w1.trace = worldAB.trace ++ added ∧ Event.import_buffer ∉ added :=
  ⟨by decide, _, _, rfl,
    (import_walk_not_repeated_after_success envAB worldAB setAB).1
      [.get_tex (some 2), .get_tex (some 2)] _ _ (by decide) rfl⟩

theorem count_destroy_of_allowed (set : wlr_texture_set) (l : List Event)
    (h : ∀ e ∈ l, allowed set e) (t : wlr_texture) :
    l.count (Event.texture_destroy t) = 0 := by
  rw [List.count_eq_zero]
  intro hmem
  exact h _ hmem

theorem count_destroy_map (l : List wlr_texture) (t : wlr_texture) :
    (l.map Event.texture_destroy).count (Event.texture_destroy t) = l.count t := by
  apply List.count_map_of_injective
  intro a b hab
  injection hab

theorem from_renderer_ne_error (env : Env) (w : World) (renderer : wlr_renderer) (f : Fault) :
    wlr_texture_set_from_renderer env w renderer ≠ .error f := by
  rcases from_renderer_spec env w renderer with ⟨h, -⟩ | ⟨h, -⟩ | ⟨set, h, -⟩ <;>
    rw [h] <;> simp

/-- Either constructor of a set, when it succeeds, has gone through
wlr_texture_set_from_renderer, followed at most by the import walk. -/
theorem created_state (env : Env) (w w1 : World) (renderer : wlr_renderer)
    (set : wlr_texture_set)
    (h : wlr_texture_set_from_renderer env w renderer = .ok (w1, some set) ∨
      wlr_texture_set_from_buffer env w renderer = .ok (w1, some set)) :
    ∃ w0 set0, wlr_texture_set_from_renderer env w renderer = .ok (w0, some set0) ∧
      Effect w0 set0 w1 set := by
  rcases h with h | h
  · exact ⟨w1, set, h, Effect.refl _ _⟩
  · unfold wlr_texture_set_from_buffer at h
    split at h
    · simp at h
    · simp at h
    · rename_i w0 set0 hcreate
      refine ⟨w0, set0, hcreate, ?_⟩
      have hneg : set0.native_pair < 0 := by
        rcases from_renderer_spec env w renderer with ⟨h1, -⟩ | ⟨h1, -⟩ | ⟨s, h1, -, hn, -⟩
        · rw [h1] at hcreate; simp at hcreate
        · rw [h1] at hcreate; simp at hcreate
        · rw [h1] at hcreate
          simp only [Except.ok.injEq, Prod.mk.injEq, Option.some.injEq] at hcreate
          rw [← hcreate.2, hn]
          decide
      split at h
      · simp at h
      · rename_i w2 set2 himp
        simp only [Except.ok.injEq, Prod.mk.injEq, Option.some.injEq] at h
        obtain ⟨rfl, rfl⟩ := h
        exact (import_buffer_effect env w0 set0 w2 set2 true hneg himp).1
      · split at h <;> simp at h

/-- C9 (no leak on create and destroy).  A set is created for a renderer and
the buffer (by either constructor), any sequence of texture requests and
updates runs on it, and the set is destroyed.  Then the destruction returns,
the lock count of the buffer is what it was before the creation, no listener of
the set is left registered, and in the log of the whole episode every texture
held by a pairing at destroy time is destroyed exactly once (and no other
texture is destroyed). -/
theorem no_leak_on_create_destroy (env : Env) (w w1 w2 : World) (renderer : wlr_renderer)
    (set set2 : wlr_texture_set) (ops : List Op)
    (hfresh : w.listeners = [])
    (hcreate : wlr_texture_set_from_renderer env w renderer = .ok (w1, some set) ∨
      wlr_texture_set_from_buffer env w renderer = .ok (w1, some set))
    (hrun : run env ops w1 set = .ok (w2, set2)) :
    ∃ w3 added, wlr_texture_set_destroy w2 set2 = .ok w3 ∧
      w3.buffer.n_locks = w.buffer.n_locks ∧
      w3.listeners = [] ∧
      w3.trace = w.trace ++ added ∧
      (∀ t ∈ held set2, added.count (.texture_destroy t) = 1) ∧
      (∀ t, t ∉ held set2 → added.count (.texture_destroy t) = 0) := by
  obtain ⟨w0, set0, h0, e0⟩ := created_state env w w1 renderer set hcreate
  have e1 := run_effect env ops w1 w2 set set2 hrun
  have e := e0.trans e1
  rcases from_renderer_spec env w renderer with ⟨h1, -⟩ | ⟨h1, -⟩ | ⟨s, h1, hp, -, -, -⟩
  · rw [h1] at h0; simp at h0
  · rw [h1] at h0; simp at h0
  · rw [h1] at h0
    simp only [Except.ok.injEq, Prod.mk.injEq, Option.some.injEq] at h0
    obtain ⟨rfl, rfl⟩ := h0
    have hlen : set2.pairings.length = (set_renderers renderer).length := by
      have := congrArg List.length e.renderers
      simpa [hp] using this
    have hl : w2.listeners = listeners_of (set_renderers renderer) 0 := by
      rw [e.listeners, hfresh]
      rfl
    have hheld : held s = [] := by
      simp only [held, hp, List.filterMap_map]
      rw [List.filterMap_eq_nil_iff]
      intro r _
      rfl
    have hok : textures_ok w2 set2 := by
      apply e.textures
      rw [textures_ok, hheld]
      exact ⟨by simp, List.nodup_nil⟩
    obtain ⟨added, htr, hall⟩ := e.trace
    refine ⟨_, [.alloc, .alloc] ++ added ++ (held set2).map Event.texture_destroy,
      set_destroy_spec w2 set2 _ hlen hl, ?_, rfl, ?_, ?_, ?_⟩
    · simp only [e.buffer, unlock_lock]
    · simp only [htr, List.append_assoc]
    · intro t ht
      have hc := count_destroy_of_allowed s added hall t
      rw [List.count_append, List.count_append, hc, count_destroy_map,
        List.count_eq_one_of_mem hok.2 ht]
      simp
    · intro t ht
      have hc := count_destroy_of_allowed s added hall t
      rw [List.count_append, List.count_append, hc, count_destroy_map,
        List.count_eq_zero_of_not_mem ht]
      simp

/-- C9, witness: a set is created for renderer 1 and the 100x50 buffer,
renderer 2 gets its texture through the fallback, an update runs, and the set
is destroyed: the lock count is back to 0 and both textures are destroyed
once. -/
theorem no_leak_on_create_destroy_witness :
    world0.listeners = [] ∧
    ∃ w1 set w2 set2 w3 added,
      wlr_texture_set_from_buffer envAB world0 rendererA = .ok (w1, some set) ∧
      run envAB [.get_tex (some 2), .update world0.buffer damageAll] w1 set =
        .ok (w2, set2) ∧
      held set2 = [{ id := 0, renderer := 1, width := 100, height := 50 },
                   { id := 1, renderer := 2, width := 100, height := 50 }] ∧
      wlr_texture_set_destroy w2 set2 = .ok w3 ∧
      w3.buffer.n_locks = world0.buffer.n_locks ∧
      w3.listeners = [] ∧
      w3.trace = world0.trace ++ added ∧
      (∀ t ∈ held set2, added.count (.texture_destroy t) = 1) := by
  obtain ⟨w3, added, h1, h2, h3, h4, h5, -⟩ :=
    no_leak_on_create_destroy envAB world0 _ _ rendererA _ _
      [.get_tex (some 2), .update world0.buffer damageAll] rfl (Or.inr rfl) rfl
  exact ⟨rfl, _, _, _, _, w3, added, rfl, rfl, rfl, h1, h2, h3, h4, h5⟩

theorem from_buffer_spec (env : Env) (w : World) (renderer : wlr_renderer)
    (hfresh : w.listeners = []) :
    (∃ w1, wlr_texture_set_from_buffer env w renderer = .ok (w1, none) ∧
      w1.buffer = w.buffer ∧ w1.listeners = []) ∨
    (∃ w1 set, wlr_texture_set_from_buffer env w renderer = .ok (w1, some set)) := by
  unfold wlr_texture_set_from_buffer
  rcases from_renderer_spec env w renderer with ⟨h1, -⟩ | ⟨h1, -⟩ | ⟨s, h1, hp, -, -, -⟩
  · left
    rw [h1]
    exact ⟨_, rfl, rfl, hfresh⟩
  · left
    rw [h1]
    exact ⟨_, rfl, rfl, hfresh⟩
  · rw [h1]
    simp only
    obtain ⟨w2, set2, b, hrun, hb, hl, hfalse, -⟩ :=
      walk_loop_fresh env (set_renderers renderer) []
        (World.log { buffer := wlr_buffer_lock w.buffer
                     listeners := w.listeners ++ listeners_of (set_renderers renderer) 0
                     textures_created := w.textures_created
                     trace := w.trace ++ [.alloc, .alloc] } .import_buffer) s
        (by simpa using hp)
    have hcount : s.pairing_count = (set_renderers renderer).length := by
      simp [wlr_texture_set.pairing_count, hp]
    unfold wlr_texture_set_import_buffer
    rw [hcount]
    simp only [List.length_nil] at hrun
    rw [hrun]
    cases b with
    | true =>
      right
      exact ⟨_, _, rfl⟩
    | false =>
      left
      obtain ⟨hset, -⟩ := hfalse rfl
      subst hset
      simp only
      have hl2 : w2.listeners = listeners_of (set_renderers renderer) 0 := by
        rw [hl, World.log, hfresh]
        rfl
      rw [set_destroy_spec w2 set2 (set_renderers renderer) (by simp [hp]) hl2]
      refine ⟨_, rfl, ?_, rfl⟩
      simp only [hb, World.log, unlock_lock]

/-- C10 (failed construction is atomic).  Before the set exists none of its
listeners is registered.  Neither constructor stops on a fault, and whenever
wlr_texture_set_from_renderer or wlr_texture_set_from_buffer returns NULL the
buffer, its lock count included, is as before the call and no listener of the
set is registered on any renderer. -/
theorem failed_construction_atomic (env : Env) (w : World) (renderer : wlr_renderer)
    (hfresh : w.listeners = []) :
    (∀ f, wlr_texture_set_from_renderer env w renderer ≠ .error f) ∧
    (∀ f, wlr_texture_set_from_buffer env w renderer ≠ .error f) ∧
    (∀ w1, wlr_texture_set_from_renderer env w renderer = .ok (w1, none) →
      w1.buffer.n_locks = w.buffer.n_locks ∧ w1.listeners = []) ∧
    (∀ w1, wlr_texture_set_from_buffer env w renderer = .ok (w1, none) →
      w1.buffer.n_locks = w.buffer.n_locks ∧ w1.listeners = []) := by
  refine ⟨from_renderer_ne_error env w renderer, ?_, ?_, ?_⟩
  · intro f
    rcases from_buffer_spec env w renderer hfresh with ⟨w1, h, -⟩ | ⟨w1, set, h⟩ <;>
      rw [h] <;> simp
  · intro w1 h
    rcases from_renderer_spec env w renderer with ⟨h1, -⟩ | ⟨h1, -⟩ | ⟨s, h1, -⟩
    · rw [h1] at h
      simp only [Except.ok.injEq, Prod.mk.injEq, and_true] at h
      subst h
      exact ⟨rfl, hfresh⟩
    · rw [h1] at h
      simp only [Except.ok.injEq, Prod.mk.injEq, and_true] at h
      subst h
      exact ⟨rfl, hfresh⟩
    · rw [h1] at h
      simp at h
  · intro w1 h
    rcases from_buffer_spec env w renderer hfresh with ⟨w2, h2, hb, hl⟩ | ⟨w2, set, h2⟩
    · rw [h2] at h
      simp only [Except.ok.injEq, Prod.mk.injEq, and_true] at h
      subst h
      exact ⟨by rw [hb], hl⟩
    · rw [h2] at h
      simp at h

/-- C10, witness: the lone renderer refuses the buffer, so
wlr_texture_set_from_buffer returns NULL; the buffer is unlocked as before and
no listener is left. -/
theorem failed_construction_atomic_witness :
    world0.listeners = [] ∧
    ∃ w1, wlr_texture_set_from_buffer envRefuse world0 rendererAlone = .ok (w1, none) ∧
      w1.buffer.n_locks = world0.buffer.n_locks ∧ w1.listeners = [] :=
  ⟨rfl, _, rfl,
    (failed_construction_atomic envRefuse world0 rendererAlone rfl).2.2.2 _ rfl⟩

theorem find_pair_none (renderer : Option Nat) :
    ∀ (l : List wlr_texture_renderer_pair) (i : Nat),
      (∀ p ∈ l, p.renderer ≠ renderer) → find_pair renderer l i none = none := by
  intro l
  induction l with
  | nil =>
    intro i _
    rfl
  | cons a l ih =>
    intro i h
    have ha : a.renderer ≠ renderer := h a (List.mem_cons_self _ _)
    simp only [find_pair, ha, if_false]
    exact ih (i + 1) (fun p hp => h p (List.mem_cons_of_mem _ hp))

theorem get_tex_not_bound (env : Env) (w : World) (set : wlr_texture_set)
    (renderer : Option Nat) (hnative : 0 ≤ set.native_pair)
    (hnot : ∀ p ∈ set.pairings, p.renderer ≠ renderer) :
    wlr_texture_set_get_tex_for_renderer env w set renderer =
      .ok ((w.log .egl_save_context).log .egl_restore_context, set, none) := by
  have hneg : ¬ set.native_pair < 0 := by omega
  unfold wlr_texture_set_get_tex_for_renderer lookup_or_import
  simp only [hneg, if_false, find_pair_none renderer set.pairings 0 hnot]

theorem handle_renderer_destroy_spec (w : World) (set : wlr_texture_set) (j : Nat)
    (p : wlr_texture_renderer_pair) (hp : set.pairings[j]? = some p)
    (hl : w.listeners.any (fun l => l.2 == j) = true) :
    handle_renderer_destroy w set j =
      .ok ({ w with
              listeners := w.listeners.filter (fun l => l.2 != j)
              trace := w.trace ++ (p.texture.map Event.texture_destroy).toList },
           { set with pairings := set.pairings.set j { renderer := none, texture := none } }) := by
  unfold handle_renderer_destroy
  simp only [hp]
  have hset : set_texture (set_renderer set j none) j none =
      { set with pairings := set.pairings.set j { renderer := none, texture := none } } := by
    simp only [set_texture, set_renderer, List.modify_modify_eq]
    congr 1
    apply List.ext_getElem?
    intro n
    rw [List.getElem?_modify, List.getElem?_set]
    by_cases h : j = n
    · subst h
      have hlt : j < set.pairings.length := (List.getElem?_eq_some_iff.mp hp).1
      simp [hp, hlt]
    · simp [h]
  cases ht : p.texture with
  | none =>
    simp only [hl, if_true, hset]
    simp
  | some t =>
    simp only [wlr_texture_destroy, World.log, hl, if_true, hset]
    simp

/-- C11 (renderer destroyed while its pairing holds a texture).  Pairing `j`
is bound to renderer `B` and holds texture `t`; its listener is the only
listener of the set on the destroy signal of `B`, no other pairing is bound to
`B`, and the set satisfies the precondition of the import walk (no texture
while the native index is negative).  When the destroy notification of `B`
fires, it returns; pairing `j` has a null renderer and a null texture; the log
gains exactly one event, the destruction of `t`; every other pairing, the
native index, the cached linear copy and its format are unchanged; the
listener of pairing `j` is unlinked; and the next request for `B` returns NULL
with nothing but the save and restore of the EGL context in the log. -/
theorem renderer_destroyed_with_texture (env : Env) (w : World) (set : wlr_texture_set)
    (B j : Nat) (t : wlr_texture)
    (hpair : set.pairings[j]? = some { renderer := some B, texture := some t })
    (hlisten : w.listeners.filter (fun l => l.1 == B) = [(B, j)])
    (huniq : ∀ k p, set.pairings[k]? = some p → p.renderer = some B → k = j)
    (hinv : set.native_pair < 0 → ∀ p ∈ set.pairings, p.texture = none) :
    ∃ w1 set1, renderer_destroy w set B = .ok (w1, set1) ∧
      set1.pairings[j]? = some { renderer := none, texture := none } ∧
      w1.trace = w.trace ++ [.texture_destroy t] ∧
      (∀ k : Nat, k ≠ j → set1.pairings[k]? = set.pairings[k]?) ∧
      set1.pairing_count = set.pairing_count ∧
      set1.native_pair = set.native_pair ∧
      set1.pixel_data = set.pixel_data ∧
      set1.format = set.format ∧
      w1.listeners = w.listeners.filter (fun l => l.2 != j) ∧
      w1.buffer = w.buffer ∧
      wlr_texture_set_get_tex_for_renderer env w1 set1 (some B) =
        .ok ((w1.log .egl_save_context).log .egl_restore_context, set1, none) := by
  have hlt : j < set.pairings.length := (List.getElem?_eq_some_iff.mp hpair).1
  have hmem : (B, j) ∈ w.listeners := by
    have : (B, j) ∈ w.listeners.filter (fun l => l.1 == B) := by
      rw [hlisten]
      exact List.mem_singleton_self _
    exact (List.mem_filter.mp this).1
  have hany : w.listeners.any (fun l => l.2 == j) = true := by
    rw [List.any_eq_true]
    exact ⟨(B, j), hmem, by simp⟩
  have hrun := handle_renderer_destroy_spec w set j _ hpair hany
  have hnative : 0 ≤ set.native_pair := by
    by_contra hcon
    have hnone := hinv (by omega) _ (List.mem_iff_getElem?.mpr ⟨j, hpair⟩)
    simp at hnone
  refine ⟨{ w with
              listeners := w.listeners.filter (fun l => l.2 != j)
              trace := w.trace ++ [.texture_destroy t] },
    { set with pairings := set.pairings.set j { renderer := none, texture := none } },
    ?_, ?_, ?_, ?_, ?_, rfl, rfl, rfl, rfl, rfl, ?_⟩
  · unfold renderer_destroy
    rw [hlisten]
    simp only [renderer_destroy_loop, hrun]
    rfl
  · simp [hlt]
  · rfl
  · intro k hk
    simp [List.getElem?_set, Ne.symm hk]
  · simp [wlr_texture_set.pairing_count]
  · apply get_tex_not_bound
    · exact hnative
    · intro p hp
      obtain ⟨k, hk⟩ := List.mem_iff_getElem?.mp hp
      simp only [List.getElem?_set] at hk
      by_cases hkj : j = k
      · subst hkj
        simp only [if_true, hlt] at hk
        simp only [Option.some.injEq] at hk
        rw [← hk]
        simp
      · simp only [hkj, if_false] at hk
        intro hB
        exact hkj (huniq k p hk hB).symm

/-- C11, witness: in the three-renderer scenario renderer 2, whose pairing
holds texture 1, is destroyed; its pairing is cleared, texture 1 is destroyed
once, and the next request for renderer 2 returns NULL. -/
theorem renderer_destroyed_with_texture_witness :
    ∃ w1 set1, renderer_destroy worldABC setABC 2 = .ok (w1, set1) ∧
      set1.pairings[1]? = some { renderer := none, texture := none } ∧
      w1.trace = worldABC.trace ++
        [.texture_destroy { id := 1, renderer := 2, width := 100, height := 50 }] ∧
      wlr_texture_set_get_tex_for_renderer envAB w1 set1 (some 2) =
        .ok ((w1.log .egl_save_context).log .egl_restore_context, set1, none) := by
  obtain ⟨w1, set1, h1, h2, h3, -, -, -, -, -, -, -, h4⟩ :=
    renderer_destroyed_with_texture envAB worldABC setABC 2 1
      { id := 1, renderer := 2, width := 100, height := 50 } rfl rfl
      (by
        intro k p hk hp
        match k, hk with
        | 0, hk =>
          simp only [setABC, List.getElem?_cons_zero, Option.some.injEq] at hk
          subst hk
          simp at hp
        | 1, _ => rfl
        | 2, hk =>
          simp only [setABC, List.getElem?_cons_succ, List.getElem?_cons_zero,
            Option.some.injEq] at hk
          subst hk
          simp [fresh_pair] at hp
        | k + 3, hk => simp [setABC] at hk)
      (by
        intro h
        simp [setABC] at h)
  exact ⟨w1, set1, h1, h2, h3, h4⟩

/-- C12 (a destroyed renderer never surfaces as an error), evaluated on the
code in three episodes.  (1) A set is created with its native texture on
renderer 1; renderer 1 is destroyed; the request for renderer 2, which cannot
take the buffer directly, reaches the fallback and stops on the assertion that
the native texture exists.  (2) A set is created without import; renderer 1 is destroyed;
the request for renderer 2 enters the import walk, which hands the cleared
renderer reference of pairing 0 to wlr_texture_from_buffer: a NULL
dereference.  (3) The registry has no primary; renderer 2 is destroyed; the
request for the primary texture looks for a NULL renderer, finds the cleared
pairing and hands NULL to wlr_texture_from_buffer: a NULL dereference. -/
theorem destroyed_renderer_surfaces_as_fault :
    (∃ w0 set0 w1 set1,
      wlr_texture_set_from_buffer envAB world0 rendererA = .ok (w0, some set0) ∧
      renderer_destroy w0 set0 1 = .ok (w1, set1) ∧
      wlr_texture_set_get_tex_for_renderer envAB w1 set1 (some 2) = .error .assertion) ∧
    (∃ w0 set0 w1 set1,
      wlr_texture_set_from_renderer envAB world0 rendererA = .ok (w0, some set0) ∧
      renderer_destroy w0 set0 1 = .ok (w1, set1) ∧
      wlr_texture_set_get_tex_for_renderer envAB w1 set1 (some 2) = .error .null_deref) ∧
    (∃ w0 set0 w1 set1,
      wlr_texture_set_from_buffer envAB world0 rendererNoPrimary = .ok (w0, some set0) ∧
      renderer_destroy w0 set0 2 = .ok (w1, set1) ∧
      wlr_texture_set_get_primary_texture envAB w1 set1 = .error .null_deref) :=
  ⟨⟨_, _, _, _, rfl, rfl, rfl⟩, ⟨_, _, _, _, rfl, rfl, rfl⟩, ⟨_, _, _, _, rfl, rfl, rfl⟩⟩

/-- Requests for a renderer outside the set.  `renderer` is bound to no pairing
of the set.  A request for it that returns returns NULL and leaves the pairing
count and the renderers bound to the pairings as they were.  The request does
return, with the set untouched, when the native index is set; and it returns
when the pairings are bound to live renderers and hold no texture. -/
theorem non_member_gets_nothing (env : Env) (w : World) (set : wlr_texture_set)
    (renderer : Option Nat)
    (hnot : ∀ p ∈ set.pairings, p.renderer ≠ renderer) :
    (∀ w1 set1 res,
      wlr_texture_set_get_tex_for_renderer env w set renderer = .ok (w1, set1, res) →
      res = none ∧ set1.pairing_count = set.pairing_count ∧
      set1.pairings.map (fun p => p.renderer) = set.pairings.map (fun p => p.renderer)) ∧
    (0 ≤ set.native_pair →
      wlr_texture_set_get_tex_for_renderer env w set renderer =
        .ok ((w.log .egl_save_context).log .egl_restore_context, set, none)) ∧
    (∀ rs : List Nat, set.pairings = rs.map fresh_pair →
      ∃ w1 set1, wlr_texture_set_get_tex_for_renderer env w set renderer =
        .ok (w1, set1, none)) := by
  have hfind : ∀ set1 : wlr_texture_set,
      set1.pairings.map (fun p => p.renderer) = set.pairings.map (fun p => p.renderer) →
      find_pair renderer set1.pairings 0 none = none := by
    intro set1 h
    rw [find_pair_congr renderer set1.pairings set.pairings 0 none h]
    exact find_pair_none renderer set.pairings 0 hnot
  refine ⟨?_, fun hn => get_tex_not_bound env w set renderer hn hnot, ?_⟩
  · intro w1 set1 res h
    obtain ⟨heff, hres⟩ := get_tex_effect env w w1 set set1 renderer res h
    refine ⟨?_, ?_, heff.renderers⟩
    · cases res with
      | none => rfl
      | some t =>
        obtain ⟨-, j, q, hj, -⟩ := hres t rfl
        rw [hfind set1 heff.renderers] at hj
        simp at hj
    · have := congrArg List.length heff.renderers
      simpa [wlr_texture_set.pairing_count] using this
  · intro rs hpairs
    by_cases hn : 0 ≤ set.native_pair
    · exact ⟨_, _, get_tex_not_bound env w set renderer hn hnot⟩
    · have hneg : set.native_pair < 0 := by omega
      obtain ⟨w1, set1, b, hrun, -⟩ :=
        walk_loop_fresh env rs [] ((w.log .egl_save_context).log .import_buffer) set
          (by simpa using hpairs)
      have hlen : set.pairing_count = rs.length := by
        simp [wlr_texture_set.pairing_count, hpairs]
      have himp : wlr_texture_set_import_buffer env (w.log .egl_save_context) set =
          .ok (w1, set1, b) := by
        unfold wlr_texture_set_import_buffer
        rw [hlen]
        exact hrun
      unfold wlr_texture_set_get_tex_for_renderer
      simp only [hneg, if_true, himp]
      cases b with
      | false => exact ⟨_, _, rfl⟩
      | true =>
        have heff := (import_buffer_effect env _ set w1 set1 true hneg himp).1
        simp only [lookup_or_import, hfind set1 heff.renderers]
        exact ⟨_, _, rfl⟩

/-- In the two-renderer scenario renderer 3 is bound to no
pairing, and a request for it returns NULL and leaves the set untouched. -/
theorem non_member_gets_nothing_witness :
    (∀ p ∈ setAB.pairings, p.renderer ≠ some 3) ∧
    wlr_texture_set_get_tex_for_renderer envAB worldAB setAB (some 3) =
      .ok ((worldAB.log .egl_save_context).log .egl_restore_context, setAB, none) :=
  ⟨by decide,
    (non_member_gets_nothing envAB worldAB setAB (some 3) (by decide)).2.1 (by decide)⟩

theorem handle_renderer_destroy_fields (w w1 : World) (set set1 : wlr_texture_set) (j : Nat)
    (h : handle_renderer_destroy w set j = .ok (w1, set1)) :
    set1.native_pair = set.native_pair ∧ set1.pixel_data = set.pixel_data ∧
      set1.format = set.format ∧ set1.multi_gpu = set.multi_gpu ∧
      set1.width = set.width ∧ set1.height = set.height ∧
      set1.pairings.length = set.pairings.length ∧ w1.buffer = w.buffer := by
  unfold handle_renderer_destroy at h
  split at h
  · simp at h
  · dsimp only at h
    split at h
    · simp only [Except.ok.injEq, Prod.mk.injEq] at h
      obtain ⟨rfl, rfl⟩ := h
      refine ⟨rfl, rfl, rfl, rfl, rfl, rfl, by simp [set_texture, set_renderer], ?_⟩
      split <;> rfl
    · simp at h

theorem renderer_destroy_loop_fields :
    ∀ (ls : List (Nat × Nat)) (w w1 : World) (set set1 : wlr_texture_set),
      renderer_destroy_loop ls w set = .ok (w1, set1) →
      set1.native_pair = set.native_pair ∧ set1.pixel_data = set.pixel_data ∧
        set1.format = set.format ∧ set1.multi_gpu = set.multi_gpu ∧
        set1.width = set.width ∧ set1.height = set.height ∧
        set1.pairings.length = set.pairings.length ∧ w1.buffer = w.buffer := by
  intro ls
  induction ls with
  | nil =>
    intro w w1 set set1 h
    simp only [renderer_destroy_loop, Except.ok.injEq, Prod.mk.injEq] at h
    obtain ⟨rfl, rfl⟩ := h
    exact ⟨rfl, rfl, rfl, rfl, rfl, rfl, rfl, rfl⟩
  | cons l ls ih =>
    intro w w1 set set1 h
    simp only [renderer_destroy_loop] at h
    split at h
    · simp at h
    · rename_i w2 set2 hh
      obtain ⟨a1, a2, a3, a4, a5, a6, a7, a8⟩ :=
        handle_renderer_destroy_fields w w2 set set2 l.2 hh
      obtain ⟨b1, b2, b3, b4, b5, b6, b7, b8⟩ := ih w2 w1 set2 set1 h
      exact ⟨b1.trans a1, b2.trans a2, b3.trans a3, b4.trans a4, b5.trans a5, b6.trans a6,
        b7.trans a7, b8.trans a8⟩

theorem perform_native (env : Env) (w w1 : World) (set set1 : wlr_texture_set)
    (q : Request) (hnative : 0 ≤ set.native_pair)
    (h : perform env w set q = .ok (w1, set1)) : set1.native_pair = set.native_pair := by
  cases q with
  | get_tex renderer =>
    simp only [perform] at h
    split at h
    · simp at h
    · rename_i w2 set2 res hget
      simp only [Except.ok.injEq, Prod.mk.injEq] at h
      obtain ⟨rfl, rfl⟩ := h
      exact (get_tex_effect env w w2 set set2 renderer res hget).1.native hnative
  | get_primary =>
    simp only [perform] at h
    split at h
    · simp at h
    · rename_i w2 set2 res hget
      simp only [Except.ok.injEq, Prod.mk.injEq] at h
      obtain ⟨rfl, rfl⟩ := h
      unfold wlr_texture_set_get_primary_texture at hget
      split at hget
      · exact (get_tex_effect env w w2 set set2 _ res hget).1.native hnative
      · split at hget
        · simp at hget
        · simp only [Except.ok.injEq, Prod.mk.injEq] at hget
          rw [← hget.2.1]
  | get_native =>
    simp only [perform] at h
    split at h
    · simp at h
    · simp only [Except.ok.injEq, Prod.mk.injEq] at h
      rw [← h.2]
  | update next damage =>
    simp only [perform, Except.ok.injEq, Prod.mk.injEq] at h
    rw [← h.2]
  | renderer_destroy r =>
    simp only [perform, renderer_destroy] at h
    exact (renderer_destroy_loop_fields _ w w1 set set1 h).1

/-- C14 (native index is write-once).  From a state in which the native index
is at least 0, every sequence of texture requests (for a renderer, for the
primary renderer, for the native texture), updates and renderer destroy
notifications that returns leaves the native index at the same value. -/
theorem native_index_write_once (env : Env) (reqs : List Request) :
    ∀ (w w1 : World) (set set1 : wlr_texture_set),
      0 ≤ set.native_pair → perform_all env reqs w set = .ok (w1, set1) →
      set1.native_pair = set.native_pair := by
  induction reqs with
  | nil =>
    intro w w1 set set1 _ h
    simp only [perform_all, Except.ok.injEq, Prod.mk.injEq] at h
    rw [← h.2]
  | cons q qs ih =>
    intro w w1 set set1 hnative h
    simp only [perform_all] at h
    split at h
    · simp at h
    · rename_i w2 set2 hq
      have e1 := perform_native env w w2 set set2 q hnative hq
      rw [ih w2 w1 set2 set1 (by rw [e1]; exact hnative) h, e1]

/-- C14, witness: in the three-renderer scenario a request for renderer 3, the
destruction of the native renderer 1, a request for the native texture, an
update and a request for the primary texture leave the native index at 0. -/
theorem native_index_write_once_witness :
    (0 : Int) ≤ setABC.native_pair ∧
    ∃ w1 set1,
      perform_all envAB [.get_tex (some 3), .renderer_destroy 1, .get_native,
        .update worldABC.buffer damageAll, .get_primary] worldABC setABC = .ok (w1, set1) ∧
      set1.native_pair = 0 :=
  ⟨by decide, _, _, rfl,
    native_index_write_once envAB [.get_tex (some 3), .renderer_destroy 1, .get_native,
      .update worldABC.buffer damageAll, .get_primary] worldABC _ setABC _ (by decide) rfl⟩

/-- C15 (get_native_texture before any import), evaluated on the code: with
native index -1 the function reads `pairings[-1]`, outside the pairing array,
instead of returning NULL; a set fresh from wlr_texture_set_from_renderer is
such a set.  With a native index `i` inside the array it returns the texture
of pairing `i`, and in no case does it attempt an import. -/
theorem native_texture_before_import_reads_out_of_bounds :
    (∀ set : wlr_texture_set, set.native_pair = -1 →
      wlr_texture_set_get_native_texture set = .error .out_of_bounds) ∧
    (∃ w set, wlr_texture_set_from_renderer envAB world0 rendererA = .ok (w, some set) ∧
      set.native_pair = -1 ∧
      wlr_texture_set_get_native_texture set = .error .out_of_bounds) ∧
    (∀ (set : wlr_texture_set) (i : Nat) (p : wlr_texture_renderer_pair),
      set.native_pair = (i : Int) → set.pairings[i]? = some p →
      wlr_texture_set_get_native_texture set = .ok p.texture) := by
  refine ⟨?_, ⟨_, _, rfl, rfl, rfl⟩, ?_⟩
  · intro set h
    simp [wlr_texture_set_get_native_texture, pair_at, h]
  · intro set i p h hp
    have hi : ¬ ((i : Int) < 0) := by omega
    simp [wlr_texture_set_get_native_texture, pair_at, h, hi, hp]

theorem update_loop_cons_none (env : Env) (next : wlr_buffer) (damage : pixman_region32)
    (p : wlr_texture_renderer_pair) (ps : List wlr_texture_renderer_pair) (w : World)
    (hp : p.texture = none) :
    wlr_texture_set_update_from_buffer.loop env next damage (p :: ps) w =
      wlr_texture_set_update_from_buffer.loop env next damage ps w := by
  simp only [wlr_texture_set_update_from_buffer.loop, hp]

theorem update_loop_cons_some (env : Env) (next : wlr_buffer) (damage : pixman_region32)
    (p : wlr_texture_renderer_pair) (ps : List wlr_texture_renderer_pair) (w : World)
    (t : wlr_texture) (hp : p.texture = some t) :
    wlr_texture_set_update_from_buffer.loop env next damage (p :: ps) w =
      if (wlr_texture_update_from_buffer env w t next damage).2 = true then
        wlr_texture_set_update_from_buffer.loop env next damage ps
          (wlr_texture_update_from_buffer env w t next damage).1
      else ((wlr_texture_update_from_buffer env w t next damage).1, false) := by
  simp only [wlr_texture_set_update_from_buffer.loop, hp]
  cases h : wlr_texture_update_from_buffer env w t next damage with
  | mk w1 b =>
    cases b <;> simp

/-- C18 (texture update validation).  wlr_texture_update_from_buffer returns
false, and leaves the world untouched (the implementation is not invoked),
when the size of the texture differs from that of the buffer (compared as
`uint32_t`, as the code does), when the damage extents leave the buffer
rectangle, or when the texture has no update implementation.  In every other
case it invokes the implementation once and returns its result; extents that
touch the edge are in that case.  For a buffer size within range the
comparison as `uint32_t` is the comparison of the sizes. -/
theorem texture_update_validation (env : Env) (w : World) (texture : wlr_texture)
    (buffer : wlr_buffer) (damage : pixman_region32) :
    ((texture.width ≠ u32 buffer.width ∨ texture.height ≠ u32 buffer.height) →
      wlr_texture_update_from_buffer env w texture buffer damage = (w, false)) ∧
    ((damage.extents.x1 < 0 ∨ damage.extents.y1 < 0 ∨ damage.extents.x2 > buffer.width ∨
        damage.extents.y2 > buffer.height) →
      wlr_texture_update_from_buffer env w texture buffer damage = (w, false)) ∧
    (env.has_update_from_buffer texture.renderer = false →
      wlr_texture_update_from_buffer env w texture buffer damage = (w, false)) ∧
    (env.has_update_from_buffer texture.renderer = true →
      texture.width = u32 buffer.width → texture.height = u32 buffer.height →
      0 ≤ damage.extents.x1 → 0 ≤ damage.extents.y1 →
      damage.extents.x2 ≤ buffer.width → damage.extents.y2 ≤ buffer.height →
      wlr_texture_update_from_buffer env w texture buffer damage =
        (w.log (.texture_update texture buffer damage),
          env.update_from_buffer w.trace texture buffer damage)) ∧
    (0 ≤ buffer.width → buffer.width < 4294967296 →
      (texture.width = u32 buffer.width ↔ (texture.width : Int) = buffer.width)) ∧
    (0 ≤ buffer.height → buffer.height < 4294967296 →
      (texture.height = u32 buffer.height ↔ (texture.height : Int) = buffer.height)) := by
  have hu : ∀ (n : Nat) (x : Int), 0 ≤ x → x < 4294967296 → (n = u32 x ↔ (n : Int) = x) := by
    intro n x h0 h1
    unfold u32
    rw [Int.emod_eq_of_lt h0 h1]
    omega
  refine ⟨?_, ?_, ?_, ?_, hu texture.width buffer.width, hu texture.height buffer.height⟩
  · intro h
    unfold wlr_texture_update_from_buffer
    split
    · rfl
    · simp only [h, if_true]
  · intro h
    unfold wlr_texture_update_from_buffer
    split
    · rfl
    · split
      · rfl
      · simp only [h, if_true]
  · intro h
    unfold wlr_texture_update_from_buffer
    simp [h]
  · intro h hw hh h1 h2 h3 h4
    unfold wlr_texture_update_from_buffer
    have hd : ¬ (texture.width ≠ u32 buffer.width ∨ texture.height ≠ u32 buffer.height) := by
      simp [hw, hh]
    have he : ¬ (damage.extents.x1 < 0 ∨ damage.extents.y1 < 0 ∨
        damage.extents.x2 > buffer.width ∨ damage.extents.y2 > buffer.height) := by
      omega
    simp only [h, Bool.not_true, Bool.false_eq_true, if_false, hd, he]

theorem texture_update_out_of_bounds (env : Env) (w : World) (texture : wlr_texture)
    (buffer : wlr_buffer) (damage : pixman_region32)
    (h : damage.extents.x1 < 0 ∨ damage.extents.y1 < 0 ∨ damage.extents.x2 > buffer.width ∨
      damage.extents.y2 > buffer.height) :
    wlr_texture_update_from_buffer env w texture buffer damage = (w, false) := by
  unfold wlr_texture_update_from_buffer
  split
  · rfl
  · split
    · rfl
    · simp only [h, if_true]

theorem update_loop_out_of_bounds (env : Env) (next : wlr_buffer) (damage : pixman_region32)
    (h : damage.extents.x1 < 0 ∨ damage.extents.y1 < 0 ∨ damage.extents.x2 > next.width ∨
      damage.extents.y2 > next.height) :
    ∀ (ps : List wlr_texture_renderer_pair) (w : World),
      wlr_texture_set_update_from_buffer.loop env next damage ps w =
        (w, (ps.filterMap (fun p => p.texture)).isEmpty) := by
  intro ps
  induction ps with
  | nil =>
    intro w
    rfl
  | cons p ps ih =>
    intro w
    cases hp : p.texture with
    | none =>
      rw [update_loop_cons_none env next damage p ps w hp, ih w]
      simp [List.filterMap_cons, hp]
    | some t =>
      rw [update_loop_cons_some env next damage p ps w t hp,
        texture_update_out_of_bounds env w t next damage h]
      simp [List.filterMap_cons, hp]

/-- C17 (out-of-bounds damage is rejected for the whole set), counterexample:
a set in which no pairing holds a texture accepts damage that is wider than
the buffer.  Such a set is one fresh from wlr_texture_set_from_renderer, and
also the set of a client buffer whose only renderer has been destroyed: the
update and apply_damage return true. -/
theorem out_of_bounds_damage_accepted_without_texture :
    damageTooWide.extents.x2 > world0.buffer.width ∧
    (∃ w set, wlr_texture_set_from_renderer envAB world0 rendererA = .ok (w, some set) ∧
      wlr_texture_set_update_from_buffer envAB w set w.buffer damageTooWide = (w, true)) ∧
    (∃ w0 cb w1 set1,
      wlr_client_buffer_create envAB world0 rendererAlone = .ok (w0, some cb) ∧
      renderer_destroy w0 cb.texture_set 1 = .ok (w1, set1) ∧
      wlr_client_buffer_apply_damage envAB w1 { cb with texture_set := set1 } w1.buffer
        damageTooWide = (w1, true)) :=
  ⟨by decide, ⟨_, _, rfl, rfl⟩, ⟨_, _, _, _, rfl, rfl, rfl⟩⟩

/-- C17, amended: for damage whose bounding box leaves the buffer rectangle,
wlr_texture_set_update_from_buffer leaves the world untouched (no update
implementation is invoked on any texture) and returns false when at least one
pairing holds a texture, true when none does; wlr_client_buffer_apply_damage
on a client buffer wrapping the set leaves the world untouched too and returns
false when at least one pairing holds a texture. -/
theorem out_of_bounds_damage_rejected (env : Env) (w : World) (set : wlr_texture_set)
    (next : wlr_buffer) (damage : pixman_region32)
    (hoob : damage.extents.x1 < 0 ∨ damage.extents.y1 < 0 ∨
      damage.extents.x2 > next.width ∨ damage.extents.y2 > next.height) :
    wlr_texture_set_update_from_buffer env w set next damage = (w, (held set).isEmpty) ∧
    (held set ≠ [] → wlr_texture_set_update_from_buffer env w set next damage = (w, false)) ∧
    (∀ cb : wlr_client_buffer, cb.texture_set = set →
      (wlr_client_buffer_apply_damage env w cb next damage).1 = w ∧
      (held set ≠ [] → wlr_client_buffer_apply_damage env w cb next damage = (w, false))) := by
  have hupd : wlr_texture_set_update_from_buffer env w set next damage =
      (w, (held set).isEmpty) := by
    unfold wlr_texture_set_update_from_buffer held
    exact update_loop_out_of_bounds env next damage hoob set.pairings w
  have hfalse : held set ≠ [] → (held set).isEmpty = false := by
    intro h
    cases hh : held set with
    | nil => exact absurd hh h
    | cons a l => rfl
  refine ⟨hupd, ?_, ?_⟩
  · intro h
    rw [hupd, hfalse h]
  · intro cb hcb
    unfold wlr_client_buffer_apply_damage
    split
    · exact ⟨rfl, fun _ => rfl⟩
    · rw [hcb, hupd]
      exact ⟨rfl, fun h => by rw [hfalse h]⟩

/-- C17, witness of the amended claim: in the two-renderer scenario, where
renderer 1 holds a texture, damage wider than the buffer is refused and the
world is untouched. -/
theorem out_of_bounds_damage_rejected_witness :
    damageTooWide.extents.x2 > worldAB.buffer.width ∧ held setAB ≠ [] ∧
    wlr_texture_set_update_from_buffer envAB worldAB setAB worldAB.buffer damageTooWide =
      (worldAB, false) :=
  ⟨by decide, by decide,
    (out_of_bounds_damage_rejected envAB worldAB setAB worldAB.buffer damageTooWide
      (Or.inr (Or.inr (Or.inl (by decide))))).2.1 (by decide)⟩

/-- C19 (apply_damage exclusivity).  For a client buffer whose ignore-lock
count is a part of its lock count (both `size_t` values), apply_damage returns
false and leaves the world untouched (no texture is updated) when the lock
count minus the ignore-lock count exceeds 1, in particular when it is 2, and
otherwise returns exactly what wlr_texture_set_update_from_buffer returns on
its texture set for the same next buffer and damage. -/
theorem apply_damage_exclusivity (env : Env) (w : World) (cb : wlr_client_buffer)
    (next : wlr_buffer) (damage : pixman_region32)
    (hignore : 0 ≤ cb.n_ignore_locks)
    (hpart : cb.n_ignore_locks ≤ cb.base.n_locks)
    (hsize : cb.base.n_locks < 18446744073709551616) :
    (cb.base.n_locks - cb.n_ignore_locks > 1 →
      wlr_client_buffer_apply_damage env w cb next damage = (w, false)) ∧
    (cb.base.n_locks - cb.n_ignore_locks = 2 →
      wlr_client_buffer_apply_damage env w cb next damage = (w, false)) ∧
    (cb.base.n_locks - cb.n_ignore_locks ≤ 1 →
      wlr_client_buffer_apply_damage env w cb next damage =
        wlr_texture_set_update_from_buffer env w cb.texture_set next damage) := by
  have hsub : size_sub cb.base.n_locks cb.n_ignore_locks =
      cb.base.n_locks - cb.n_ignore_locks := by
    unfold size_sub
    exact Int.emod_eq_of_lt (by omega) (by omega)
  have hgt : cb.base.n_locks - cb.n_ignore_locks > 1 →
      wlr_client_buffer_apply_damage env w cb next damage = (w, false) := by
    intro h
    unfold wlr_client_buffer_apply_damage
    rw [hsub]
    simp only [h, if_true]
  refine ⟨hgt, fun h => hgt (by omega), ?_⟩
  intro h
  unfold wlr_client_buffer_apply_damage
  rw [hsub]
  have hn : ¬ (cb.base.n_locks - cb.n_ignore_locks > 1) := by omega
  simp only [hn, if_false]

/-- C19, witness: a client buffer with three locks, one of them ignored, has
two externally visible locks; apply_damage refuses and the world is
untouched. -/
theorem apply_damage_exclusivity_witness :
    clientTwoVisible.base.n_locks - clientTwoVisible.n_ignore_locks = 2 ∧
    wlr_client_buffer_apply_damage envAB worldAB clientTwoVisible worldAB.buffer damageAll =
      (worldAB, false) :=
  ⟨by decide,
    (apply_damage_exclusivity envAB worldAB clientTwoVisible worldAB.buffer damageAll
      (by decide) (by decide) (by decide)).2.1 (by decide)⟩

/-- C20 (client buffer self-lock bookkeeping), counterexample: the client
buffer created for renderer 1 and the 100x50 buffer has lock count 1 and is
dropped, but its ignore-lock count is 0, not 1, and its lock count minus its
ignore-lock count is 1, not 0. -/
theorem client_buffer_self_lock_not_ignored :
    ∃ w1 cb, wlr_client_buffer_create envAB world0 rendererA = .ok (w1, some cb) ∧
      cb.base.n_locks = 1 ∧ cb.base.dropped = true ∧
      cb.n_ignore_locks = 0 ∧ cb.n_ignore_locks ≠ 1 ∧
      size_sub cb.base.n_locks cb.n_ignore_locks = 1 ∧
      size_sub cb.base.n_locks cb.n_ignore_locks ≠ 0 :=
  ⟨_, _, rfl, rfl, rfl, rfl, by decide, rfl, by decide⟩

/-- C20, amended: every client buffer wlr_client_buffer_create returns has
been locked exactly once (lock count 1) and is marked as dropped; the lock is
not recorded as an ignore-lock (ignore-lock count 0), so its lock count minus
its ignore-lock count is 1; it has the size of its source and points to it. -/
theorem client_buffer_self_lock (env : Env) (w w1 : World) (renderer : wlr_renderer)
    (cb : wlr_client_buffer)
    (h : wlr_client_buffer_create env w renderer = .ok (w1, some cb)) :
    cb.base.n_locks = 1 ∧ cb.base.dropped = true ∧ cb.n_ignore_locks = 0 ∧
    size_sub cb.base.n_locks cb.n_ignore_locks = 1 ∧
    cb.base.width = w1.buffer.width ∧ cb.base.height = w1.buffer.height ∧
    cb.source = true := by
  unfold wlr_client_buffer_create at h
  split at h
  · simp at h
  · simp at h
  · dsimp only at h
    split at h
    · split at h <;> simp at h
    · simp only [Except.ok.injEq, Prod.mk.injEq, Option.some.injEq] at h
      obtain ⟨rfl, rfl⟩ := h
      exact ⟨rfl, rfl, rfl, rfl, rfl, rfl, rfl⟩

/-- C20, witness of the amended claim: the client buffer created for renderer
1 and the 100x50 buffer. -/
theorem client_buffer_self_lock_witness :
    ∃ w1 cb, wlr_client_buffer_create envAB world0 rendererA = .ok (w1, some cb) ∧
      cb.base.n_locks = 1 ∧ cb.base.dropped = true ∧ cb.n_ignore_locks = 0 :=
  ⟨_, _, rfl,
    (client_buffer_self_lock envAB world0 _ rendererA _ rfl).1,
    (client_buffer_self_lock envAB world0 _ rendererA _ rfl).2.1,
    (client_buffer_self_lock envAB world0 _ rendererA _ rfl).2.2.1⟩

theorem from_buffer_some (env : Env) (w w1 : World) (renderer : wlr_renderer)
    (set : wlr_texture_set)
    (h : wlr_texture_set_from_buffer env w renderer = .ok (w1, some set)) :
    ∃ w0 set0, wlr_texture_set_from_renderer env w renderer = .ok (w0, some set0) ∧
      wlr_texture_set_import_buffer env w0 set0 = .ok (w1, set, true) := by
  unfold wlr_texture_set_from_buffer at h
  split at h
  · simp at h
  · simp at h
  · rename_i w0 set0 hcreate
    refine ⟨w0, set0, hcreate, ?_⟩
    split at h
    · simp at h
    · rename_i w2 set2 himp
      simp only [Except.ok.injEq, Prod.mk.injEq, Option.some.injEq] at h
      obtain ⟨rfl, rfl⟩ := h
      exact himp
    · split at h <;> simp at h

theorem from_renderer_some (env : Env) (w w1 : World) (renderer : wlr_renderer)
    (set : wlr_texture_set)
    (h : wlr_texture_set_from_renderer env w renderer = .ok (w1, some set)) :
    w1 = { buffer := wlr_buffer_lock w.buffer
           listeners := w.listeners ++ listeners_of (set_renderers renderer) 0
           textures_created := w.textures_created
           trace := w.trace ++ [.alloc, .alloc] } ∧
    set.pairings = (set_renderers renderer).map fresh_pair ∧
    set.native_pair = -1 ∧ set.pixel_data = none := by
  rcases from_renderer_spec env w renderer with ⟨h1, -⟩ | ⟨h1, -⟩ | ⟨s, h1, hp, hn, hd, -⟩
  · rw [h1] at h; simp at h
  · rw [h1] at h; simp at h
  · rw [h1] at h
    simp only [Except.ok.injEq, Prod.mk.injEq, Option.some.injEq] at h
    obtain ⟨rfl, rfl⟩ := h
    exact ⟨rfl, hp, hn, hd⟩

/-- C22, as stated, fails on the code: asked to upload a 0x4 image to renderer
1, the call does not return NULL; it stops on the failed assertion
`width > 0`. -/
theorem from_pixels_zero_width_asserts :
    wlr_texture_from_pixels envAB world0 (some 1) DRM_FORMAT_ARGB8888 16 0 4 (some [0]) =
      .error .assertion ∧
    ∀ w1, wlr_texture_from_pixels envAB world0 (some 1) DRM_FORMAT_ARGB8888 16 0 4 (some [0]) ≠
      .ok (w1, none) :=
  ⟨rfl, fun _ h => by simp [wlr_texture_from_pixels] at h⟩

/-- C22, amended: wlr_texture_from_pixels called with zero width, zero height,
zero stride or null data stops on a failed assertion (it does not return, and it
makes no allocation and no renderer call); with valid arguments it allocates the
temporary read-only buffer and returns exactly what importing that buffer with
the renderer returns, or NULL when the temporary buffer could not be
allocated. -/
theorem from_pixels_argument_check (env : Env) (w : World) (renderer : Option Nat)
    (fmt stride width height : Nat) (data : Option PixelData) :
    ((width = 0 ∨ height = 0 ∨ stride = 0 ∨ data = none) →
      wlr_texture_from_pixels env w renderer fmt stride width height data =
        .error .assertion) ∧
    (∀ d, 0 < width → 0 < height → 0 < stride → data = some d →
      wlr_texture_from_pixels env w renderer fmt stride width height data =
        if env.alloc w.trace then
          wlr_texture_from_buffer env (w.log .alloc) renderer
            (.pixels fmt stride width height d)
        else .ok (w.log .alloc, none)) := by
  constructor
  · intro h
    unfold wlr_texture_from_pixels
    by_cases h1 : width = 0
    · simp [h1]
    by_cases h2 : height = 0
    · simp [h1, h2]
    by_cases h3 : stride = 0
    · simp [h1, h2, h3]
    have h4 : data = none := by tauto
    simp [h1, h2, h3, h4]
  · intro d hw hh hs hd
    unfold wlr_texture_from_pixels
    have h1 : width ≠ 0 := by omega
    have h2 : height ≠ 0 := by omega
    have h3 : stride ≠ 0 := by omega
    simp [h1, h2, h3, hd]

/-- The full three-renderer scenario is what the code produces from `setABC`
when the texture of renderer 3 is asked for. -/
theorem scenarioFull_created :
    run envAB [.get_tex (some 3)] worldABC setABC = .ok (worldFull, setFull) :=
  rfl

theorem texture_update_true (env : Env) (w : World) (t : wlr_texture) (next : wlr_buffer)
    (damage : pixman_region32)
    (h : (wlr_texture_update_from_buffer env w t next damage).2 = true) :
    (wlr_texture_update_from_buffer env w t next damage).1 =
      w.log (.texture_update t next damage) := by
  unfold wlr_texture_update_from_buffer at h ⊢
  split
  · rename_i h1; simp [h1] at h
  · rename_i h1
    split
    · rename_i h2; simp [h1, h2] at h
    · rename_i h2
      dsimp only
      split
      · rename_i h3; simp [h1, h2, h3] at h
      · rfl

theorem texture_update_world (env : Env) (w : World) (t : wlr_texture) (next : wlr_buffer)
    (damage : pixman_region32) :
    (wlr_texture_update_from_buffer env w t next damage).1 = w ∨
    (wlr_texture_update_from_buffer env w t next damage).1 =
      w.log (.texture_update t next damage) := by
  unfold wlr_texture_update_from_buffer
  split
  · left; rfl
  · split
    · left; rfl
    · dsimp only
      split
      · left; rfl
      · right; rfl

theorem update_loop_append (env : Env) (next : wlr_buffer) (damage : pixman_region32) :
    ∀ (ps qs : List wlr_texture_renderer_pair) (w : World),
      wlr_texture_set_update_from_buffer.loop env next damage (ps ++ qs) w =
        if (wlr_texture_set_update_from_buffer.loop env next damage ps w).2 = true then
          wlr_texture_set_update_from_buffer.loop env next damage qs
            (wlr_texture_set_update_from_buffer.loop env next damage ps w).1
        else ((wlr_texture_set_update_from_buffer.loop env next damage ps w).1, false) := by
  intro ps
  induction ps with
  | nil =>
    intro qs w
    simp [wlr_texture_set_update_from_buffer.loop]
  | cons p ps ih =>
    intro qs w
    rw [List.cons_append]
    cases hp : p.texture with
    | none =>
      rw [update_loop_cons_none env next damage p _ w hp,
        update_loop_cons_none env next damage p _ w hp, ih]
    | some t =>
      rw [update_loop_cons_some env next damage p _ w t hp,
        update_loop_cons_some env next damage p _ w t hp]
      by_cases hb : (wlr_texture_update_from_buffer env w t next damage).2 = true
      · simp only [hb, if_true]
        rw [ih]
      · simp [hb]

theorem update_loop_true_world (env : Env) (next : wlr_buffer) (damage : pixman_region32) :
    ∀ (ps : List wlr_texture_renderer_pair) (w : World),
      (wlr_texture_set_update_from_buffer.loop env next damage ps w).2 = true →
      (wlr_texture_set_update_from_buffer.loop env next damage ps w).1 =
        { w with trace := (w.trace ++ (ps.filterMap (fun p => p.texture)).map
            (fun u => Event.texture_update u next damage)) } := by
  intro ps
  induction ps with
  | nil =>
    intro w _
    simp [wlr_texture_set_update_from_buffer.loop]
  | cons p ps ih =>
    intro w h
    cases hp : p.texture with
    | none =>
      rw [update_loop_cons_none env next damage p _ w hp] at h ⊢
      rw [ih w h]
      simp [hp]
    | some t =>
      rw [update_loop_cons_some env next damage p _ w t hp] at h ⊢
      by_cases hb : (wlr_texture_update_from_buffer env w t next damage).2 = true
      · simp only [hb, if_true] at h ⊢
        rw [ih _ h, texture_update_true env w t next damage hb]
        simp [hp, World.log]
      · simp [hb] at h

/-- C23: early stop without rollback.  When the updates of all pairings before
index k succeed and the update of the texture of pairing k fails, then
wlr_texture_set_update_from_buffer returns false, and the renderer calls it has
made are exactly: one texture update for each texture-holding pairing with
index below k, in order (these are not undone), followed by at most the one
failing call on the texture of pairing k; no call is made for any pairing after
k, and nothing but the call log changes. -/
theorem early_stop_without_rollback (env : Env) (w : World) (set : wlr_texture_set)
    (next : wlr_buffer) (damage : pixman_region32) (k : Nat) (p : wlr_texture_renderer_pair)
    (t : wlr_texture) (hk : set.pairings[k]? = some p) (ht : p.texture = some t)
    (hbefore : (wlr_texture_set_update_from_buffer.loop env next damage
      (set.pairings.take k) w).2 = true)
    (hfail : (wlr_texture_update_from_buffer env
      (wlr_texture_set_update_from_buffer.loop env next damage (set.pairings.take k) w).1
      t next damage).2 = false) :
    (wlr_texture_set_update_from_buffer env w set next damage).2 = false ∧
    ∃ last, (last = [] ∨ last = [Event.texture_update t next damage]) ∧
      (wlr_texture_set_update_from_buffer env w set next damage).1 =
        { w with trace := (w.trace ++
            ((set.pairings.take k).filterMap (fun p => p.texture)).map
              (fun u => Event.texture_update u next damage) ++ last) } := by
  have hsplit : set.pairings = set.pairings.take k ++ p :: set.pairings.drop (k + 1) := by
    rw [← drop_of_getElem? set.pairings k p hk, List.take_append_drop]
  have hrun : wlr_texture_set_update_from_buffer env w set next damage =
      ((wlr_texture_update_from_buffer env
        (wlr_texture_set_update_from_buffer.loop env next damage (set.pairings.take k) w).1
        t next damage).1, false) := by
    unfold wlr_texture_set_update_from_buffer
    conv_lhs => rw [hsplit]
    rw [update_loop_append, if_pos hbefore, update_loop_cons_some env next damage p _ _ t ht]
    simp [hfail]
  rw [hrun]
  refine ⟨rfl, ?_⟩
  have hw := update_loop_true_world env next damage (set.pairings.take k) w hbefore
  rcases texture_update_world env
    (wlr_texture_set_update_from_buffer.loop env next damage (set.pairings.take k) w).1
    t next damage with h | h
  · refine ⟨[], Or.inl rfl, ?_⟩
    rw [h, hw, List.append_nil]
  · refine ⟨[Event.texture_update t next damage], Or.inr rfl, ?_⟩
    rw [h, hw]
    rfl

/-- C23 at the three-renderer set whose pairings all hold a texture, with a
renderer 2 whose update fails: the update fails first at pairing 1, the texture
of pairing 0 has been updated, the failing call on pairing 1 is the last call,
and the texture of pairing 2 is never touched. -/
theorem early_stop_without_rollback_witness :
    (wlr_texture_set_update_from_buffer envUpdateFailsB worldFull setFull
      worldFull.buffer damageAll).2 = false ∧
    ∃ last, (last = [] ∨ last = [Event.texture_update
        { id := 1, renderer := 2, width := 100, height := 50 } worldFull.buffer damageAll]) ∧
      (wlr_texture_set_update_from_buffer envUpdateFailsB worldFull setFull
        worldFull.buffer damageAll).1 =
        { worldFull with trace := (worldFull.trace ++
            ((setFull.pairings.take 1).filterMap (fun p => p.texture)).map
              (fun u => Event.texture_update u worldFull.buffer damageAll) ++ last) } :=
  early_stop_without_rollback envUpdateFailsB worldFull setFull worldFull.buffer damageAll 1
    { renderer := some 2,
      texture := some { id := 1, renderer := 2, width := 100, height := 50 } }
    { id := 1, renderer := 2, width := 100, height := 50 } rfl rfl rfl rfl

theorem destroy_loop_unlinked :
    ∀ (ps : List wlr_texture_renderer_pair) (i : Nat) (w : World) (j : Nat),
      i ≤ j → j < i + ps.length → (∀ l ∈ w.listeners, l.2 ≠ j) →
      destroy_loop ps i w = .error .null_deref := by
  intro ps
  induction ps with
  | nil =>
    intro i w j h1 h2 _
    simp at h2
    omega
  | cons p ps ih =>
    intro i w j h1 h2 hl
    simp only [destroy_loop]
    split
    · rename_i hany
      have hij : i ≠ j := by
        intro heq
        obtain ⟨l, hmem, hl2⟩ := List.any_eq_true.mp hany
        simp only [beq_iff_eq] at hl2
        exact hl l hmem (hl2.trans heq)
      have hl1 : ∀ l ∈ w.listeners.filter (fun l => l.2 != i), l.2 ≠ j :=
        fun l hmem => hl l (List.mem_filter.mp hmem).1
      simp only [List.length_cons] at h2
      split
      · exact ih (i + 1) _ j (by omega) (by omega) hl1
      · exact ih (i + 1) _ j (by omega) (by omega) hl1
    · rfl

/-- C24 fails on the code: once the destroy handler of a pairing has run (it
unlinks the listener of that pairing), wlr_texture_set_destroy removes the same
listener a second time, which is a NULL dereference on the unlinked list
node.  This holds for every set and every pairing whose handler ran. -/
theorem listener_removed_twice (w w1 : World) (set set1 : wlr_texture_set) (j : Nat)
    (h : handle_renderer_destroy w set j = .ok (w1, set1)) :
    wlr_texture_set_destroy w1 set1 = .error .null_deref := by
  have hlen := (handle_renderer_destroy_fields w w1 set set1 j h).2.2.2.2.2.2.1
  unfold handle_renderer_destroy at h
  split at h
  · simp at h
  · rename_i p hp
    dsimp only at h
    split at h
    · simp only [Except.ok.injEq, Prod.mk.injEq] at h
      obtain ⟨hw, -⟩ := h
      have hj : j < set.pairings.length := (List.getElem?_eq_some_iff.mp hp).1
      unfold wlr_texture_set_destroy
      apply destroy_loop_unlinked _ 0 _ j (Nat.zero_le _) (by omega)
      intro l hmem
      rw [← hw] at hmem
      have := (List.mem_filter.mp hmem).2
      simpa using this
    · simp at h

/-- C24 at the two-renderer set: renderer 2 is destroyed, its handler unlinks
the listener of pairing 1, and the destruction of the set then faults on that
listener. -/
theorem listener_removed_twice_witness :
    ∃ w1 set1, renderer_destroy worldAB setAB 2 = .ok (w1, set1) ∧
      handle_renderer_destroy worldAB setAB 1 = .ok (w1, set1) ∧
      wlr_texture_set_destroy w1 set1 = .error .null_deref :=
  ⟨_, _, rfl, rfl, listener_removed_twice worldAB _ setAB _ 1 rfl⟩


theorem mem_modify {α : Type} (f : α → α) (l : List α) (j : Nat) (p : α)
    (h : p ∈ l.modify f j) : ∃ q ∈ l, p = q ∨ p = f q := by
  obtain ⟨n, hn⟩ := List.mem_iff_getElem?.mp h
  rw [List.getElem?_modify] at hn
  cases hq : l[n]? with
  | none => simp [hq] at hn
  | some q =>
    rw [hq] at hn
    simp only [Option.map_eq_map, Option.map_some', Option.some.injEq] at hn
    refine ⟨q, List.mem_iff_getElem?.mpr ⟨n, hq⟩, ?_⟩
    by_cases hjn : j = n
    · right
      simp only [hjn, if_true] at hn
      exact hn.symm
    · left
      simp only [hjn, if_false] at hn
      exact hn.symm

theorem set_texture_none_clear (set : wlr_texture_set) (j : Nat)
    (h : ∀ p ∈ set.pairings, p.texture = none) :
    ∀ p ∈ (set_texture set j none).pairings, p.texture = none := by
  intro p hp
  obtain ⟨q, hq, hpq | hpq⟩ := mem_modify _ _ _ _ hp
  · rw [hpq]
    exact h q hq
  · rw [hpq]

theorem set_renderer_clear (set : wlr_texture_set) (j : Nat) (r : Option Nat)
    (h : ∀ p ∈ set.pairings, p.texture = none) :
    ∀ p ∈ (set_renderer set j r).pairings, p.texture = none := by
  intro p hp
  obtain ⟨q, hq, hpq | hpq⟩ := mem_modify _ _ _ _ hp
  · rw [hpq]
    exact h q hq
  · rw [hpq]
    exact h q hq

theorem texture_from_buffer_fault (env : Env) (w : World) (renderer : Option Nat)
    (src : Source) : wlr_texture_from_buffer env w renderer src ≠ .error .assertion := by
  unfold wlr_texture_from_buffer
  split
  · simp
  · dsimp only
    split
    · split <;> simp
    · simp

theorem walk_loop_no_assertion (env : Env) :
    ∀ (n i : Nat) (w : World) (set : wlr_texture_set),
      (∀ p ∈ set.pairings, p.texture = none) →
      walk_loop env n i w set ≠ .error .assertion := by
  intro n
  induction n with
  | zero =>
    intro i w set _
    simp [walk_loop]
  | succ n ih =>
    intro i w set h
    simp only [walk_loop]
    split
    · simp
    · rename_i p hp
      have hnone : p.texture = none := h p (List.mem_iff_getElem?.mpr ⟨i, hp⟩)
      simp only [hnone, Option.isSome_none, Bool.false_eq_true, if_false]
      split
      · rename_i f hf
        intro heq
        simp only [Except.error.injEq] at heq
        rw [heq] at hf
        exact texture_from_buffer_fault env w p.renderer _ hf
      · simp
      · exact ih (i + 1) _ _ (set_texture_none_clear set i h)

theorem get_tex_precondition (env : Env) (w w1 : World) (set set1 : wlr_texture_set)
    (renderer : Option Nat) (res : Option wlr_texture)
    (h : wlr_texture_set_get_tex_for_renderer env w set renderer = .ok (w1, set1, res))
    (hinv : walk_precondition set) : walk_precondition set1 := by
  by_cases hneg : set.native_pair < 0
  · unfold wlr_texture_set_get_tex_for_renderer at h
    dsimp only at h
    rw [if_pos hneg] at h
    split at h
    · simp at h
    · rename_i w2 set2 himp
      simp only [Except.ok.injEq, Prod.mk.injEq] at h
      obtain ⟨-, rfl, -⟩ := h
      unfold wlr_texture_set_import_buffer at himp
      obtain ⟨rs, -, -, -, -, -, h6⟩ := walk_loop_spec env _ _ _ _ _ _ _ himp
      rw [(h6 rfl).2.1]
      exact hinv
    · rename_i w2 set2 himp
      have hpos := (import_buffer_effect env _ set w2 set2 true hneg himp).2.1 rfl
      have hsame := (lookup_or_import_effect env w2 w1 set2 set1 renderer res h).1.native hpos
      intro hlt
      omega
  · have hsame := (get_tex_effect env w w1 set set1 renderer res h).1.native (by omega)
    intro hlt
    omega

theorem handle_renderer_destroy_precondition (w w1 : World) (set set1 : wlr_texture_set)
    (j : Nat) (h : handle_renderer_destroy w set j = .ok (w1, set1))
    (hinv : walk_precondition set) : walk_precondition set1 := by
  have hn := (handle_renderer_destroy_fields w w1 set set1 j h).1
  unfold handle_renderer_destroy at h
  split at h
  · simp at h
  · dsimp only at h
    split at h
    · simp only [Except.ok.injEq, Prod.mk.injEq] at h
      obtain ⟨-, rfl⟩ := h
      intro hlt
      rw [hn] at hlt
      exact set_texture_none_clear _ j (set_renderer_clear set j none (hinv hlt))
    · simp at h

theorem renderer_destroy_loop_precondition :
    ∀ (ls : List (Nat × Nat)) (w w1 : World) (set set1 : wlr_texture_set),
      renderer_destroy_loop ls w set = .ok (w1, set1) →
      walk_precondition set → walk_precondition set1 := by
  intro ls
  induction ls with
  | nil =>
    intro w w1 set set1 h hinv
    simp only [renderer_destroy_loop, Except.ok.injEq, Prod.mk.injEq] at h
    obtain ⟨-, rfl⟩ := h
    exact hinv
  | cons l ls ih =>
    intro w w1 set set1 h hinv
    simp only [renderer_destroy_loop] at h
    split at h
    · simp at h
    · rename_i w2 set2 hh
      exact ih w2 w1 set2 set1 h (handle_renderer_destroy_precondition w w2 set set2 l.2 hh hinv)

theorem perform_precondition (env : Env) (w w1 : World) (set set1 : wlr_texture_set)
    (q : Request) (h : perform env w set q = .ok (w1, set1))
    (hinv : walk_precondition set) : walk_precondition set1 := by
  cases q with
  | get_tex renderer =>
    simp only [perform] at h
    split at h
    · simp at h
    · rename_i w2 set2 res hget
      simp only [Except.ok.injEq, Prod.mk.injEq] at h
      obtain ⟨-, rfl⟩ := h
      exact get_tex_precondition env w w2 set set2 renderer res hget hinv
  | get_primary =>
    simp only [perform] at h
    split at h
    · simp at h
    · rename_i w2 set2 res hget
      simp only [Except.ok.injEq, Prod.mk.injEq] at h
      obtain ⟨-, rfl⟩ := h
      unfold wlr_texture_set_get_primary_texture at hget
      split at hget
      · exact get_tex_precondition env w w2 set set2 _ res hget hinv
      · split at hget
        · simp at hget
        · simp only [Except.ok.injEq, Prod.mk.injEq] at hget
          obtain ⟨-, rfl, -⟩ := hget
          exact hinv
  | get_native =>
    simp only [perform] at h
    split at h
    · simp at h
    · simp only [Except.ok.injEq, Prod.mk.injEq] at h
      obtain ⟨-, rfl⟩ := h
      exact hinv
  | update next damage =>
    simp only [perform, Except.ok.injEq, Prod.mk.injEq] at h
    obtain ⟨-, rfl⟩ := h
    exact hinv
  | renderer_destroy r =>
    simp only [perform] at h
    exact renderer_destroy_loop_precondition _ w w1 set set1 h hinv

theorem perform_all_precondition (env : Env) :
    ∀ (qs : List Request) (w w1 : World) (set set1 : wlr_texture_set),
      perform_all env qs w set = .ok (w1, set1) →
      walk_precondition set → walk_precondition set1 := by
  intro qs
  induction qs with
  | nil =>
    intro w w1 set set1 h hinv
    simp only [perform_all, Except.ok.injEq, Prod.mk.injEq] at h
    obtain ⟨-, rfl⟩ := h
    exact hinv
  | cons q qs ih =>
    intro w w1 set set1 h hinv
    simp only [perform_all] at h
    split at h
    · simp at h
    · rename_i w2 set2 hq
      exact ih w2 w1 set2 set1 h (perform_precondition env w w2 set set2 q hq hinv)

theorem created_precondition (env : Env) (w w0 : World) (renderer : wlr_renderer)
    (set0 : wlr_texture_set)
    (h : wlr_texture_set_from_renderer env w renderer = .ok (w0, some set0) ∨
      wlr_texture_set_from_buffer env w renderer = .ok (w0, some set0)) :
    walk_precondition set0 := by
  rcases h with h | h
  · obtain ⟨-, hp, -, -⟩ := from_renderer_some env w w0 renderer set0 h
    intro _ p hmem
    rw [hp] at hmem
    obtain ⟨r, -, rfl⟩ := List.mem_map.mp hmem
    rfl
  · obtain ⟨w2, set2, hcreate, himp⟩ := from_buffer_some env w w0 renderer set0 h
    obtain ⟨-, -, hn, -⟩ := from_renderer_some env w w2 renderer set2 hcreate
    have hpos := (import_buffer_effect env w2 set2 w0 set0 true (by rw [hn]; decide) himp).2.1 rfl
    intro hlt
    omega

/-- C25: the precondition of the import walk always holds.  In every state
reached from the creation of a set (by wlr_texture_set_from_renderer or
wlr_texture_set_from_buffer) through any sequence of texture requests, primary
and native texture reads, updates and renderer-destroy notifications, a
negative native index implies that no pairing holds a texture; hence in such a
state the import walk, entered in any world, never stops on its assertion that
a visited pairing has no texture. -/
theorem import_precondition_invariant (env : Env) (w w0 w1 : World) (renderer : wlr_renderer)
    (set0 set1 : wlr_texture_set) (reqs : List Request)
    (hcreate : wlr_texture_set_from_renderer env w renderer = .ok (w0, some set0) ∨
      wlr_texture_set_from_buffer env w renderer = .ok (w0, some set0))
    (hrun : perform_all env reqs w0 set0 = .ok (w1, set1)) :
    (set1.native_pair < 0 → ∀ p ∈ set1.pairings, p.texture = none) ∧
    (set1.native_pair < 0 →
      ∀ w2, wlr_texture_set_import_buffer env w2 set1 ≠ .error .assertion) := by
  have hinv : walk_precondition set1 :=
    perform_all_precondition env reqs w0 w1 set0 set1 hrun
      (created_precondition env w w0 renderer set0 hcreate)
  refine ⟨hinv, fun hlt w2 => ?_⟩
  unfold wlr_texture_set_import_buffer
  exact walk_loop_no_assertion env _ _ _ _ (hinv hlt)

/-- C25 on a set created without import for renderer 1 of the two-renderer
registry, whose renderers refuse the buffer: after a texture request (the walk
fails), the destruction of renderer 2 and an update, the native index is still
negative and no pairing holds a texture. -/
theorem import_precondition_invariant_witness :
    ∃ w0 set0 w1 set1,
      wlr_texture_set_from_renderer envRefuse world0 rendererA = .ok (w0, some set0) ∧
      perform_all envRefuse [.get_tex (some 1), .renderer_destroy 2, .update world0.buffer damageAll]
        w0 set0 = .ok (w1, set1) ∧
      set1.native_pair < 0 ∧
      (set1.native_pair < 0 → ∀ p ∈ set1.pairings, p.texture = none) ∧
      (set1.native_pair < 0 →
        ∀ w2, wlr_texture_set_import_buffer envRefuse w2 set1 ≠ .error .assertion) :=
  ⟨_, _, _, _, rfl, rfl, by decide,
    import_precondition_invariant envRefuse world0 _ _ rendererA _ _
      [.get_tex (some 1), .renderer_destroy 2, .update world0.buffer damageAll]
      (Or.inl rfl) rfl⟩

theorem params_add_inv (params params1 : wlr_linux_buffer_params_v1) (a : add_request)
    (done : List add_request) (hfd : 0 ≤ a.fd) (hinv : planes_inv params done)
    (h : params_add (some params) a.fd a.plane_idx a.offset a.stride a.modifier_hi
      a.modifier_lo = .ok params1) : planes_inv params1 (done ++ [a]) := by
  unfold params_add at h
  simp only at h
  split at h
  · simp at h
  · rename_i hidx
    split at h
    · simp at h
    · rename_i hunset
      split at h
      · simp at h
      · simp only [Except.ok.injEq] at h
        subst h
        have hlt : a.plane_idx < 4 := by
          simp only [WLR_DMABUF_MAX_PLANES] at hidx
          omega
        have hold : params.attributes.fd a.plane_idx = -1 := by
          by_contra hne
          exact hunset hne
        obtain ⟨h1, h2⟩ := hinv
        refine ⟨?_, ?_⟩
        · intro i hi
          by_cases hia : i = a.plane_idx
          · right
            subst hia
            simp only [Function.update_same]
            exact ⟨hfd, a, by simp, rfl, rfl, rfl, rfl⟩
          · simp only [Function.update_noteq hia]
            rcases h1 i hi with hu | ⟨hpos, b, hb, hrest⟩
            · left; exact hu
            · right
              exact ⟨hpos, b, List.mem_append_left _ hb, hrest⟩
        · simp only
          have hne : a.fd ≠ -1 := by omega
          have hcases : a.plane_idx = 0 ∨ a.plane_idx = 1 ∨ a.plane_idx = 2 ∨
              a.plane_idx = 3 := by omega
          rcases hcases with hp | hp | hp | hp <;>
          · rw [hp] at hold ⊢
            simp only [Function.update_same, Function.update_noteq, ne_eq, OfNat.ofNat_ne_zero,
              not_false_eq_true, OfNat.zero_ne_ofNat, OfNat.ofNat_ne_one, OfNat.one_ne_ofNat,
              one_ne_zero, zero_ne_one, Nat.reduceEqDiff, hne, if_false]
            rw [h2]
            simp only [hold, if_true]
            omega

theorem params_add_all_inv :
    ∀ (adds : List add_request) (params params1 : wlr_linux_buffer_params_v1)
      (done : List add_request),
      planes_inv params done → (∀ a ∈ adds, 0 ≤ a.fd) →
      params_add_all params adds = .ok params1 → planes_inv params1 (done ++ adds) := by
  intro adds
  induction adds with
  | nil =>
    intro params params1 done hinv _ h
    simp only [params_add_all, Except.ok.injEq] at h
    subst h
    simpa using hinv
  | cons a rest ih =>
    intro params params1 done hinv hfd h
    simp only [params_add_all] at h
    split at h
    · simp at h
    · rename_i params2 hadd
      have h2 := params_add_inv params params2 a done (hfd a (by simp)) hinv hadd
      have h3 := ih params2 params1 (done ++ [a]) h2
        (fun b hb => hfd b (List.mem_cons_of_mem _ hb)) h
      simpa using h3

theorem create_params_inv : planes_inv linux_dmabuf_create_params [] := by
  refine ⟨?_, ?_⟩
  · intro i hi
    left
    simp [linux_dmabuf_create_params, hi]
  · simp [linux_dmabuf_create_params, WLR_DMABUF_MAX_PLANES]

/-- C26: accepted dmabuf planes form a gap-free prefix.  Start from a new
params object, let any sequence of add requests with non-negative fds all be
accepted, and let the three `incomplete` checks of params_create_common pass.
Then `n_planes` is between 1 and 4, a plane below WLR_DMABUF_MAX_PLANES has its
fd set exactly when its index is below `n_planes`, and every plane with index
below `n_planes` (the planes the bounds loop visits) carries the fd, offset and
stride of one of the accepted requests for that plane. -/
theorem accepted_planes_gap_free (adds : List add_request)
    (params : wlr_linux_buffer_params_v1)
    (hadds : params_add_all linux_dmabuf_create_params adds = .ok params)
    (hfd : ∀ a ∈ adds, 0 ≤ a.fd)
    (hchecks : incomplete_checks params.attributes = .ok ()) :
    1 ≤ params.attributes.n_planes ∧ params.attributes.n_planes ≤ 4 ∧
    (∀ i, i < WLR_DMABUF_MAX_PLANES →
      (params.attributes.fd i ≠ -1 ↔ (i : Int) < params.attributes.n_planes)) ∧
    (∀ i : Nat, (i : Int) < params.attributes.n_planes →
      ∃ a ∈ adds, a.plane_idx = i ∧ params.attributes.fd i = a.fd ∧
        params.attributes.offset i = a.offset ∧ params.attributes.stride i = a.stride) := by
  have hinv := params_add_all_inv adds linux_dmabuf_create_params params [] create_params_inv
    hfd hadds
  simp only [List.nil_append] at hinv
  obtain ⟨h1, h2⟩ := hinv
  unfold incomplete_checks at hchecks
  split at hchecks
  · simp at hchecks
  rename_i hn
  split at hchecks
  · simp at hchecks
  rename_i h0
  split at hchecks
  · simp at hchecks
  rename_i hgap
  have a0 := h1 0 (by decide)
  have a1 := h1 1 (by decide)
  have a2 := h1 2 (by decide)
  have a3 := h1 3 (by decide)
  have s0 : params.attributes.fd 0 ≠ -1 := h0
  have hshape : (params.attributes.fd 1 = -1 → params.attributes.fd 2 = -1) ∧
      (params.attributes.fd 2 = -1 → params.attributes.fd 3 = -1) := by
    constructor
    · intro e1
      by_contra e2
      apply hgap
      rcases a2 with h | ⟨h, -⟩
      · exact absurd h e2
      · exact ⟨Or.inr h, Or.inr e1⟩
    · intro e2
      by_contra e3
      apply hgap
      rcases a3 with h | ⟨h, -⟩
      · exact absurd h e3
      · exact ⟨Or.inl h, Or.inl e2⟩
  have hcount : ∀ i, i < 4 →
      (params.attributes.fd i ≠ -1 ↔ (i : Int) < params.attributes.n_planes) := by
    intro i hi
    have hcases : i = 0 ∨ i = 1 ∨ i = 2 ∨ i = 3 := by omega
    rw [h2]
    rcases hcases with rfl | rfl | rfl | rfl <;>
    · by_cases e1 : params.attributes.fd 1 = -1 <;>
      by_cases e2 : params.attributes.fd 2 = -1 <;>
      by_cases e3 : params.attributes.fd 3 = -1 <;>
      simp [s0, e1, e2, e3] <;>
      first
        | exact absurd (hshape.1 e1) e2
        | exact absurd (hshape.2 e2) e3
  refine ⟨?_, ?_, hcount, ?_⟩
  · rw [h2]
    simp only [s0, if_false]
    split <;> split <;> split <;> omega
  · rw [h2]
    split <;> split <;> split <;> split <;> omega
  · intro i hi
    have hle : params.attributes.n_planes ≤ 4 := by
      rw [h2]
      split <;> split <;> split <;> split <;> omega
    have hi4 : i < 4 := by omega
    have hset := (hcount i hi4).mpr hi
    rcases h1 i hi4 with hu | ⟨-, a, ha, hrest⟩
    · exact absurd hu hset
    · exact ⟨a, ha, hrest⟩

/-- C26 for two planes added in order: both requests are accepted, the checks
pass, `n_planes` is 2 and planes 0 and 1 are the ones set. -/
theorem accepted_planes_gap_free_witness :
    ∃ params, params_add_all linux_dmabuf_create_params addsTwoPlanes = .ok params ∧
      incomplete_checks params.attributes = .ok () ∧
      params.attributes.n_planes = 2 ∧
      1 ≤ params.attributes.n_planes ∧ params.attributes.n_planes ≤ 4 ∧
      (∀ i, i < WLR_DMABUF_MAX_PLANES →
        (params.attributes.fd i ≠ -1 ↔ (i : Int) < params.attributes.n_planes)) ∧
      (∀ i : Nat, (i : Int) < params.attributes.n_planes →
        ∃ a ∈ addsTwoPlanes, a.plane_idx = i ∧ params.attributes.fd i = a.fd ∧
          params.attributes.offset i = a.offset ∧ params.attributes.stride i = a.stride) :=
  ⟨_, rfl, rfl, rfl,
    accepted_planes_gap_free addsTwoPlanes _ rfl (by decide) rfl⟩


theorem format_table_entries (formats : List wlr_drm_format) :
    (formats.flatMap (fun fmt => fmt.modifiers.map (fun m =>
      ({ format := fmt.format, modifier := m } : wlr_dmabuf_format_table_entry)))).length =
      (formats.map (fun fmt => fmt.modifiers.length)).sum := by
  induction formats with
  | nil => rfl
  | cons fmt rest ih =>
    simp only [List.flatMap_cons, List.length_append, List.length_map, List.map_cons,
      List.sum_cons, ih]

/-- C27 fails on the code: dmabuf_format_table_init stores the number of
formats, not the number of format/modifier pairs, in `format_table.len`.  For
every format set for which it succeeds, the table it fills has one entry per
pair and the shared file has the byte size of that many entries, while the
size feedback_send announces is the number of formats times the entry size
(as the 32-bit argument of the event);
the index array does hold the indices 0..pairs-1 in order (as uint16_t).  With
one format that has two modifiers and 16-byte entries the table is 32 bytes
and the announced size is 16 bytes. -/
theorem announced_size_counts_formats :
    (∀ (formats : List wlr_drm_format) (entry_size : Nat),
      ∃ table, dmabuf_format_table_init (some formats) true true true entry_size =
          .ok (some table) ∧
        table.data.length = pair_count formats ∧
        table.size = (pair_count formats * entry_size) % 2 ^ 64 ∧
        feedback_send_table_size table entry_size =
          (formats.length * entry_size) % 2 ^ 64 % 2 ^ 32 ∧
        (pair_count formats < 2 ^ 16 → table.indices = List.range (pair_count formats))) ∧
    (∃ table, dmabuf_format_table_init (some formatsOneFormatTwoModifiers) true true true 16 =
        .ok (some table) ∧
      table.data.length = 2 ∧ table.size = 32 ∧ table.indices = [0, 1] ∧
      feedback_send_table_size table 16 = 16) := by
  refine ⟨?_, ⟨_, rfl, rfl, rfl, rfl, rfl⟩⟩
  intro formats entry_size
  have hlen := format_table_entries formats
  unfold dmabuf_format_table_init
  simp only [Bool.not_true, Bool.false_eq_true, if_false, ne_eq, hlen, not_true_eq_false]
  refine ⟨_, rfl, hlen, rfl, rfl, ?_⟩
  intro hsmall
  simp only
  have hp : (formats.map (fun fmt => fmt.modifiers.length)).sum = pair_count formats := rfl
  rw [hp]
  have hdiv : pair_count formats * 2 % 2 ^ 64 / 2 = pair_count formats := by omega
  rw [hdiv]
  apply List.ext_getElem?
  intro n
  rw [List.getElem?_map]
  by_cases hn : n < pair_count formats
  · rw [List.getElem?_range hn]
    simp only [Option.map_some', Option.some.injEq]
    omega
  · rw [List.getElem?_eq_none (by simpa using hn)]
    rfl

/-- C1 fails on the code once the native renderer is gone.  In the two-renderer
scenario the native import succeeded on renderer 1, renderer 2 is a member
whose pairing holds no texture and whose direct import is refused; after the
destroy notification of renderer 1 the request for renderer 2 does not return
the upload of a linear copy: it stops on the assertion of
wlr_texture_set_get_linear_data that the native pairing holds a texture.  The
same happens with the linear copy already cached: in the three-renderer
scenario the request for renderer 3 returns the uploaded 100x50 texture before
the notification and stops on the assertion after it. -/
theorem fallback_aborts_after_native_destroyed :
    (∃ w1 set1,
      wlr_texture_set_from_buffer envAB world0 rendererA = .ok (worldAB, some setAB) ∧
      renderer_destroy worldAB setAB 1 = .ok (w1, set1) ∧
      set1.native_pair = 0 ∧
      set1.pairings[1]? = some ⟨some 2, none⟩ ∧
      (∀ tr, renderer_answer envAB tr 2 (.buffer 100 50) = none) ∧
      wlr_texture_set_get_tex_for_renderer envAB w1 set1 (some 2) = .error .assertion) ∧
    (∃ w1 set1,
      renderer_destroy worldABC setABC 1 = .ok (w1, set1) ∧
      set1.native_pair = 0 ∧
      set1.pixel_data = some [7, 7, 7, 7] ∧
      set1.pairings[2]? = some ⟨some 3, none⟩ ∧
      (∀ tr, renderer_answer envAB tr 3 (.buffer 100 50) = none) ∧
      wlr_texture_set_get_tex_for_renderer envAB worldABC setABC (some 3) =
        .ok (worldFull, setFull, some ⟨2, 3, 100, 50⟩) ∧
      wlr_texture_set_get_tex_for_renderer envAB w1 set1 (some 3) = .error .assertion) :=
  ⟨⟨_, _, rfl, rfl, rfl, rfl, fun _ => rfl, rfl⟩,
    ⟨_, _, rfl, rfl, rfl, rfl, fun _ => rfl, rfl, rfl⟩⟩

/-- C13 fails on the code for a set whose first renderer was destroyed before
the first import.  The set is created without import for the registry of
renderers 1 and 2, renderer 1 is destroyed, and renderer 3, bound to no pairing
of the set, is asked for: the call does not return NULL, the import walk passes
the cleared (NULL) renderer of pairing 0 to wlr_texture_from_buffer, which
dereferences it. -/
theorem non_member_request_after_destroy_faults :
    ∃ w0 set0 w1 set1,
      wlr_texture_set_from_renderer envAB world0 rendererA = .ok (w0, some set0) ∧
      renderer_destroy w0 set0 1 = .ok (w1, set1) ∧
      set1.pairings = [⟨none, none⟩, ⟨some 2, none⟩] ∧
      (∀ p ∈ set1.pairings, p.renderer ≠ some 3) ∧
      wlr_texture_set_get_tex_for_renderer envAB w1 set1 (some 3) = .error .null_deref :=
  ⟨_, _, _, _, rfl, rfl, rfl, by decide, rfl⟩

end WlrTexture
